import Mathlib

/-!
# Verification of the nn11 aim-assist core

A shallow embedding of `src/src/core/ColorDetection.cpp`,
`src/src/core/MouseController.cpp`, `src/src/core/ScreenCapture.cpp` (portable
path) and `src/src/core/Tracker.cpp`.

Conventions of the embedding:

* C++ `int` is `Int`, and the integer division of C++ (truncation toward
  zero) is `Int.tdiv`. Where a result depends on the range of `int`, the
  bounds `INT_MIN` and `INT_MAX` are explicit and a computation that leaves
  the range has no result (`none`).
* C++ `double` has two embeddings. In the first it is an arbitrary linearly
  ordered field `α` carrying a floor function (`ℚ` when a definition is
  evaluated, `ℝ` when an exact square root is wanted): arithmetic is exact,
  and there is no NaN or infinity. It serves the properties that do not
  depend on how an operation rounds. In the second (section `Binary64`, names
  with the suffix `64`) a `double` is a rational number and every operation
  is followed by the rounding of IEEE 754 binary64 arithmetic, `rnd64`; it
  serves the properties of `getRandomDelay`, `generateBezierPath`,
  `moveSmoothly` and `applyAimAssist` that do depend on it. NaN is `none` in
  the two definitions that follow a NaN argument through
  `setRandomizationFactor` and `getRandomDelay`.
* `std::sqrt` is a parameter `sqrt : α → α`.
* the OpenCV image operations are the fields of a record `OpenCV`, over an
  abstract image type `M`.
* `m_distribution(m_rng)` reads the head of a stream of draws and advances it.
* `emit` appends to a list of signals returned by the operation.
* a `QElapsedTimer` is the clock reading at its last start; the operations that
  read the clock take the current reading `now` as an argument.
-/

namespace NN11

/-! ## Library types -/

/-- Qt's `QPoint`: integer coordinates. -/
structure QPoint where
  x : Int
  y : Int
  deriving DecidableEq, Repr

/-- Qt's `QRect`, given by top-left corner, width and height. -/
structure QRect where
  x : Int
  y : Int
  width : Int
  height : Int
  deriving DecidableEq, Repr

/-- A `QColor`, seen through `getHsv(&h, &s, &v)`: hue in -1..359 (-1 for an
achromatic color), saturation and value in 0..255. -/
structure QColor where
  h : Int
  s : Int
  v : Int
  deriving DecidableEq, Repr

/-- The color is one that `QColor::getHsv` can produce. -/
def QColor.valid (c : QColor) : Prop :=
  -1 ≤ c.h ∧ c.h ≤ 359 ∧ 0 ≤ c.s ∧ c.s ≤ 255 ∧ 0 ≤ c.v ∧ c.v ≤ 255

instance (c : QColor) : Decidable c.valid := by
  unfold QColor.valid; exact inferInstance

/-- The first three channels of a `cv::Scalar` (four doubles; the fourth is
left 0 by the three-argument constructor and is never read here). -/
structure Scalar (α : Type) where
  v0 : α
  v1 : α
  v2 : α
  deriving DecidableEq, Repr

/-- Models `std::clamp(v, lo, hi)`. -/
def clamp {β : Type} [LT β] [DecidableRel (fun a b : β => a < b)] (v lo hi : β) : β :=
  if v < lo then lo else if hi < v then hi else v

/-- Models `static_cast<int>(x)` for a double `x`: truncation toward zero. -/
def truncToInt {α : Type} [LinearOrderedField α] [FloorRing α] (x : α) : Int :=
  if 0 ≤ x then ⌊x⌋ else ⌈x⌉

/-! ## ColorDetection.h -/

/-- Models `struct DetectedTarget`. -/
structure DetectedTarget (α : Type) where
  center : QPoint
  boundingBox : QRect
  confidence : α
  distanceFromCenter : α
  area : α
  deriving DecidableEq, Repr

/-- Models `struct ColorRange`. -/
structure ColorRange (α : Type) where
  lower : Scalar α
  upper : Scalar α
  deriving DecidableEq, Repr

/-- The data members of `class ColorDetection`. -/
structure ColorDetection (α : Type) where
  m_targetColor : QColor
  m_colorTolerance : Int
  m_fovRadius : Int
  m_minArea : α
  m_maxArea : α
  m_morphologyEnabled : Bool
  m_lastDetectionTime : α
  m_lastTargetCount : Int
  deriving DecidableEq, Repr

/-- The signals of `class ColorDetection`. -/
inductive DetectionSignal (α : Type) where
  | targetDetected (target : DetectedTarget α)
  | detectionComplete (targetCount : Int) (timeMs : α)
  deriving DecidableEq, Repr

/-- What `cv::contourArea`, `cv::boundingRect` and `cv::moments` report for one
contour found by `cv::findContours`. -/
structure Contour (α : Type) where
  area : α
  boundingRect : QRect
  m00 : α
  m10 : α
  m01 : α
  deriving DecidableEq, Repr

/-- The OpenCV operations that `ColorDetection` calls, over an image type `M`. -/
structure OpenCV (M : Type) (α : Type) where
  /-- Models `Mat::empty()` -/
  empty : M → Bool
  /-- Models `Mat::cols` -/
  cols : M → Int
  /-- Models `Mat::rows` -/
  rows : M → Int
  /-- Models `cv::cvtColor(frame, hsv, cv::COLOR_BGR2HSV)` -/
  cvtColorBGR2HSV : M → M
  /-- Models `cv::inRange(hsv, lower, upper, mask)` -/
  inRange : M → Scalar α → Scalar α → M
  /-- Models `cv::Mat::zeros(size, CV_8UC1)`, the size given as columns and rows -/
  zeros : Int → Int → M
  /-- Models `cv::circle(mask, center, radius, cv::Scalar(255), -1)` -/
  circle : M → QPoint → Int → M
  /-- Models `cv::bitwise_and(a, b, dst)` -/
  bitwise_and : M → M → M
  /-- Models `cv::morphologyEx(src, dst, cv::MORPH_OPEN, kernel)`, 3x3 ellipse kernel -/
  morphOpen : M → M
  /-- Models `cv::morphologyEx(src, dst, cv::MORPH_CLOSE, kernel)`, 3x3 ellipse kernel -/
  morphClose : M → M
  /-- Models `cv::findContours(mask, contours, cv::RETR_EXTERNAL, cv::CHAIN_APPROX_SIMPLE)`,
  each contour with its area, bounding rectangle and moments -/
  findContours : M → List (Contour α)

/-- Models `std::sort(first, last, less)`: a sorting of the list by the strict
comparison `less` (here by insertion, which keeps equivalent elements in their
original order; `std::sort` promises no particular order among them). -/
def stdSort {T : Type} (less : T → T → Prop) [DecidableRel less] (l : List T) : List T :=
  List.insertionSort (fun a b => ¬ less b a) l

section ColorDetectionCode

variable {α : Type} [LinearOrderedField α] [FloorRing α]

/-- Models `ColorDetection::ColorDetection`; `Qt::red` has HSV (0, 255, 255). -/
def ColorDetection.init : ColorDetection α :=
  { m_targetColor := ⟨0, 255, 255⟩
    m_colorTolerance := 30
    m_fovRadius := 150
    m_minArea := 50
    m_maxArea := 50000
    m_morphologyEnabled := true
    m_lastDetectionTime := 0
    m_lastTargetCount := 0 }

def ColorDetection.setTargetColor (s : ColorDetection α) (color : QColor) : ColorDetection α :=
  { s with m_targetColor := color }

def ColorDetection.getTargetColor (s : ColorDetection α) : QColor := s.m_targetColor

def ColorDetection.setColorTolerance (s : ColorDetection α) (tolerance : Int) :
    ColorDetection α :=
  { s with m_colorTolerance := clamp tolerance 0 100 }

def ColorDetection.getColorTolerance (s : ColorDetection α) : Int := s.m_colorTolerance

def ColorDetection.setFOVRadius (s : ColorDetection α) (radius : Int) : ColorDetection α :=
  { s with m_fovRadius := clamp radius 50 500 }

def ColorDetection.getFOVRadius (s : ColorDetection α) : Int := s.m_fovRadius

def ColorDetection.setMinArea (s : ColorDetection α) (area : α) : ColorDetection α :=
  { s with m_minArea := area }

def ColorDetection.getMinArea (s : ColorDetection α) : α := s.m_minArea

def ColorDetection.setMaxArea (s : ColorDetection α) (area : α) : ColorDetection α :=
  { s with m_maxArea := area }

def ColorDetection.getMaxArea (s : ColorDetection α) : α := s.m_maxArea

def ColorDetection.setMorphologyEnabled (s : ColorDetection α) (enabled : Bool) :
    ColorDetection α :=
  { s with m_morphologyEnabled := enabled }

def ColorDetection.isMorphologyEnabled (s : ColorDetection α) : Bool := s.m_morphologyEnabled

def ColorDetection.getLastDetectionTime (s : ColorDetection α) : α := s.m_lastDetectionTime

def ColorDetection.getLastTargetCount (s : ColorDetection α) : Int := s.m_lastTargetCount

/-- Models `ColorDetection::calculateColorRange`. -/
def calculateColorRange (color : QColor) (tolerance : Int) : ColorRange α :=
  let h := color.h
  let s := color.s
  let v := color.v
  let hTolerance := Int.tdiv (tolerance * 180) 100
  let svTolerance := Int.tdiv (tolerance * 255) 100
  let cvH := Int.tdiv h 2
  { lower := ⟨((max 0 (cvH - hTolerance) : Int) : α),
              ((max 0 (s - svTolerance) : Int) : α),
              ((max 0 (v - svTolerance) : Int) : α)⟩
    upper := ⟨((min 180 (cvH + hTolerance) : Int) : α),
              ((min 255 (s + svTolerance) : Int) : α),
              ((min 255 (v + svTolerance) : Int) : α)⟩ }

/-- Models `ColorDetection::createFOVMask`. -/
def createFOVMask {M : Type} (cv : OpenCV M α) (cols rows : Int) (center : QPoint)
    (radius : Int) : M :=
  let mask := cv.zeros cols rows
  cv.circle mask center radius

/-- Models `ColorDetection::applyMorphology`. -/
def applyMorphology {M : Type} (cv : OpenCV M α) (mask : M) : M :=
  let result := cv.morphOpen mask
  cv.morphClose result

/-- Models `ColorDetection::calculateConfidence`. -/
def calculateConfidence (s : ColorDetection α) (area distanceFromCenter : α) : α :=
  let areaScore := min (area / 1000) 1
  let distanceScore := max 0 (1 - distanceFromCenter / (s.m_fovRadius : α))
  areaScore * (4 / 10) + distanceScore * (6 / 10)

/-- The body of the `for` loop of `findTargets` after the two `continue`
guards: the target built from one contour. -/
def makeTarget (sqrt : α → α) (s : ColorDetection α) (screenCenter : QPoint)
    (contour : Contour α) : DetectedTarget α :=
  let area := contour.area
  let centerX := truncToInt (contour.m10 / contour.m00)
  let centerY := truncToInt (contour.m01 / contour.m00)
  let dx : α := ((centerX - screenCenter.x : Int) : α)
  let dy : α := ((centerY - screenCenter.y : Int) : α)
  let distance := sqrt (dx * dx + dy * dy)
  { center := ⟨centerX, centerY⟩
    boundingBox := ⟨contour.boundingRect.x, contour.boundingRect.y,
                    contour.boundingRect.width, contour.boundingRect.height⟩
    area := area
    distanceFromCenter := distance
    confidence := calculateConfidence s area distance }

/-- The `for (const auto& contour : contours)` loop of `findTargets`:
`targets` is the vector built so far. -/
def findTargetsLoop (sqrt : α → α) (s : ColorDetection α) (screenCenter : QPoint) :
    List (Contour α) → List (DetectedTarget α) → List (DetectedTarget α)
  | [], targets => targets
  | contour :: rest, targets =>
    if contour.area < s.m_minArea ∨ contour.area > s.m_maxArea then
      findTargetsLoop sqrt s screenCenter rest targets
    else if contour.m00 = 0 then
      findTargetsLoop sqrt s screenCenter rest targets
    else
      findTargetsLoop sqrt s screenCenter rest
        (targets ++ [makeTarget sqrt s screenCenter contour])

/-- The two centroid quotients of `findTargets` with a defined result only for a
non-zero divisor: `none` when `moments.m00` is 0. -/
def centroidChecked (contour : Contour α) : Option (Int × Int) :=
  if contour.m00 = 0 then none
  else some (truncToInt (contour.m10 / contour.m00), truncToInt (contour.m01 / contour.m00))

/-- The loop of `findTargets` once more, the two divisions now checked: the
result is `none` as soon as an iteration divides by a zero `m00`. -/
def findTargetsLoopChecked (sqrt : α → α) (s : ColorDetection α) (screenCenter : QPoint) :
    List (Contour α) → List (DetectedTarget α) → Option (List (DetectedTarget α))
  | [], targets => some targets
  | contour :: rest, targets =>
    if contour.area < s.m_minArea ∨ contour.area > s.m_maxArea then
      findTargetsLoopChecked sqrt s screenCenter rest targets
    else if contour.m00 = 0 then
      findTargetsLoopChecked sqrt s screenCenter rest targets
    else
      match centroidChecked contour with
      | none => none
      | some _ =>
        findTargetsLoopChecked sqrt s screenCenter rest
          (targets ++ [makeTarget sqrt s screenCenter contour])

/-- Models `ColorDetection::findTargets`. -/
def findTargets {M : Type} (cv : OpenCV M α) (sqrt : α → α) (s : ColorDetection α)
    (mask : M) (screenCenter : QPoint) : List (DetectedTarget α) :=
  let contours := cv.findContours mask
  let targets := findTargetsLoop sqrt s screenCenter contours []
  stdSort (fun a b : DetectedTarget α => a.distanceFromCenter < b.distanceFromCenter) targets

/-- The outcome of one call of `detect`: the returned vector, the object
afterwards, and the signals emitted, in order. -/
structure DetectResult (α : Type) where
  targets : List (DetectedTarget α)
  state : ColorDetection α
  signals : List (DetectionSignal α)

/-- Models `ColorDetection::detect`; `elapsed` is what `timer.elapsed()` (a `qint64`,
in milliseconds) reads at the end of the call. The parameter `screenCenter` is
not used by the body. -/
def detect {M : Type} (cv : OpenCV M α) (sqrt : α → α) (elapsed : Int)
    (s : ColorDetection α) (frame : M) (_screenCenter : QPoint) : DetectResult α :=
  if cv.empty frame then
    { targets := []
      state := { s with m_lastDetectionTime := 0, m_lastTargetCount := 0 }
      signals := [] }
  else
    let hsv := cv.cvtColorBGR2HSV frame
    let range : ColorRange α := calculateColorRange s.m_targetColor s.m_colorTolerance
    let colorMask := cv.inRange hsv range.lower range.upper
    let frameCenter : QPoint := ⟨Int.tdiv (cv.cols frame) 2, Int.tdiv (cv.rows frame) 2⟩
    let fovMask := createFOVMask cv (cv.cols frame) (cv.rows frame) frameCenter s.m_fovRadius
    let colorMask := cv.bitwise_and colorMask fovMask
    let colorMask := if s.m_morphologyEnabled then applyMorphology cv colorMask else colorMask
    let targets := findTargets cv sqrt s colorMask frameCenter
    let s1 : ColorDetection α :=
      { s with m_lastDetectionTime := (elapsed : α), m_lastTargetCount := (targets.length : Int) }
    let signals1 := [DetectionSignal.detectionComplete s1.m_lastTargetCount s1.m_lastDetectionTime]
    let signals2 :=
      match targets with
      | [] => signals1
      | first :: _ => signals1 ++ [DetectionSignal.targetDetected first]
    { targets := targets, state := s1, signals := signals2 }

end ColorDetectionCode

/-! ## MouseController.h -/

/-- Models `struct BezierPoint`. -/
structure BezierPoint (α : Type) where
  x : α
  y : α
  deriving DecidableEq, Repr

/-- The generator `m_rng` together with `m_distribution`: the stream of the
values that the successive calls `m_distribution(m_rng)` will return. -/
abbrev Rng (α : Type) := Nat → α

/-- One call `m_distribution(m_rng)`: the value drawn and the generator afterwards. -/
def Rng.next {α : Type} (g : Rng α) : α × Rng α := (g 0, fun n => g (n + 1))

/-- The data members of `class MouseController`; `m_movementTimer` is
represented by its interval and its active flag, and `cursor` is the global
pointer position that `QCursor::pos()` reads. -/
structure MouseController (α : Type) where
  m_aimAssistStrength : Int
  m_responseSpeed : Int
  m_isMoving : Bool
  m_humanizeEnabled : Bool
  m_randomizationFactor : α
  m_timerInterval : Int
  m_timerActive : Bool
  m_currentPath : List (BezierPoint α)
  m_pathIndex : Int
  m_targetPosition : QPoint
  m_rng : Rng α
  cursor : QPoint

section MouseControllerCode

variable {α : Type} [LinearOrderedField α] [FloorRing α]

/-- Models `MouseController::MouseController`; the generator is seeded from the clock
(`seed`), the pointer is wherever it is (`cursor`). -/
def MouseController.init (seed : Rng α) (cursor : QPoint) : MouseController α :=
  { m_aimAssistStrength := 30
    m_responseSpeed := 50
    m_isMoving := false
    m_humanizeEnabled := true
    m_randomizationFactor := 3 / 10
    m_timerInterval := 1
    m_timerActive := false
    m_currentPath := []
    m_pathIndex := 0
    m_targetPosition := ⟨0, 0⟩
    m_rng := seed
    cursor := cursor }

def MouseController.setAimAssistStrength (m : MouseController α) (strength : Int) :
    MouseController α :=
  { m with m_aimAssistStrength := clamp strength 0 100 }

def MouseController.getAimAssistStrength (m : MouseController α) : Int := m.m_aimAssistStrength

def MouseController.setResponseSpeed (m : MouseController α) (speed : Int) :
    MouseController α :=
  { m with m_responseSpeed := clamp speed 0 100 }

def MouseController.getResponseSpeed (m : MouseController α) : Int := m.m_responseSpeed

def MouseController.setHumanizeEnabled (m : MouseController α) (enabled : Bool) :
    MouseController α :=
  { m with m_humanizeEnabled := enabled }

def MouseController.isHumanizeEnabled (m : MouseController α) : Bool := m.m_humanizeEnabled

def MouseController.setRandomizationFactor (m : MouseController α) (factor : α) :
    MouseController α :=
  { m with m_randomizationFactor := clamp factor 0 1 }

def MouseController.getRandomizationFactor (m : MouseController α) : α :=
  m.m_randomizationFactor

/-- Models `MouseController::bezierPoint`. -/
def bezierPoint (t : α) (p0 p1 p2 p3 : BezierPoint α) : BezierPoint α :=
  let u := 1 - t
  let tt := t * t
  let uu := u * u
  let uuu := uu * u
  let ttt := tt * t
  { x := uuu * p0.x + 3 * uu * t * p1.x + 3 * u * tt * p2.x + ttt * p3.x
    y := uuu * p0.y + 3 * uu * t * p1.y + 3 * u * tt * p2.y + ttt * p3.y }

/-- Models `MouseController::generateBezierPath`: the path, and the generator after
the four draws. The loop `for (int i = 0; i <= steps; ++i)` runs for
`i = 0, ..., steps` (not at all when `steps < 0`). For `steps = 0` the C++
code divides 0.0 by 0; the callers pass `steps >= 10`. -/
def generateBezierPath (sqrt : α → α) (g : Rng α) (start endP : QPoint) (steps : Int) :
    List (BezierPoint α) × Rng α :=
  let p0 : BezierPoint α := ⟨(start.x : α), (start.y : α)⟩
  let p3 : BezierPoint α := ⟨(endP.x : α), (endP.y : α)⟩
  let dx := p3.x - p0.x
  let dy := p3.y - p0.y
  let distance := sqrt (dx * dx + dy * dy)
  let offsetRange := distance * (3 / 10)
  let (r1, g1) := g.next
  let (r2, g2) := g1.next
  let (r3, g3) := g2.next
  let (r4, g4) := g3.next
  let p1 : BezierPoint α :=
    ⟨p0.x + dx * (3 / 10) + (r1 * 2 - 1) * offsetRange,
     p0.y + dy * (3 / 10) + (r2 * 2 - 1) * offsetRange⟩
  let p2 : BezierPoint α :=
    ⟨p0.x + dx * (7 / 10) + (r3 * 2 - 1) * offsetRange,
     p0.y + dy * (7 / 10) + (r4 * 2 - 1) * offsetRange⟩
  let path := (List.range (steps + 1).toNat).map
    (fun (i : Nat) => bezierPoint (((i : Int) : α) / (steps : α)) p0 p1 p2 p3)
  (path, g4)

/-- Models `MouseController::getCurrentPosition`: `QCursor::pos()`. -/
def MouseController.getCurrentPosition (m : MouseController α) : QPoint := m.cursor

/-- Models `MouseController::isMoving`. -/
def MouseController.isMoving (m : MouseController α) : Bool := m.m_isMoving

/-- Models `MouseController::getRandomDelay`: the delay, and the object after the draw. -/
def getRandomDelay (m : MouseController α) : α × MouseController α :=
  let baseDelay : α := 1000 * (1 - (m.m_responseSpeed : α) / 100)
  let (r, g) := m.m_rng.next
  let variation := baseDelay * m.m_randomizationFactor * (r * 2 - 1)
  (max 0 (baseDelay + variation), { m with m_rng := g })

/-- Models `MouseController::addRandomOffset`: the point, and the object after the draws. -/
def addRandomOffset (m : MouseController α) (point : QPoint) (maxOffset : α) :
    QPoint × MouseController α :=
  if m.m_humanizeEnabled = false ∨ maxOffset ≤ 0 then
    (point, m)
  else
    let (r1, g1) := m.m_rng.next
    let offsetX := (r1 * 2 - 1) * maxOffset
    let (r2, g2) := g1.next
    let offsetY := (r2 * 2 - 1) * maxOffset
    (⟨point.x + truncToInt offsetX, point.y + truncToInt offsetY⟩, { m with m_rng := g2 })

/-- The loop `for (size_t i = 1; i < path.size() - 1; ++i)` of `addMicroMovements`:
the first argument counts the iterations that remain, the second is `i`. -/
def addMicroMovementsLoop :
    Nat → Nat → List (BezierPoint α) → Rng α → List (BezierPoint α) × Rng α
  | 0, _, path, g => (path, g)
  | n + 1, i, path, g =>
    let (r, g1) := g.next
    if r < 3 / 10 then
      let (rx, g2) := g1.next
      let (ry, g3) := g2.next
      match path[i]? with
      | some p =>
        addMicroMovementsLoop n (i + 1)
          (path.set i ⟨p.x + (rx * 2 - 1) * 2, p.y + (ry * 2 - 1) * 2⟩) g3
      | none => addMicroMovementsLoop n (i + 1) path g3
    else
      addMicroMovementsLoop n (i + 1) path g1

/-- Models `MouseController::addMicroMovements`: the path afterwards, and the
object after the draws. The loop body runs for `i = 1, ..., path.size() - 2`. -/
def addMicroMovements (m : MouseController α) (path : List (BezierPoint α)) :
    List (BezierPoint α) × MouseController α :=
  if m.m_humanizeEnabled = false ∨ path.isEmpty = true then
    (path, m)
  else
    let (path1, g) := addMicroMovementsLoop (path.length - 1 - 1) 1 path m.m_rng
    (path1, { m with m_rng := g })

/-- The signals of `class MouseController`. -/
inductive MouseSignal where
  | movementStarted
  | movementCompleted
  | positionChanged (pos : QPoint)
  deriving DecidableEq, Repr

/-- Models `MouseController::platformMove`: the pointer is placed at (x, y). -/
def platformMove (m : MouseController α) (x y : Int) : MouseController α :=
  { m with cursor := ⟨x, y⟩ }

/-- Models `MouseController::platformMoveRelative`: the pointer is displaced by (dx, dy). -/
def platformMoveRelative (m : MouseController α) (dx dy : Int) : MouseController α :=
  { m with cursor := ⟨m.cursor.x + dx, m.cursor.y + dy⟩ }

/-- Models `MouseController::moveToTarget`. -/
def moveToTarget (m : MouseController α) (target : QPoint) :
    MouseController α × List MouseSignal :=
  (platformMove m target.x target.y, [MouseSignal.positionChanged target])

/-- Models `MouseController::moveSmoothly`. The timer interval is 1 from the
constructor on; no member function changes it. -/
def moveSmoothly (sqrt : α → α) (m : MouseController α) (target : QPoint) (durationMs : Int) :
    MouseController α × List MouseSignal :=
  let m0 : MouseController α := if m.m_isMoving then { m with m_timerActive := false } else m
  let start := m0.getCurrentPosition
  let steps := max 10 (Int.tdiv durationMs m0.m_timerInterval)
  let (path, g) := generateBezierPath sqrt m0.m_rng start target steps
  let m1 : MouseController α := { m0 with m_rng := g }
  let (path1, m2) := if m1.m_humanizeEnabled then addMicroMovements m1 path else (path, m1)
  ({ m2 with
      m_currentPath := path1
      m_pathIndex := 0
      m_targetPosition := target
      m_isMoving := true
      m_timerActive := true },
   [MouseSignal.movementStarted])

/-- Models `MouseController::moveRelative`. -/
def moveRelative (m : MouseController α) (dx dy : Int) :
    MouseController α × List MouseSignal :=
  let m1 := platformMoveRelative m dx dy
  (m1, [MouseSignal.positionChanged m1.getCurrentPosition])

/-- The first part of `applyAimAssist` after the strength guard: the delta
(`assistDx`, `assistDy`) that is applied, random offset included when
humanization is enabled, and the object after the draws. -/
def assistDelta (m : MouseController α) (targetPos : QPoint) :
    QPoint × MouseController α :=
  let currentPos := m.getCurrentPosition
  let dx := targetPos.x - currentPos.x
  let dy := targetPos.y - currentPos.y
  let strength : α := (m.m_aimAssistStrength : α) / 100
  let assistDx := truncToInt ((dx : α) * strength)
  let assistDy := truncToInt ((dy : α) * strength)
  if m.m_humanizeEnabled then
    let (offset, m1) := addRandomOffset m ⟨0, 0⟩ 2
    (⟨assistDx + offset.x, assistDy + offset.y⟩, m1)
  else
    (⟨assistDx, assistDy⟩, m)

/-- Models `MouseController::applyAimAssist`. -/
def applyAimAssist (sqrt : α → α) (m : MouseController α) (targetPos : QPoint) :
    MouseController α × List MouseSignal :=
  if m.m_aimAssistStrength = 0 then
    (m, [])
  else
    let currentPos := m.getCurrentPosition
    let (assist, m1) := assistDelta m targetPos
    let (delay, m2) := getRandomDelay m1
    let duration := truncToInt (max 10 (delay * (1 / 2)))
    let newTarget : QPoint := ⟨currentPos.x + assist.x, currentPos.y + assist.y⟩
    if duration > 20 then
      moveSmoothly sqrt m2 newTarget duration
    else
      moveRelative m2 assist.x assist.y

/-- The integer point at which `onMovementTick` places the pointer for a path
point: both coordinates through `static_cast<int>`. -/
def BezierPoint.toQPoint (p : BezierPoint α) : QPoint := ⟨truncToInt p.x, truncToInt p.y⟩

/-- Models `MouseController::onMovementTick`. The read `m_currentPath[m_pathIndex]`
is defined for `0 <= m_pathIndex < size()`; the guard excludes the indices
from `size()` on, and for a negative index the result is `none`. -/
def onMovementTick (m : MouseController α) : Option (MouseController α × List MouseSignal) :=
  if m.m_pathIndex ≥ (m.m_currentPath.length : Int) then
    some ({ m with m_timerActive := false, m_isMoving := false },
          [MouseSignal.movementCompleted])
  else if m.m_pathIndex < 0 then
    none
  else
    match m.m_currentPath[m.m_pathIndex.toNat]? with
    | none => none
    | some point =>
      let m1 := platformMove m (truncToInt point.x) (truncToInt point.y)
      some ({ m1 with m_pathIndex := m.m_pathIndex + 1 },
            [MouseSignal.positionChanged ⟨truncToInt point.x, truncToInt point.y⟩])

end MouseControllerCode


/-! ## ScreenCapture.h -/

/-- Models `struct MonitorInfo`. -/
structure MonitorInfo (α : Type) where
  index : Int
  name : String
  geometry : QRect
  isPrimary : Bool
  dpi : α
  deriving DecidableEq, Repr

/-- A `QScreen` of `QGuiApplication::screens()`: what `detectMonitors` reads
from it, and the image that `grabWindow(0)` gives at the moment of a capture,
already converted to a BGR `cv::Mat`. -/
structure QScreen (M : Type) (α : Type) where
  name : String
  geometry : QRect
  isPrimary : Bool
  logicalDotsPerInch : α
  grabWindow : M

/-- The data members of `class ScreenCapture` on the portable path (the
members under `#ifdef _WIN32` are left out). -/
structure ScreenCapture (α : Type) where
  m_activeMonitor : Int
  m_lastCaptureTime : α
  m_monitors : List (MonitorInfo α)
  deriving DecidableEq, Repr

/-- The signals of `class ScreenCapture`. -/
inductive CaptureSignal where
  | monitorChanged (index : Int)
  | captureError (error : String)
  deriving DecidableEq, Repr

section ScreenCaptureCode

variable {α : Type} [LinearOrderedField α]

/-- The loop of `detectMonitors`: `i` is the index of the first screen of the list. -/
def detectMonitorsLoop {M : Type} : Int → List (QScreen M α) → List (MonitorInfo α)
  | _, [] => []
  | i, screen :: rest =>
    { index := i
      name := screen.name
      geometry := screen.geometry
      isPrimary := screen.isPrimary
      dpi := screen.logicalDotsPerInch } :: detectMonitorsLoop (i + 1) rest

/-- Models `ScreenCapture::detectMonitors`. -/
def ScreenCapture.detectMonitors {M : Type} (s : ScreenCapture α) (screens : List (QScreen M α)) :
    ScreenCapture α :=
  { s with m_monitors := detectMonitorsLoop 0 screens }

/-- Models `ScreenCapture::ScreenCapture` on the portable path. -/
def ScreenCapture.init {M : Type} (screens : List (QScreen M α)) : ScreenCapture α :=
  ScreenCapture.detectMonitors
    { m_activeMonitor := 0, m_lastCaptureTime := 0, m_monitors := [] } screens

/-- Models `ScreenCapture::getMonitors`. -/
def ScreenCapture.getMonitors (s : ScreenCapture α) : List (MonitorInfo α) := s.m_monitors

/-- Models `ScreenCapture::setActiveMonitor` on the portable path. -/
def ScreenCapture.setActiveMonitor (s : ScreenCapture α) (index : Int) :
    ScreenCapture α × List CaptureSignal :=
  if index ≥ 0 ∧ index < (s.m_monitors.length : Int) then
    ({ s with m_activeMonitor := index }, [CaptureSignal.monitorChanged index])
  else
    (s, [])

/-- Models `ScreenCapture::getActiveMonitor`. -/
def ScreenCapture.getActiveMonitor (s : ScreenCapture α) : Int := s.m_activeMonitor

/-- Models `ScreenCapture::getCurrentMonitorInfo`; `MonitorInfo{}` is all zero. -/
def ScreenCapture.getCurrentMonitorInfo (s : ScreenCapture α) : MonitorInfo α :=
  if s.m_activeMonitor ≥ 0 ∧ s.m_activeMonitor < (s.m_monitors.length : Int) then
    s.m_monitors.getD s.m_activeMonitor.toNat ⟨0, "", ⟨0, 0, 0, 0⟩, false, 0⟩
  else
    ⟨0, "", ⟨0, 0, 0, 0⟩, false, 0⟩

/-- Models `ScreenCapture::getScreenSize`: width and height. -/
def ScreenCapture.getScreenSize (s : ScreenCapture α) : Int × Int :=
  if s.m_activeMonitor ≥ 0 ∧ s.m_activeMonitor < (s.m_monitors.length : Int) then
    match s.m_monitors[s.m_activeMonitor.toNat]? with
    | some info => (info.geometry.width, info.geometry.height)
    | none => (1920, 1080)
  else
    (1920, 1080)

/-- Models `ScreenCapture::getScreenCenter`. -/
def ScreenCapture.getScreenCenter (s : ScreenCapture α) : QPoint :=
  let size := s.getScreenSize
  let offset : QPoint :=
    if s.m_activeMonitor ≥ 0 ∧ s.m_activeMonitor < (s.m_monitors.length : Int) then
      match s.m_monitors[s.m_activeMonitor.toNat]? with
      | some info => ⟨info.geometry.x, info.geometry.y⟩
      | none => ⟨0, 0⟩
    else
      ⟨0, 0⟩
  ⟨offset.x + Int.tdiv size.1 2, offset.y + Int.tdiv size.2 2⟩

/-- Models `ScreenCapture::getLastCaptureTime`. -/
def ScreenCapture.getLastCaptureTime (s : ScreenCapture α) : α := s.m_lastCaptureTime

/-- Models `ScreenCapture::capture` on the portable path: the frame and the object
afterwards. `QList::at(i)` requires `0 <= i < size()`; outside that range the
call has no defined result, which is `none` here. `elapsed` is what
`timer.elapsed()` reads at the end of the call. -/
def ScreenCapture.capture {M : Type} (screens : List (QScreen M α)) (elapsed : Int)
    (s : ScreenCapture α) : Option (M × ScreenCapture α) :=
  if 0 ≤ s.m_activeMonitor then
    match screens[s.m_activeMonitor.toNat]? with
    | some screen => some (screen.grabWindow, { s with m_lastCaptureTime := (elapsed : α) })
    | none => none
  else
    none

/-- The `cv::Rect(x, y, width, height)` that `captureRegion` builds on the
portable path for a full capture of `cols` columns and `rows` rows. -/
def captureRegionRect (cols rows : Int) (region : QRect) : QRect :=
  let x := max 0 region.x
  let y := max 0 region.y
  let width := min region.width (cols - x)
  let height := min region.height (rows - y)
  ⟨x, y, width, height⟩

/-- The condition under which `cv::Mat::operator()(const Rect&)` returns a
submatrix; otherwise OpenCV raises an assertion error. -/
def roiInside (cols rows : Int) (roi : QRect) : Prop :=
  0 ≤ roi.x ∧ 0 ≤ roi.width ∧ roi.x + roi.width ≤ cols
    ∧ 0 ≤ roi.y ∧ 0 ≤ roi.height ∧ roi.y + roi.height ≤ rows

instance (cols rows : Int) (roi : QRect) : Decidable (roiInside cols rows roi) := by
  unfold roiInside; exact inferInstance

/-- Models `ScreenCapture::captureRegion` on the portable path; `submatrix m r` is
`m(r).clone()` for a rectangle inside `m`. The result is `none` when the
capture has no defined result or the rectangle is not inside the frame. -/
def ScreenCapture.captureRegion {M : Type} (cv : OpenCV M α) (submatrix : M → QRect → M)
    (screens : List (QScreen M α)) (elapsed : Int) (s : ScreenCapture α) (region : QRect) :
    Option (M × ScreenCapture α) :=
  match s.capture screens elapsed with
  | none => none
  | some (fullCapture, s1) =>
    let rect := captureRegionRect (cv.cols fullCapture) (cv.rows fullCapture) region
    if roiInside (cv.cols fullCapture) (cv.rows fullCapture) rect then
      some (submatrix fullCapture rect, s1)
    else
      none

/-- Models `ScreenCapture::captureFOV`. -/
def ScreenCapture.captureFOV {M : Type} (cv : OpenCV M α) (submatrix : M → QRect → M)
    (screens : List (QScreen M α)) (elapsed : Int) (s : ScreenCapture α)
    (centerX centerY radius : Int) : Option (M × ScreenCapture α) :=
  let x := centerX - radius
  let y := centerY - radius
  let size := radius * 2
  s.captureRegion cv submatrix screens elapsed ⟨x, y, size, size⟩

end ScreenCaptureCode

/-! ## Sequences of setter calls -/

/-- A call of one of the setters of `ColorDetection`. -/
inductive DetectionSetter (α : Type) where
  | setTargetColor (color : QColor)
  | setColorTolerance (tolerance : Int)
  | setFOVRadius (radius : Int)
  | setMinArea (area : α)
  | setMaxArea (area : α)
  | setMorphologyEnabled (enabled : Bool)

/-- A call of one of the setters of `MouseController`. -/
inductive MouseSetter (α : Type) where
  | setAimAssistStrength (strength : Int)
  | setResponseSpeed (speed : Int)
  | setHumanizeEnabled (enabled : Bool)
  | setRandomizationFactor (factor : α)

section Setters

variable {α : Type} [LinearOrderedField α] [FloorRing α]

/-- The object after one setter call. -/
def DetectionSetter.apply (s : ColorDetection α) : DetectionSetter α → ColorDetection α
  | .setTargetColor c => s.setTargetColor c
  | .setColorTolerance t => s.setColorTolerance t
  | .setFOVRadius r => s.setFOVRadius r
  | .setMinArea a => s.setMinArea a
  | .setMaxArea a => s.setMaxArea a
  | .setMorphologyEnabled e => s.setMorphologyEnabled e

/-- The object after one setter call. -/
def MouseSetter.apply (m : MouseController α) : MouseSetter α → MouseController α
  | .setAimAssistStrength x => m.setAimAssistStrength x
  | .setResponseSpeed x => m.setResponseSpeed x
  | .setHumanizeEnabled e => m.setHumanizeEnabled e
  | .setRandomizationFactor f => m.setRandomizationFactor f

/-- The `ColorDetection` object after the constructor and a sequence of setter calls. -/
def detectionAfter (calls : List (DetectionSetter α)) : ColorDetection α :=
  calls.foldl DetectionSetter.apply ColorDetection.init

/-- The `MouseController` object after the constructor and a sequence of setter calls. -/
def mouseAfter (seed : Rng α) (cursor : QPoint) (calls : List (MouseSetter α)) :
    MouseController α :=
  calls.foldl MouseSetter.apply (MouseController.init seed cursor)

end Setters


/-! ## Tracker.h -/

/-- The data members of `class Tracker`. The three owned components are held
by value; each `QTimer` is represented by its interval and its active flag
(a new `QTimer` has interval 0 and is inactive), each `QElapsedTimer` by the
clock reading, in milliseconds, at its last `start()` or `restart()`. -/
structure Tracker (α : Type) where
  m_screenCapture : ScreenCapture α
  m_colorDetection : ColorDetection α
  m_mouseController : MouseController α
  m_trackerTimerInterval : Int
  m_trackerTimerActive : Bool
  m_statsTimerInterval : Int
  m_statsTimerActive : Bool
  m_runningTimer : Int
  m_frameTimer : Int
  m_isRunning : Bool
  m_isEnabled : Bool
  m_targetFPS : Int
  m_currentFPS : α
  m_frameCount : Int
  m_totalTargetsDetected : Int
  m_totalAssists : Int
  m_totalRunningTime : Int

/-- The signals of `class Tracker`. -/
inductive TrackerSignal (α : Type) where
  | started
  | stopped
  | fpsUpdated (fps : α)
  | targetFound (position : QPoint)
  | assistApplied (fromPos : QPoint) (toPos : QPoint)
  | statsUpdated (fps : α) (targets : Int) (assists : Int)
  deriving DecidableEq, Repr

/-- Models `std::max_element(first, last, comp)`: the first of the greatest
elements; `none` stands for the end iterator returned on an empty range. -/
def maxElement {T : Type} (comp : T → T → Prop) [DecidableRel comp] : List T → Option T
  | [] => none
  | first :: rest =>
    some (rest.foldl (fun largest x => if comp largest x then x else largest) first)

/-- What one tick of the tracker reads from outside the object: the OpenCV
operations, `std::sqrt`, the screens with their current content, and the
readings of the two elapsed timers of `capture` and `detect`. -/
structure TickEnv (M : Type) (α : Type) where
  cv : OpenCV M α
  sqrt : α → α
  screens : List (QScreen M α)
  captureElapsed : Int
  detectElapsed : Int

/-- The outcome of `processFrame` or `onTrackerTick`: the object afterwards and
the signals emitted by the tracker, by the extractor and by the mouse
controller, each in order. -/
structure TickResult (α : Type) where
  state : Tracker α
  signals : List (TrackerSignal α)
  detectionSignals : List (DetectionSignal α)
  mouseSignals : List MouseSignal

section TrackerCode

variable {α : Type} [LinearOrderedField α] [FloorRing α]

/-- Models `Tracker::Tracker`: the components are built from the screens present,
the seed of the generator and the position of the pointer. -/
def Tracker.init {M : Type} (screens : List (QScreen M α)) (seed : Rng α) (cursor : QPoint) :
    Tracker α :=
  { m_screenCapture := ScreenCapture.init screens
    m_colorDetection := ColorDetection.init
    m_mouseController := MouseController.init seed cursor
    m_trackerTimerInterval := 0
    m_trackerTimerActive := false
    m_statsTimerInterval := 1000
    m_statsTimerActive := false
    m_runningTimer := 0
    m_frameTimer := 0
    m_isRunning := false
    m_isEnabled := true
    m_targetFPS := 144
    m_currentFPS := 0
    m_frameCount := 0
    m_totalTargetsDetected := 0
    m_totalAssists := 0
    m_totalRunningTime := 0 }

/-- Models `Tracker::start`; `now` is the reading of the clock. -/
def Tracker.start (now : Int) (t : Tracker α) : Tracker α × List (TrackerSignal α) :=
  if t.m_isRunning then
    (t, [])
  else
    let interval := max 1 (Int.tdiv 1000 t.m_targetFPS)
    ({ t with
        m_isRunning := true
        m_frameCount := 0
        m_trackerTimerInterval := interval
        m_frameTimer := now
        m_runningTimer := now
        m_trackerTimerActive := true
        m_statsTimerActive := true },
     [TrackerSignal.started])

/-- Models `Tracker::stop`; `now` is the reading of the clock. -/
def Tracker.stop (now : Int) (t : Tracker α) : Tracker α × List (TrackerSignal α) :=
  if ¬ t.m_isRunning then
    (t, [])
  else
    ({ t with
        m_isRunning := false
        m_totalRunningTime := t.m_totalRunningTime + (now - t.m_runningTimer)
        m_trackerTimerActive := false
        m_statsTimerActive := false },
     [TrackerSignal.stopped])

/-- Models `Tracker::toggle`. -/
def Tracker.toggle (now : Int) (t : Tracker α) : Tracker α × List (TrackerSignal α) :=
  if t.m_isRunning then t.stop now else t.start now

/-- Models `Tracker::isRunning`. -/
def Tracker.isRunning (t : Tracker α) : Bool := t.m_isRunning

/-- Models `Tracker::setTargetFPS`. -/
def Tracker.setTargetFPS (t : Tracker α) (fps : Int) : Tracker α :=
  let t1 : Tracker α := { t with m_targetFPS := clamp fps 30 300 }
  if t1.m_isRunning then
    let interval := max 1 (Int.tdiv 1000 t1.m_targetFPS)
    { t1 with m_trackerTimerInterval := interval }
  else
    t1

/-- Models `Tracker::getTargetFPS`. -/
def Tracker.getTargetFPS (t : Tracker α) : Int := t.m_targetFPS

/-- Models `Tracker::setEnabled`. -/
def Tracker.setEnabled (t : Tracker α) (enabled : Bool) : Tracker α :=
  { t with m_isEnabled := enabled }

/-- Models `Tracker::isEnabled`. -/
def Tracker.isEnabled (t : Tracker α) : Bool := t.m_isEnabled

/-- Models `Tracker::getCurrentFPS`. -/
def Tracker.getCurrentFPS (t : Tracker α) : α := t.m_currentFPS

/-- Models `Tracker::getTotalTargetsDetected`. -/
def Tracker.getTotalTargetsDetected (t : Tracker α) : Int := t.m_totalTargetsDetected

/-- Models `Tracker::getTotalAssists`. -/
def Tracker.getTotalAssists (t : Tracker α) : Int := t.m_totalAssists

/-- Models `Tracker::getRunningTimeMs`; `now` is the reading of the clock. -/
def Tracker.getRunningTimeMs (now : Int) (t : Tracker α) : Int :=
  if t.m_isRunning then t.m_totalRunningTime + (now - t.m_runningTimer)
  else t.m_totalRunningTime

/-- Models `Tracker::selectBestTarget`. On an empty vector the C++ code
dereferences the end iterator; that is `none` here. -/
def selectBestTarget (targets : List (DetectedTarget α)) : Option (DetectedTarget α) :=
  match targets with
  | [only] => some only
  | _ =>
    maxElement
      (fun a b : DetectedTarget α =>
        a.confidence - (a.distanceFromCenter / 500) * (1 / 2)
          < b.confidence - (b.distanceFromCenter / 500) * (1 / 2))
      targets

/-- Models `Tracker::processFrame`; `none` when `capture` has no defined result. -/
def Tracker.processFrame {M : Type} (env : TickEnv M α) (t : Tracker α) :
    Option (TickResult α) :=
  match t.m_screenCapture.capture env.screens env.captureElapsed with
  | none => none
  | some (frame, sc1) =>
    let t1 : Tracker α := { t with m_screenCapture := sc1 }
    if env.cv.empty frame then
      some ⟨t1, [], [], []⟩
    else
      let screenCenter := t1.m_screenCapture.getScreenCenter
      let r := detect env.cv env.sqrt env.detectElapsed t1.m_colorDetection frame screenCenter
      let t2 : Tracker α := { t1 with m_colorDetection := r.state }
      if r.targets.isEmpty then
        some ⟨t2, [], r.signals, []⟩
      else
        let t3 : Tracker α :=
          { t2 with
            m_totalTargetsDetected := t2.m_totalTargetsDetected + (r.targets.length : Int) }
        match selectBestTarget r.targets with
        | none => none
        | some bestTarget =>
          if t3.m_mouseController.getAimAssistStrength > 0 then
            let currentPos := t3.m_mouseController.getCurrentPosition
            let (mc, mouseSignals) :=
              applyAimAssist env.sqrt t3.m_mouseController bestTarget.center
            some ⟨{ t3 with m_mouseController := mc, m_totalAssists := t3.m_totalAssists + 1 },
                  [TrackerSignal.targetFound bestTarget.center,
                   TrackerSignal.assistApplied currentPos bestTarget.center],
                  r.signals, mouseSignals⟩
          else
            some ⟨t3, [TrackerSignal.targetFound bestTarget.center], r.signals, []⟩

/-- Models `Tracker::onTrackerTick`. -/
def Tracker.onTrackerTick {M : Type} (env : TickEnv M α) (t : Tracker α) :
    Option (TickResult α) :=
  if ¬ t.m_isEnabled then
    some ⟨t, [], [], []⟩
  else
    match t.processFrame env with
    | none => none
    | some r => some { r with state := { r.state with m_frameCount := r.state.m_frameCount + 1 } }

/-- Models `Tracker::updateStats`; `now` is the reading of the clock. -/
def Tracker.updateStats (now : Int) (t : Tracker α) : Tracker α × List (TrackerSignal α) :=
  let elapsed := now - t.m_frameTimer
  let t1 : Tracker α :=
    if elapsed > 0 then
      { t with m_currentFPS := ((t.m_frameCount : α) * 1000) / (elapsed : α) }
    else t
  let t2 : Tracker α := { t1 with m_frameCount := 0, m_frameTimer := now }
  (t2, [TrackerSignal.fpsUpdated t2.m_currentFPS,
        TrackerSignal.statsUpdated t2.m_currentFPS t2.m_totalTargetsDetected t2.m_totalAssists])

end TrackerCode

/-- A call made on a `Tracker`: one of its member functions, one of its two
timer slots, or a setter of one of the components it hands out. -/
inductive TrackerCall (M : Type) (α : Type) where
  | start (now : Int)
  | stop (now : Int)
  | toggle (now : Int)
  | setTargetFPS (fps : Int)
  | setEnabled (enabled : Bool)
  | onTrackerTick (env : TickEnv M α)
  | updateStats (now : Int)
  | detectionSetter (call : DetectionSetter α)
  | mouseSetter (call : MouseSetter α)
  | setActiveMonitor (index : Int)


section TrackerCalls

variable {α : Type} [LinearOrderedField α] [FloorRing α]

/-- The tracker after one call; `none` when the call is a tick whose capture has
no defined result. -/
def TrackerCall.apply {M : Type} (t : Tracker α) : TrackerCall M α → Option (Tracker α)
  | .start now => some (t.start now).1
  | .stop now => some (t.stop now).1
  | .toggle now => some (t.toggle now).1
  | .setTargetFPS fps => some (t.setTargetFPS fps)
  | .setEnabled enabled => some (t.setEnabled enabled)
  | .onTrackerTick env => (t.onTrackerTick env).map TickResult.state
  | .updateStats now => some (t.updateStats now).1
  | .detectionSetter c => some { t with m_colorDetection := DetectionSetter.apply t.m_colorDetection c }
  | .mouseSetter c => some { t with m_mouseController := MouseSetter.apply t.m_mouseController c }
  | .setActiveMonitor index =>
    some { t with m_screenCapture := (t.m_screenCapture.setActiveMonitor index).1 }

/-- The tracker after a sequence of calls, starting from `t`. -/
def trackerAfterFrom {M : Type} : Tracker α → List (TrackerCall M α) → Option (Tracker α)
  | t, [] => some t
  | t, c :: rest =>
    match TrackerCall.apply t c with
    | none => none
    | some t1 => trackerAfterFrom t1 rest

/-- The tracker after the constructor and a sequence of calls. -/
def trackerAfter {M : Type} (screens : List (QScreen M α)) (seed : Rng α) (cursor : QPoint)
    (calls : List (TrackerCall M α)) : Option (Tracker α) :=
  trackerAfterFrom (Tracker.init screens seed cursor) calls

end TrackerCalls


/-- A call made on a `MouseController`: a setter, one of the movement
functions, or the slot of the movement timer. -/
inductive MouseCall (α : Type) where
  | setter (call : MouseSetter α)
  | moveToTarget (target : QPoint)
  | moveSmoothly (target : QPoint) (durationMs : Int)
  | moveRelative (dx dy : Int)
  | applyAimAssist (targetPos : QPoint)
  | onMovementTick

section MouseCalls

variable {α : Type} [LinearOrderedField α] [FloorRing α]

/-- The controller after one call; `none` when the call is a tick that reads
outside the path. -/
def MouseCall.apply (sqrt : α → α) (m : MouseController α) :
    MouseCall α → Option (MouseController α)
  | .setter c => some (MouseSetter.apply m c)
  | .moveToTarget target => some (NN11.moveToTarget m target).1
  | .moveSmoothly target durationMs => some (NN11.moveSmoothly sqrt m target durationMs).1
  | .moveRelative dx dy => some (NN11.moveRelative m dx dy).1
  | .applyAimAssist targetPos => some (NN11.applyAimAssist sqrt m targetPos).1
  | .onMovementTick => (NN11.onMovementTick m).map Prod.fst

/-- The controller after a sequence of calls, starting from `m`. -/
def mouseAfterCallsFrom (sqrt : α → α) :
    MouseController α → List (MouseCall α) → Option (MouseController α)
  | m, [] => some m
  | m, c :: rest =>
    match MouseCall.apply sqrt m c with
    | none => none
    | some m1 => mouseAfterCallsFrom sqrt m1 rest

/-- The invariant of the playback members of a `MouseController`: the timer
interval is 1 and the path index lies between 0 and the length of the path. -/
def MouseController.playbackInv (m : MouseController α) : Prop :=
  m.m_timerInterval = 1 ∧ 0 ≤ m.m_pathIndex ∧ m.m_pathIndex ≤ (m.m_currentPath.length : Int)

end MouseCalls

/-- A square root on `ℚ` that is exact on the squares of rationals: the
integer square roots of numerator and denominator. Used where a definition
is evaluated on perfect squares. -/
def qsqrt (q : ℚ) : ℚ := (Nat.sqrt q.num.toNat : ℚ) / (Nat.sqrt q.den : ℚ)



/-- The ranges of the two clamped members of `ColorDetection`. -/
def ColorDetection.inRanges {α : Type} (s : ColorDetection α) : Prop :=
  (0 ≤ s.m_colorTolerance ∧ s.m_colorTolerance ≤ 100)
    ∧ (50 ≤ s.m_fovRadius ∧ s.m_fovRadius ≤ 500)

/-- The ranges of the two clamped integer members of `MouseController`. -/
def MouseController.inRanges {α : Type} (m : MouseController α) : Prop :=
  (0 ≤ m.m_aimAssistStrength ∧ m.m_aimAssistStrength ≤ 100)
    ∧ (0 ≤ m.m_responseSpeed ∧ m.m_responseSpeed ≤ 100)


/-- A contour passes both guards of the loop of `findTargets`: its area lies in
the closed interval from `m_minArea` to `m_maxArea` and its zeroth moment is
not zero. -/
def accepted {α : Type} [LinearOrderedField α] (s : ColorDetection α) (c : Contour α) : Prop :=
  s.m_minArea ≤ c.area ∧ c.area ≤ s.m_maxArea ∧ c.m00 ≠ 0

instance {α : Type} [LinearOrderedField α] (s : ColorDetection α) (c : Contour α) :
    Decidable (accepted s c) := by
  unfold accepted; exact inferInstance

/-- The order that the result of `findTargets` is claimed to have. -/
def closerOrEqual {α : Type} [LinearOrderedField α] (a b : DetectedTarget α) : Prop :=
  a.distanceFromCenter ≤ b.distanceFromCenter

/-- An image for evaluating the pipeline on concrete inputs: its size and the
contours present in it. -/
structure TestImage (α : Type) where
  cols : Int
  rows : Int
  contours : List (Contour α)
  deriving DecidableEq, Repr

/-- An instance of the OpenCV operations on `TestImage`, for inputs on which
the color threshold, the field-of-view mask and the morphology leave every
contour of the frame in place. -/
def testCV {α : Type} : OpenCV (TestImage α) α :=
  { empty := fun m => decide (m.cols = 0 ∨ m.rows = 0)
    cols := fun m => m.cols
    rows := fun m => m.rows
    cvtColorBGR2HSV := fun m => m
    inRange := fun m _ _ => m
    zeros := fun c r => ⟨c, r, []⟩
    circle := fun m _ _ => m
    bitwise_and := fun a _ => a
    morphOpen := fun m => m
    morphClose := fun m => m
    findContours := fun m => m.contours }


/-- A contour of area 100 with centroid (50, 50): a filled 10 x 10 square. -/
def squareContour : Contour ℚ :=
  { area := 100, boundingRect := ⟨45, 45, 11, 11⟩, m00 := 100, m10 := 5000, m01 := 5000 }

/-- A 100 x 100 frame that shows `squareContour` and nothing else. -/
def squareFrame : TestImage ℚ := ⟨100, 100, [squareContour]⟩

/-- The extractor after `setMinArea(100)` and `setMaxArea(50)`. -/
def invertedAreaBounds : ColorDetection ℚ :=
  (ColorDetection.init.setMinArea 100).setMaxArea 50

/-- The extractor after `setMinArea(100)`. -/
def minArea100 : ColorDetection ℚ := ColorDetection.init.setMinArea 100


/-- An empty frame. -/
def emptyFrame : TestImage ℚ := ⟨0, 0, []⟩

/-- An extractor whose diagnostics hold the record of an earlier call: 7 ms, 2 targets. -/
def afterEarlierCall : ColorDetection ℚ :=
  { (ColorDetection.init : ColorDetection ℚ) with
    m_lastDetectionTime := 7, m_lastTargetCount := 2 }

/-- The target that `findTargets` builds from `squareContour` when distances are
measured from (50, 50), with the default radius 150. -/
def squareTarget : DetectedTarget ℚ :=
  { center := ⟨50, 50⟩, boundingBox := ⟨45, 45, 11, 11⟩, confidence := 16 / 25,
    distanceFromCenter := 0, area := 100 }


/-- A generator all of whose draws are 1/2. -/
def constHalf : Rng ℚ := fun _ => 1 / 2


/-- A controller with assist strength 0, the pointer at (5, 5). -/
def zeroStrengthController : MouseController ℚ :=
  (MouseController.init constHalf ⟨5, 5⟩).setAimAssistStrength 0

/-- A controller with response speed 100. -/
def fullSpeedController : MouseController ℚ :=
  (MouseController.init constHalf ⟨5, 5⟩).setResponseSpeed 100


/-- The invariant of the control members of a `Tracker`: the target fps lies
in 30..300 and, while running, the interval of the primary timer is
`max(1, 1000 / m_targetFPS)` as C++ computes it. -/
def Tracker.controlInv {α : Type} (t : Tracker α) : Prop :=
  (30 ≤ t.m_targetFPS ∧ t.m_targetFPS ≤ 300)
    ∧ (t.m_isRunning = true → t.m_trackerTimerInterval = max 1 (Int.tdiv 1000 t.m_targetFPS))

/-- A tracker on a system without screens, generator `constHalf`, pointer at (0, 0). -/
def plainTracker : Tracker ℚ :=
  Tracker.init ([] : List (QScreen (TestImage ℚ) ℚ)) constHalf ⟨0, 0⟩


/-- Two screens side by side, each 1920 x 1080, each showing an empty 100 x 100 image. -/
def twoScreens : List (QScreen (TestImage ℚ) ℚ) :=
  [ { name := "A", geometry := ⟨0, 0, 1920, 1080⟩, isPrimary := true,
      logicalDotsPerInch := 96, grabWindow := ⟨100, 100, []⟩ },
    { name := "B", geometry := ⟨1920, 0, 1920, 1080⟩, isPrimary := false,
      logicalDotsPerInch := 96, grabWindow := ⟨100, 100, []⟩ } ]

/-- The frame source built on `twoScreens`. -/
def twoScreenCapture : ScreenCapture ℚ := ScreenCapture.init twoScreens

/-- The requested region clipped to the visible bounds: the intersection of
the rectangle [x, x + w) x [y, y + h) with the frame [0, cols) x [0, rows),
of width and height 0 when the two do not meet. -/
def clippedRegion (cols rows : Int) (region : QRect) : QRect :=
  let left := max 0 region.x
  let top := max 0 region.y
  let right := min cols (region.x + region.width)
  let bottom := min rows (region.y + region.height)
  ⟨left, top, max 0 (right - left), max 0 (bottom - top)⟩

/-- A submatrix operation on `TestImage`: the size of the rectangle, the
contours kept as they are. -/
def testSubmatrix (m : TestImage ℚ) (r : QRect) : TestImage ℚ := ⟨r.width, r.height, m.contours⟩


/-- A contour of area 100 whose zeroth moment is 0. -/
def degenerateContour : Contour ℚ :=
  { area := 100, boundingRect := ⟨45, 45, 11, 1⟩, m00 := 0, m10 := 0, m01 := 0 }

/-- A 100 x 100 frame that shows `degenerateContour` and `squareContour`. -/
def degenerateFrame : TestImage ℚ := ⟨100, 100, [degenerateContour, squareContour]⟩

/-- An extractor that accepts every area from -1 on. -/
def anyAreaDetection : ColorDetection ℚ := ColorDetection.init.setMinArea (-1)

/-- One screen of 100 x 100 that shows `squareFrame`. -/
def squareScreens : List (QScreen (TestImage ℚ) ℚ) :=
  [ { name := "A", geometry := ⟨0, 0, 100, 100⟩, isPrimary := true,
      logicalDotsPerInch := 96, grabWindow := squareFrame } ]

/-- What a tick reads on `squareScreens`: capture in 2 ms, extraction in 3 ms. -/
def squareEnv : TickEnv (TestImage ℚ) ℚ :=
  { cv := testCV, sqrt := qsqrt, screens := squareScreens, captureElapsed := 2,
    detectElapsed := 3 }

/-- A tracker on `squareScreens` with the pointer at (0, 0), all draws 1/2, and
the response speed of its mouse controller set to 100. -/
def squareTracker : Tracker ℚ :=
  { (Tracker.init squareScreens constHalf ⟨0, 0⟩ : Tracker ℚ) with
    m_mouseController := (MouseController.init constHalf ⟨0, 0⟩).setResponseSpeed 100 }


/-! ## Binary64 arithmetic

Where the result of a function of `MouseController.cpp` depends on how the
operations on `double` round, the function is embedded a second time, over `ℚ`,
with every operation rounded as IEEE 754 binary64 arithmetic rounds it (each
operation on its own, no fused multiply-add), with the loop counter of
`generateBezierPath` as a C++ `int`, and with `none` for a call that has no
defined result. The values of the type are the finite numbers; NaN and the
infinities are not among them, except in `clampFactorNaN64` and
`getRandomDelayNaN64`, where NaN is `none`. The names carry the suffix `64`. -/

section Binary64

/-- The largest `int`, `INT_MAX` (32 bits). -/
def INT_MAX : Int := 2147483647

/-- The smallest `int`, `INT_MIN`. -/
def INT_MIN : Int := -2147483648

/-- Rounding of a rational to the nearest integer, a tie to the even one. -/
def roundHalfEven (t : ℚ) : Int :=
  if t - ⌊t⌋ < 1 / 2 then ⌊t⌋
  else if 1 / 2 < t - ⌊t⌋ then ⌊t⌋ + 1
  else if ⌊t⌋ % 2 = 0 then ⌊t⌋ else ⌊t⌋ + 1

/-- The binary exponent at which `x` is rounded: that of its binade, and -1022
(the exponent of the subnormal numbers) for a magnitude below 2^-1022. -/
def binade (x : ℚ) : Int := max (Int.log 2 |x|) (-1022)

/-- IEEE 754 binary64 rounding in the default mode (to nearest, a tie to the
even significand): `x` is rounded to a multiple of 2^(e - 52), `e` its binade.
Magnitudes stay below 2^1024 in every use. -/
def rnd64 (x : ℚ) : ℚ := (roundHalfEven (x / 2 ^ (binade x - 52)) : ℚ) * 2 ^ (binade x - 52)

/-- The sum of two doubles, as `+` on `double` computes it. -/
def fadd (a b : ℚ) : ℚ := rnd64 (a + b)

/-- The difference of two doubles, as `-` on `double` computes it. -/
def fsub (a b : ℚ) : ℚ := rnd64 (a - b)

/-- The product of two doubles, as `*` on `double` computes it. -/
def fmul (a b : ℚ) : ℚ := rnd64 (a * b)

/-- The quotient of two doubles with a divisor other than 0, as `/` on `double`
computes it. -/
def fdiv (a b : ℚ) : ℚ := rnd64 (a / b)

/-- Models `MouseController::MouseController` in binary64: the literal `0.3`
is the double nearest to 3/10. -/
def MouseController.init64 (seed : Rng ℚ) (cursor : QPoint) : MouseController ℚ :=
  { MouseController.init seed cursor with m_randomizationFactor := rnd64 (3 / 10) }

/-- The `MouseController` object after the constructor and a sequence of setter
calls, in binary64; the argument of `setRandomizationFactor` is a number. -/
def mouseAfter64 (seed : Rng ℚ) (cursor : QPoint) (calls : List (MouseSetter ℚ)) :
    MouseController ℚ :=
  calls.foldl MouseSetter.apply (MouseController.init64 seed cursor)

/-- The local `baseDelay` of `getRandomDelay` in binary64,
`1000.0 * (1.0 - m_responseSpeed / 100.0)`; the `int` member `m_responseSpeed`
converts to `double` exactly. -/
def baseDelay64 (responseSpeed : Int) : ℚ :=
  fmul 1000 (fsub 1 (fdiv (responseSpeed : ℚ) 100))

/-- Models `MouseController::getRandomDelay` in binary64: the delay, and the
object after the draw. -/
def getRandomDelay64 (m : MouseController ℚ) : ℚ × MouseController ℚ :=
  let baseDelay := baseDelay64 m.m_responseSpeed
  let (r, g) := m.m_rng.next
  let variation := fmul (fmul baseDelay m.m_randomizationFactor) (fsub (fmul r 2) 1)
  (max 0 (fadd baseDelay variation), { m with m_rng := g })

/-- Models `std::clamp(factor, 0.0, 1.0)` in `setRandomizationFactor` for an
argument that may be NaN (`none`): the result is
`(factor < 0.0) ? 0.0 : (1.0 < factor) ? 1.0 : factor`, and a comparison with
NaN is false, so that NaN is stored as it is. -/
def clampFactorNaN64 : Option ℚ → Option ℚ
  | none => none
  | some factor => some (clamp factor 0 1)

/-- Models `getRandomDelay` in binary64 on the object `m` with the member
`m_randomizationFactor` replaced by `factor`, which may be NaN (`none`): the
sum `baseDelay + variation` (NaN when the factor is: a product and a sum with a
NaN operand are NaN), and the value returned, `std::max(0.0, sum)`, which is
`(0.0 < sum) ? sum : 0.0` and so 0.0 for NaN. -/
def getRandomDelayNaN64 (m : MouseController ℚ) (factor : Option ℚ) : Option ℚ × ℚ :=
  let baseDelay := baseDelay64 m.m_responseSpeed
  let (r, _) := m.m_rng.next
  let sum := factor.map (fun f => fadd baseDelay (fmul (fmul baseDelay f) (fsub (fmul r 2) 1)))
  (sum, match sum with
        | none => 0
        | some x => max 0 x)

/-- Models `MouseController::addRandomOffset` in binary64: the point, and the
object after the draws. -/
def addRandomOffset64 (m : MouseController ℚ) (point : QPoint) (maxOffset : ℚ) :
    QPoint × MouseController ℚ :=
  if m.m_humanizeEnabled = false ∨ maxOffset ≤ 0 then
    (point, m)
  else
    let (r1, g1) := m.m_rng.next
    let offsetX := fmul (fsub (fmul r1 2) 1) maxOffset
    let (r2, g2) := g1.next
    let offsetY := fmul (fsub (fmul r2 2) 1) maxOffset
    (⟨point.x + truncToInt offsetX, point.y + truncToInt offsetY⟩, { m with m_rng := g2 })

/-- Models `MouseController::bezierPoint` in binary64; the products and the sums
are taken from left to right, and the `int` literal 3 converts to 3.0. -/
def bezierPoint64 (t : ℚ) (p0 p1 p2 p3 : BezierPoint ℚ) : BezierPoint ℚ :=
  let u := fsub 1 t
  let tt := fmul t t
  let uu := fmul u u
  let uuu := fmul uu u
  let ttt := fmul tt t
  { x := fadd (fadd (fadd (fmul uuu p0.x) (fmul (fmul (fmul 3 uu) t) p1.x))
                (fmul (fmul (fmul 3 u) tt) p2.x))
              (fmul ttt p3.x)
    y := fadd (fadd (fadd (fmul uuu p0.y) (fmul (fmul (fmul 3 uu) t) p1.y))
                (fmul (fmul (fmul 3 u) tt) p2.y))
              (fmul ttt p3.y) }

/-- Models `MouseController::generateBezierPath` in binary64: the path, and the
generator after the four draws. The coordinates of the two points convert to
`double` exactly, and the literals 0.3 and 0.7 are the doubles nearest to 3/10
and 7/10. The loop `for (int i = 0; i <= steps; ++i)` runs for
`i = 0, ..., steps` (not at all when `steps < 0`). The result is `none` for
`steps = 0`, where the code divides 0.0 by 0 and stores a point that is not a
number, and for `steps = INT_MAX`, where `i <= steps` holds for every `int` and
`++i` overflows. -/
def generateBezierPath64 (sqrt : ℚ → ℚ) (g : Rng ℚ) (start endP : QPoint) (steps : Int) :
    Option (List (BezierPoint ℚ) × Rng ℚ) :=
  let p0 : BezierPoint ℚ := ⟨(start.x : ℚ), (start.y : ℚ)⟩
  let p3 : BezierPoint ℚ := ⟨(endP.x : ℚ), (endP.y : ℚ)⟩
  let dx := fsub p3.x p0.x
  let dy := fsub p3.y p0.y
  let distance := sqrt (fadd (fmul dx dx) (fmul dy dy))
  let offsetRange := fmul distance (rnd64 (3 / 10))
  let (r1, g1) := g.next
  let (r2, g2) := g1.next
  let (r3, g3) := g2.next
  let (r4, g4) := g3.next
  let p1 : BezierPoint ℚ :=
    ⟨fadd (fadd p0.x (fmul dx (rnd64 (3 / 10)))) (fmul (fsub (fmul r1 2) 1) offsetRange),
     fadd (fadd p0.y (fmul dy (rnd64 (3 / 10)))) (fmul (fsub (fmul r2 2) 1) offsetRange)⟩
  let p2 : BezierPoint ℚ :=
    ⟨fadd (fadd p0.x (fmul dx (rnd64 (7 / 10)))) (fmul (fsub (fmul r3 2) 1) offsetRange),
     fadd (fadd p0.y (fmul dy (rnd64 (7 / 10)))) (fmul (fsub (fmul r4 2) 1) offsetRange)⟩
  if steps = 0 ∨ INT_MAX ≤ steps then
    none
  else
    some ((List.range (steps + 1).toNat).map
            (fun (i : Nat) => bezierPoint64 (fdiv ((i : Int) : ℚ) (steps : ℚ)) p0 p1 p2 p3),
          g4)

/-- The loop `for (size_t i = 1; i < path.size() - 1; ++i)` of `addMicroMovements`
in binary64: the first argument counts the iterations that remain, the second
is `i`. The literal 0.3 is the double nearest to 3/10. -/
def addMicroMovementsLoop64 :
    Nat → Nat → List (BezierPoint ℚ) → Rng ℚ → List (BezierPoint ℚ) × Rng ℚ
  | 0, _, path, g => (path, g)
  | n + 1, i, path, g =>
    let (r, g1) := g.next
    if r < rnd64 (3 / 10) then
      let (rx, g2) := g1.next
      let (ry, g3) := g2.next
      match path[i]? with
      | some p =>
        addMicroMovementsLoop64 n (i + 1)
          (path.set i ⟨fadd p.x (fmul (fsub (fmul rx 2) 1) 2),
                       fadd p.y (fmul (fsub (fmul ry 2) 1) 2)⟩) g3
      | none => addMicroMovementsLoop64 n (i + 1) path g3
    else
      addMicroMovementsLoop64 n (i + 1) path g1

/-- Models `MouseController::addMicroMovements` in binary64: the path afterwards,
and the object after the draws. -/
def addMicroMovements64 (m : MouseController ℚ) (path : List (BezierPoint ℚ)) :
    List (BezierPoint ℚ) × MouseController ℚ :=
  if m.m_humanizeEnabled = false ∨ path.isEmpty = true then
    (path, m)
  else
    let (path1, g) := addMicroMovementsLoop64 (path.length - 1 - 1) 1 path m.m_rng
    (path1, { m with m_rng := g })

/-- Models `MouseController::moveSmoothly` in binary64 and `int` arithmetic. The
result is `none` where the `int` division `durationMs / interval` is not
defined (the interval 0, or `INT_MIN / -1`) and where `generateBezierPath`
returns no path. -/
def moveSmoothly64 (sqrt : ℚ → ℚ) (m : MouseController ℚ) (target : QPoint) (durationMs : Int) :
    Option (MouseController ℚ × List MouseSignal) :=
  let m0 : MouseController ℚ := if m.m_isMoving then { m with m_timerActive := false } else m
  let start := m0.getCurrentPosition
  if m0.m_timerInterval = 0 ∨ (durationMs = INT_MIN ∧ m0.m_timerInterval = -1) then
    none
  else
    let steps := max 10 (Int.tdiv durationMs m0.m_timerInterval)
    match generateBezierPath64 sqrt m0.m_rng start target steps with
    | none => none
    | some (path, g) =>
      let m1 : MouseController ℚ := { m0 with m_rng := g }
      let (path1, m2) := if m1.m_humanizeEnabled then addMicroMovements64 m1 path else (path, m1)
      some ({ m2 with
                m_currentPath := path1
                m_pathIndex := 0
                m_targetPosition := target
                m_isMoving := true
                m_timerActive := true },
            [MouseSignal.movementStarted])

/-- The first part of `applyAimAssist` after the strength guard, in binary64:
the delta (`assistDx`, `assistDy`) that is applied, random offset included when
humanization is enabled, and the object after the draws. The `int` values
`dx`, `dy` and `m_aimAssistStrength` convert to `double` exactly. -/
def assistDelta64 (m : MouseController ℚ) (targetPos : QPoint) :
    QPoint × MouseController ℚ :=
  let currentPos := m.getCurrentPosition
  let dx := targetPos.x - currentPos.x
  let dy := targetPos.y - currentPos.y
  let strength := fdiv (m.m_aimAssistStrength : ℚ) 100
  let assistDx := truncToInt (fmul (dx : ℚ) strength)
  let assistDy := truncToInt (fmul (dy : ℚ) strength)
  if m.m_humanizeEnabled then
    let (offset, m1) := addRandomOffset64 m ⟨0, 0⟩ 2
    (⟨assistDx + offset.x, assistDy + offset.y⟩, m1)
  else
    (⟨assistDx, assistDy⟩, m)

/-- Models `MouseController::applyAimAssist` in binary64; `none` where the
`moveSmoothly` it calls has no defined result. -/
def applyAimAssist64 (sqrt : ℚ → ℚ) (m : MouseController ℚ) (targetPos : QPoint) :
    Option (MouseController ℚ × List MouseSignal) :=
  if m.m_aimAssistStrength = 0 then
    some (m, [])
  else
    let currentPos := m.getCurrentPosition
    let (assist, m1) := assistDelta64 m targetPos
    let (delay, m2) := getRandomDelay64 m1
    let duration := truncToInt (max 10 (fmul delay (1 / 2)))
    let newTarget : QPoint := ⟨currentPos.x + assist.x, currentPos.y + assist.y⟩
    if duration > 20 then
      moveSmoothly64 sqrt m2 newTarget duration
    else
      some (moveRelative m2 assist.x assist.y)

/-- The controller after one call, in binary64; `none` when the call has no
defined result. -/
def MouseCall.apply64 (sqrt : ℚ → ℚ) (m : MouseController ℚ) :
    MouseCall ℚ → Option (MouseController ℚ)
  | .setter c => some (MouseSetter.apply m c)
  | .moveToTarget target => some (NN11.moveToTarget m target).1
  | .moveSmoothly target durationMs => (NN11.moveSmoothly64 sqrt m target durationMs).map Prod.fst
  | .moveRelative dx dy => some (NN11.moveRelative m dx dy).1
  | .applyAimAssist targetPos => (NN11.applyAimAssist64 sqrt m targetPos).map Prod.fst
  | .onMovementTick => (NN11.onMovementTick m).map Prod.fst

/-- The controller after a sequence of calls, starting from `m`, in binary64. -/
def mouseAfterCallsFrom64 (sqrt : ℚ → ℚ) :
    MouseController ℚ → List (MouseCall ℚ) → Option (MouseController ℚ)
  | m, [] => some m
  | m, c :: rest =>
    match MouseCall.apply64 sqrt m c with
    | none => none
    | some m1 => mouseAfterCallsFrom64 sqrt m1 rest

/-- The controller after the constructor and a sequence of calls, in binary64. -/
def mouseAfterCalls64 (sqrt : ℚ → ℚ) (seed : Rng ℚ) (cursor : QPoint)
    (calls : List (MouseCall ℚ)) : Option (MouseController ℚ) :=
  mouseAfterCallsFrom64 sqrt (MouseController.init64 seed cursor) calls

/-- A controller with the defaults of the constructor in binary64, all draws
1/2, the pointer at (0, 0). -/
def defaultController64 : MouseController ℚ := MouseController.init64 constHalf ⟨0, 0⟩

/-- The default controller with humanization off. -/
def plainController64 : MouseController ℚ := defaultController64.setHumanizeEnabled false

/-- The controller `plainController64` with strength 100. -/
def fullStrengthController64 : MouseController ℚ := plainController64.setAimAssistStrength 100

/-- The default controller after `setResponseSpeed(80)` and
`setRandomizationFactor(0.0)`. -/
def speed80Controller64 : MouseController ℚ :=
  (defaultController64.setResponseSpeed 80).setRandomizationFactor 0

end Binary64

/-! ## Helper lemmas -/

section Helpers

/-- The tolerance scaling `t * k / 100` of C++ is the floor division for `t >= 0`. -/
theorem tolScale_eq (t k : Int) (ht : 0 ≤ t) (hk : 0 ≤ k) :
    Int.tdiv (t * k) 100 = t * k / 100 :=
  Int.tdiv_eq_ediv (Int.mul_nonneg ht hk) (by norm_num)

/-- The halved hue of a valid color lies in 0..179. -/
theorem halfHue_bounds (h : Int) (h1 : -1 ≤ h) (h2 : h ≤ 359) :
    0 ≤ Int.tdiv h 2 ∧ Int.tdiv h 2 ≤ 179 := by
  rcases lt_or_le h 0 with hneg | hpos
  · have : h = -1 := by omega
    subst this
    decide
  · rw [Int.tdiv_eq_ediv hpos (by norm_num)]
    omega

theorem clamp_eq_max_min (x lo hi : Int) (h : lo ≤ hi) : clamp x lo hi = max lo (min x hi) := by
  unfold clamp
  split_ifs <;> omega

theorem clamp_mem (x lo hi : Int) (h : lo ≤ hi) : lo ≤ clamp x lo hi ∧ clamp x lo hi ≤ hi := by
  unfold clamp
  split_ifs <;> omega

theorem detectionSetter_keeps_ranges {α : Type} [LinearOrderedField α]
    (s : ColorDetection α) (c : DetectionSetter α) (h : s.inRanges) :
    (DetectionSetter.apply s c).inRanges := by
  obtain ⟨h1, h2⟩ := h
  cases c with
  | setColorTolerance t => exact ⟨clamp_mem t 0 100 (by norm_num), h2⟩
  | setFOVRadius r => exact ⟨h1, clamp_mem r 50 500 (by norm_num)⟩
  | setTargetColor _ => exact ⟨h1, h2⟩
  | setMinArea _ => exact ⟨h1, h2⟩
  | setMaxArea _ => exact ⟨h1, h2⟩
  | setMorphologyEnabled _ => exact ⟨h1, h2⟩

theorem detectionSetters_keep_ranges {α : Type} [LinearOrderedField α]
    (calls : List (DetectionSetter α)) (s : ColorDetection α) (h : s.inRanges) :
    (calls.foldl DetectionSetter.apply s).inRanges := by
  induction calls generalizing s with
  | nil => exact h
  | cons c rest ih => exact ih _ (detectionSetter_keeps_ranges s c h)

theorem mouseSetter_keeps_ranges {α : Type} [LinearOrderedField α]
    (m : MouseController α) (c : MouseSetter α) (h : m.inRanges) :
    (MouseSetter.apply m c).inRanges := by
  obtain ⟨h1, h2⟩ := h
  cases c with
  | setAimAssistStrength x => exact ⟨clamp_mem x 0 100 (by norm_num), h2⟩
  | setResponseSpeed x => exact ⟨h1, clamp_mem x 0 100 (by norm_num)⟩
  | setHumanizeEnabled _ => exact ⟨h1, h2⟩
  | setRandomizationFactor _ => exact ⟨h1, h2⟩

theorem mouseSetters_keep_ranges {α : Type} [LinearOrderedField α]
    (calls : List (MouseSetter α)) (m : MouseController α) (h : m.inRanges) :
    (calls.foldl MouseSetter.apply m).inRanges := by
  induction calls generalizing m with
  | nil => exact h
  | cons c rest ih => exact ih _ (mouseSetter_keeps_ranges m c h)

/-- The loop of `findTargets` appends, in order, the targets of the accepted contours. -/
theorem findTargetsLoop_eq {α : Type} [LinearOrderedField α] [FloorRing α]
    (sqrt : α → α) (s : ColorDetection α) (center : QPoint)
    (contours : List (Contour α)) (targets : List (DetectedTarget α)) :
    findTargetsLoop sqrt s center contours targets
      = targets ++ (contours.filter (fun c => decide (accepted s c))).map
          (makeTarget sqrt s center) := by
  induction contours generalizing targets with
  | nil => simp [findTargetsLoop]
  | cons c rest ih =>
    unfold findTargetsLoop
    by_cases h1 : c.area < s.m_minArea ∨ c.area > s.m_maxArea
    · have hna : ¬ accepted s c := by
        rintro ⟨a1, a2, _⟩
        rcases h1 with h | h
        · exact absurd a1 (not_le.mpr h)
        · exact absurd a2 (not_le.mpr h)
      rw [if_pos h1, ih]
      simp [List.filter_cons, hna]
    · rw [if_neg h1]
      by_cases h2 : c.m00 = 0
      · have hna : ¬ accepted s c := fun ⟨_, _, a3⟩ => a3 h2
        rw [if_pos h2, ih]
        simp [List.filter_cons, hna]
      · have ha : accepted s c := by
          push_neg at h1
          exact ⟨h1.1, h1.2, h2⟩
        rw [if_neg h2, ih]
        simp [List.filter_cons, ha]

/-- The sort of the embedding returns a permutation of its input. -/
theorem stdSort_perm {T : Type} (less : T → T → Prop) [DecidableRel less] (l : List T) :
    List.Perm (stdSort less l) l :=
  List.perm_insertionSort _ l

/-- Sorting targets by `a.distanceFromCenter < b.distanceFromCenter` leaves them
pairwise ordered by distance. -/
theorem stdSort_distance_pairwise {α : Type} [LinearOrderedField α]
    (l : List (DetectedTarget α)) :
    List.Pairwise closerOrEqual
      (stdSort (fun a b : DetectedTarget α => a.distanceFromCenter < b.distanceFromCenter) l) := by
  haveI : IsTotal (DetectedTarget α)
      (fun a b => ¬ b.distanceFromCenter < a.distanceFromCenter) :=
    ⟨fun a b => by
      rcases le_total a.distanceFromCenter b.distanceFromCenter with h | h
      · exact Or.inl (not_lt.mpr h)
      · exact Or.inr (not_lt.mpr h)⟩
  haveI : IsTrans (DetectedTarget α)
      (fun a b => ¬ b.distanceFromCenter < a.distanceFromCenter) :=
    ⟨fun a b c hab hbc => not_lt.mpr (le_trans (not_lt.mp hab) (not_lt.mp hbc))⟩
  have h := List.sorted_insertionSort
    (fun a b : DetectedTarget α => ¬ b.distanceFromCenter < a.distanceFromCenter) l
  exact List.Pairwise.imp (fun hab => not_lt.mp hab) h

/-- The result of `findTargets` is a permutation of the targets of the accepted contours. -/
theorem findTargets_perm_accepted {α : Type} [LinearOrderedField α] [FloorRing α]
    {M : Type} (cv : OpenCV M α) (sqrt : α → α) (s : ColorDetection α) (mask : M)
    (center : QPoint) :
    List.Perm (findTargets cv sqrt s mask center)
      (((cv.findContours mask).filter (fun c => decide (accepted s c))).map
        (makeTarget sqrt s center)) := by
  unfold findTargets
  simp only [findTargetsLoop_eq, List.nil_append]
  exact stdSort_perm _ _

/-- Membership in the result of `findTargets`. -/
theorem mem_findTargets {α : Type} [LinearOrderedField α] [FloorRing α]
    {M : Type} (cv : OpenCV M α) (sqrt : α → α) (s : ColorDetection α) (mask : M)
    (center : QPoint) (t : DetectedTarget α) :
    t ∈ findTargets cv sqrt s mask center
      ↔ ∃ c ∈ cv.findContours mask, accepted s c ∧ makeTarget sqrt s center c = t := by
  rw [(findTargets_perm_accepted cv sqrt s mask center).mem_iff]
  simp [List.mem_map, List.mem_filter, and_assoc]

/-- The vector returned by `detect` is empty (empty frame) or is the result of
`findTargets` on some mask with the center of the frame. -/
theorem detect_targets_cases {α : Type} [LinearOrderedField α] [FloorRing α]
    {M : Type} (cv : OpenCV M α) (sqrt : α → α) (elapsed : Int) (s : ColorDetection α)
    (frame : M) (fovCenter : QPoint) :
    (cv.empty frame = true ∧ (detect cv sqrt elapsed s frame fovCenter).targets = [])
    ∨ (cv.empty frame = false ∧ ∃ mask : M,
        (detect cv sqrt elapsed s frame fovCenter).targets
          = findTargets cv sqrt s mask
              ⟨Int.tdiv (cv.cols frame) 2, Int.tdiv (cv.rows frame) 2⟩) := by
  unfold detect
  cases h : cv.empty frame
  · right
    refine ⟨rfl, ?_⟩
    simp only [Bool.false_eq_true, if_false]
    exact ⟨_, rfl⟩
  · left
    simp

/-- The distance stored in a target is the square root taken by `findTargets`
of the squared offsets of its center from the point given to `findTargets`. -/
theorem makeTarget_distance {α : Type} [LinearOrderedField α] [FloorRing α]
    (sqrt : α → α) (s : ColorDetection α) (center : QPoint) (c : Contour α) :
    (makeTarget sqrt s center c).distanceFromCenter
      = sqrt ((((makeTarget sqrt s center c).center.x - center.x : Int) : α)
                * (((makeTarget sqrt s center c).center.x - center.x : Int) : α)
              + (((makeTarget sqrt s center c).center.y - center.y : Int) : α)
                * (((makeTarget sqrt s center c).center.y - center.y : Int) : α)) :=
  rfl

/-- With an exact square root, the squared distance of a target of `findTargets`
is the sum of the squared offsets from the point given to `findTargets`. -/
theorem findTargets_distance_sq {α : Type} [LinearOrderedField α] [FloorRing α]
    {M : Type} (cv : OpenCV M α) (sqrt : α → α) (hsqrt : ∀ x : α, 0 ≤ x → sqrt x ^ 2 = x)
    (s : ColorDetection α) (mask : M) (center : QPoint) (t : DetectedTarget α)
    (ht : t ∈ findTargets cv sqrt s mask center) :
    t.distanceFromCenter ^ 2
      = ((t.center.x - center.x : Int) : α) ^ 2 + ((t.center.y - center.y : Int) : α) ^ 2 := by
  obtain ⟨c, _, _, rfl⟩ := (mem_findTargets cv sqrt s mask center t).mp ht
  rw [makeTarget_distance, hsqrt _ (add_nonneg (mul_self_nonneg _) (mul_self_nonneg _))]
  ring

/-- At response speed 100 the delay is 0. -/
theorem getRandomDelay_eq_zero {α : Type} [LinearOrderedField α] (m : MouseController α)
    (h : m.m_responseSpeed = 100) : (getRandomDelay m).1 = 0 := by
  simp [getRandomDelay, Rng.next, h]

/-- The members that `processFrame` does not write. -/
theorem processFrame_keeps_control {α : Type} [LinearOrderedField α] [FloorRing α]
    {M : Type} (env : TickEnv M α) (t : Tracker α) (r : TickResult α)
    (h : t.processFrame env = some r) :
    r.state.m_targetFPS = t.m_targetFPS ∧ r.state.m_isRunning = t.m_isRunning
      ∧ r.state.m_trackerTimerInterval = t.m_trackerTimerInterval
      ∧ r.state.m_frameCount = t.m_frameCount := by
  simp only [Tracker.processFrame] at h
  repeat' split at h
  all_goals first
    | (injection h with h
       subst h
       exact ⟨rfl, rfl, rfl, rfl⟩)
    | injection h

/-- The members that `onTrackerTick` does not write. -/
theorem onTrackerTick_keeps_control {α : Type} [LinearOrderedField α] [FloorRing α]
    {M : Type} (env : TickEnv M α) (t : Tracker α) (r : TickResult α)
    (h : t.onTrackerTick env = some r) :
    r.state.m_targetFPS = t.m_targetFPS ∧ r.state.m_isRunning = t.m_isRunning
      ∧ r.state.m_trackerTimerInterval = t.m_trackerTimerInterval := by
  unfold Tracker.onTrackerTick at h
  by_cases he : t.m_isEnabled = true
  · rw [if_neg (not_not.mpr he)] at h
    cases hp : t.processFrame env with
    | none => simp [hp] at h
    | some r0 =>
      simp only [hp, Option.some.injEq] at h
      obtain ⟨h1, h2, h3, _⟩ := processFrame_keeps_control env t r0 hp
      subst h
      exact ⟨h1, h2, h3⟩
  · rw [if_pos he] at h
    injection h with h
    subst h
    exact ⟨rfl, rfl, rfl⟩

/-- Every call keeps the invariant of the control members. -/
theorem apply_keeps_controlInv {α : Type} [LinearOrderedField α] [FloorRing α]
    {M : Type} (t t1 : Tracker α) (c : TrackerCall M α) (hinv : t.controlInv)
    (h : TrackerCall.apply t c = some t1) : t1.controlInv := by
  obtain ⟨hr, hi⟩ := hinv
  cases c with
  | start now =>
    simp only [TrackerCall.apply, Option.some.injEq] at h
    subst h
    unfold Tracker.start
    split_ifs with hrun
    · exact ⟨hr, hi⟩
    · exact ⟨hr, fun _ => rfl⟩
  | stop now =>
    simp only [TrackerCall.apply, Option.some.injEq] at h
    subst h
    unfold Tracker.stop
    by_cases hrun : t.m_isRunning = true
    · rw [if_neg (not_not.mpr hrun)]
      exact ⟨hr, fun hc => absurd hc (by simp)⟩
    · rw [if_pos hrun]
      exact ⟨hr, hi⟩
  | toggle now =>
    simp only [TrackerCall.apply, Option.some.injEq] at h
    subst h
    unfold Tracker.toggle Tracker.start Tracker.stop
    by_cases hrun : t.m_isRunning = true
    · rw [if_pos hrun, if_neg (not_not.mpr hrun)]
      exact ⟨hr, fun hc => absurd hc (by simp)⟩
    · rw [if_neg hrun, if_neg hrun]
      exact ⟨hr, fun _ => rfl⟩
  | setTargetFPS fps =>
    simp only [TrackerCall.apply, Option.some.injEq] at h
    subst h
    have hc := clamp_mem fps 30 300 (by norm_num)
    simp only [Tracker.setTargetFPS]
    split_ifs with hrun
    · exact ⟨hc, fun _ => rfl⟩
    · exact ⟨hc, fun hrun2 => absurd hrun2 hrun⟩
  | setEnabled enabled =>
    simp only [TrackerCall.apply, Option.some.injEq] at h
    subst h
    exact ⟨hr, hi⟩
  | onTrackerTick env =>
    simp only [TrackerCall.apply, Option.map_eq_some'] at h
    obtain ⟨r, hr0, rfl⟩ := h
    obtain ⟨h1, h2, h3⟩ := onTrackerTick_keeps_control env t r hr0
    unfold Tracker.controlInv
    rw [h1, h2, h3]
    exact ⟨hr, hi⟩
  | updateStats now =>
    simp only [TrackerCall.apply, Option.some.injEq] at h
    subst h
    simp only [Tracker.updateStats]
    split_ifs
    · exact ⟨hr, hi⟩
    · exact ⟨hr, hi⟩
  | detectionSetter call =>
    simp only [TrackerCall.apply, Option.some.injEq] at h
    subst h
    exact ⟨hr, hi⟩
  | mouseSetter call =>
    simp only [TrackerCall.apply, Option.some.injEq] at h
    subst h
    exact ⟨hr, hi⟩
  | setActiveMonitor index =>
    simp only [TrackerCall.apply, Option.some.injEq] at h
    subst h
    exact ⟨hr, hi⟩

/-- The invariant of the control members holds after any sequence of calls. -/
theorem trackerAfterFrom_controlInv {α : Type} [LinearOrderedField α] [FloorRing α]
    {M : Type} (calls : List (TrackerCall M α)) (t t1 : Tracker α) (hinv : t.controlInv)
    (h : trackerAfterFrom t calls = some t1) : t1.controlInv := by
  induction calls generalizing t with
  | nil =>
    simp only [trackerAfterFrom, Option.some.injEq] at h
    exact h ▸ hinv
  | cons c rest ih =>
    simp only [trackerAfterFrom] at h
    cases hc : TrackerCall.apply t c with
    | none => simp [hc] at h
    | some t2 =>
      simp only [hc] at h
      exact ih t2 (apply_keeps_controlInv t t2 c hinv hc) h

/-- The constructor establishes the invariant of the control members. -/
theorem init_controlInv {α : Type} [LinearOrderedField α]
    {M : Type} (screens : List (QScreen M α)) (seed : Rng α) (cursor : QPoint) :
    (Tracker.init screens seed cursor).controlInv := by
  simp [Tracker.controlInv, Tracker.init]

/-- For a positive target fps in 30..300 the interval computed by C++ is the
floor quotient, at least 3 and at most 33. -/
theorem interval_bounds (fps : Int) (h1 : 30 ≤ fps) (h2 : fps ≤ 300) :
    max 1 (Int.tdiv 1000 fps) = max 1 (1000 / fps)
      ∧ 3 ≤ max 1 (Int.tdiv 1000 fps) ∧ max 1 (Int.tdiv 1000 fps) ≤ 33 := by
  have e : Int.tdiv 1000 fps = 1000 / fps := Int.tdiv_eq_ediv (by norm_num) (by omega)
  have hpos : (0 : Int) < fps := by omega
  have lo : 3 ≤ 1000 / fps := (Int.le_ediv_iff_mul_le hpos).mpr (by omega)
  have hi : 1000 / fps ≤ 33 := by
    have : 1000 / fps < 34 := (Int.ediv_lt_iff_lt_mul hpos).mpr (by omega)
    omega
  rw [e]
  refine ⟨rfl, ?_, ?_⟩
  · exact le_max_of_le_right lo
  · exact max_le (by norm_num) hi

/-- Where the origin of the requested region lies in the frame and its width
and height are not negative, the rectangle of `captureRegion` is the region
clipped to the frame, and it lies inside the frame. -/
theorem captureRegionRect_eq_clipped (cols rows : Int) (region : QRect)
    (hx1 : 0 ≤ region.x) (hx2 : region.x ≤ cols) (hy1 : 0 ≤ region.y) (hy2 : region.y ≤ rows)
    (hw : 0 ≤ region.width) (hh : 0 ≤ region.height) :
    captureRegionRect cols rows region = clippedRegion cols rows region
      ∧ roiInside cols rows (captureRegionRect cols rows region) := by
  constructor
  · simp only [captureRegionRect, clippedRegion, QRect.mk.injEq]
    refine ⟨trivial, trivial, ?_, ?_⟩ <;>
      simp only [max_def, min_def] <;> split_ifs <;> omega
  · simp only [captureRegionRect, roiInside]
    refine ⟨?_, ?_, ?_, ?_, ?_, ?_⟩ <;>
      simp only [max_def, min_def] <;> split_ifs <;> omega

/-- A conversion of an `int` to `double` and back gives the `int`. -/
theorem truncToInt_intCast {α : Type} [LinearOrderedField α] [FloorRing α] (z : Int) :
    truncToInt (z : α) = z := by
  unfold truncToInt
  split_ifs
  · exact Int.floor_intCast z
  · exact Int.ceil_intCast z

/-- One tick with the index inside the path: the pointer goes to the point at
the index and the index advances by one. -/
theorem onMovementTick_inside {α : Type} [LinearOrderedField α] [FloorRing α]
    (m : MouseController α) (p : BezierPoint α) (h0 : 0 ≤ m.m_pathIndex)
    (hp : m.m_currentPath[m.m_pathIndex.toNat]? = some p) :
    onMovementTick m
      = some ({ platformMove m (truncToInt p.x) (truncToInt p.y) with
                m_pathIndex := m.m_pathIndex + 1 },
              [MouseSignal.positionChanged p.toQPoint]) := by
  have hlt : m.m_pathIndex.toNat < m.m_currentPath.length := by
    by_contra hcon
    rw [List.getElem?_eq_none (by omega)] at hp
    cases hp
  unfold onMovementTick
  rw [if_neg (by omega), if_neg (by omega), hp]
  rfl

/-- A tick with the index at the end of the path: nothing moves, the timer is
stopped, the moving flag is cleared and `movementCompleted` is emitted. -/
theorem onMovementTick_done {α : Type} [LinearOrderedField α] [FloorRing α]
    (m : MouseController α) (h : (m.m_currentPath.length : Int) ≤ m.m_pathIndex) :
    onMovementTick m
      = some ({ m with m_timerActive := false, m_isMoving := false },
              [MouseSignal.movementCompleted]) := by
  unfold onMovementTick
  rw [if_pos h]

/-- Under the invariant of the playback members a tick never reads outside the path. -/
theorem onMovementTick_defined {α : Type} [LinearOrderedField α] [FloorRing α]
    (m : MouseController α) (hinv : m.playbackInv) : ∃ r, onMovementTick m = some r := by
  obtain ⟨_, h0, hl⟩ := hinv
  by_cases hge : (m.m_currentPath.length : Int) ≤ m.m_pathIndex
  · exact ⟨_, onMovementTick_done m hge⟩
  · have hlt : m.m_pathIndex.toNat < m.m_currentPath.length := by omega
    exact ⟨_, onMovementTick_inside m _ h0 (List.getElem?_eq_getElem hlt)⟩

/-- The checked loop of `findTargets` never meets a zero divisor: it returns
what the loop returns. -/
theorem findTargetsLoopChecked_eq {α : Type} [LinearOrderedField α] [FloorRing α]
    (sqrt : α → α) (s : ColorDetection α) (center : QPoint)
    (contours : List (Contour α)) (targets : List (DetectedTarget α)) :
    findTargetsLoopChecked sqrt s center contours targets
      = some (findTargetsLoop sqrt s center contours targets) := by
  induction contours generalizing targets with
  | nil => rfl
  | cons c rest ih =>
    unfold findTargetsLoopChecked findTargetsLoop
    by_cases h1 : c.area < s.m_minArea ∨ c.area > s.m_maxArea
    · rw [if_pos h1, if_pos h1]
      exact ih targets
    · rw [if_neg h1, if_neg h1]
      by_cases h2 : c.m00 = 0
      · rw [if_pos h2, if_pos h2]
        exact ih targets
      · rw [if_neg h2, if_neg h2]
        simp only [centroidChecked, if_neg h2]
        exact ih _

/-- A successful capture stores the elapsed time and changes nothing else. -/
theorem capture_some {β : Type} [LinearOrderedField β] {M : Type}
    (screens : List (QScreen M β)) (elapsed : Int) (s s1 : ScreenCapture β) (frame : M)
    (h : s.capture screens elapsed = some (frame, s1)) :
    s1 = { s with m_lastCaptureTime := (elapsed : β) } := by
  unfold ScreenCapture.capture at h
  split_ifs at h
  split at h
  · injection h with h
    injection h with _ h2
    exact h2.symm
  · cases h

/-- The frame source after `processFrame` is the one after its capture. -/
theorem processFrame_capture {α : Type} [LinearOrderedField α] [FloorRing α]
    {M : Type} (env : TickEnv M α) (t : Tracker α) (r : TickResult α)
    (h : t.processFrame env = some r) :
    ∃ frame, t.m_screenCapture.capture env.screens env.captureElapsed
      = some (frame, r.state.m_screenCapture) := by
  cases hc : t.m_screenCapture.capture env.screens env.captureElapsed with
  | none => simp [Tracker.processFrame, hc] at h
  | some p =>
    obtain ⟨frame, sc1⟩ := p
    refine ⟨frame, ?_⟩
    have hsc : r.state.m_screenCapture = sc1 := by
      simp only [Tracker.processFrame, hc] at h
      repeat' split at h
      all_goals first
        | (injection h with h
           subst h
           rfl)
        | injection h
    rw [hsc]

/-- The setters keep the randomization factor between 0 and 1 and do not touch
the generator. -/
theorem mouseSetters_keep_factor {α : Type} [LinearOrderedField α]
    (calls : List (MouseSetter α)) (m : MouseController α)
    (h : 0 ≤ m.m_randomizationFactor ∧ m.m_randomizationFactor ≤ 1) :
    (0 ≤ (calls.foldl MouseSetter.apply m).m_randomizationFactor
      ∧ (calls.foldl MouseSetter.apply m).m_randomizationFactor ≤ 1)
    ∧ (calls.foldl MouseSetter.apply m).m_rng = m.m_rng := by
  induction calls generalizing m with
  | nil => exact ⟨h, rfl⟩
  | cons c rest ih =>
    simp only [List.foldl_cons]
    cases c with
    | setAimAssistStrength x => exact ih _ h
    | setResponseSpeed x => exact ih _ h
    | setHumanizeEnabled e => exact ih _ h
    | setRandomizationFactor f =>
      have hc : 0 ≤ clamp f (0 : α) 1 ∧ clamp f (0 : α) 1 ≤ 1 := by
        unfold clamp
        split_ifs with h1 h2
        · exact ⟨le_refl _, zero_le_one⟩
        · exact ⟨zero_le_one, le_refl _⟩
        · exact ⟨not_lt.mp h1, not_lt.mp h2⟩
      exact ih _ hc

/-- The extraction on `squareFrame` with the default settings returns `squareTarget`. -/
theorem squareFrame_targets (elapsed : Int) (c : QPoint) :
    (detect testCV qsqrt elapsed ColorDetection.init squareFrame c).targets = [squareTarget] := by
  have e : Int.tdiv 100 2 = 50 := by decide
  simp [detect, testCV, squareFrame, findTargets, findTargetsLoop, squareContour,
    ColorDetection.init, stdSort, makeTarget, calculateConfidence, truncToInt, qsqrt,
    squareTarget, e]
  norm_num

/-- An integer is its own nearest integer. -/
theorem roundHalfEven_intCast (z : Int) : roundHalfEven (z : ℚ) = z := by
  unfold roundHalfEven
  simp

/-- The nearest integer is the floor or the floor plus one, within 1/2. -/
theorem roundHalfEven_bounds (t : ℚ) :
    (⌊t⌋ ≤ roundHalfEven t ∧ roundHalfEven t ≤ ⌊t⌋ + 1)
    ∧ ((roundHalfEven t : ℚ) - t ≤ 1 / 2 ∧ t - (roundHalfEven t : ℚ) ≤ 1 / 2) := by
  have h1 := Int.floor_le t
  have h2 := Int.lt_floor_add_one t
  unfold roundHalfEven
  split_ifs with a b c
  · refine ⟨⟨le_refl _, by omega⟩, ?_, ?_⟩ <;> linarith
  · refine ⟨⟨by omega, le_refl _⟩, ?_, ?_⟩ <;> push_cast <;> linarith
  · refine ⟨⟨le_refl _, by omega⟩, ?_, ?_⟩ <;> linarith
  · refine ⟨⟨by omega, le_refl _⟩, ?_, ?_⟩ <;> push_cast <;> linarith

/-- Rounding to the nearest integer is monotone. -/
theorem roundHalfEven_mono {t s : ℚ} (h : t ≤ s) : roundHalfEven t ≤ roundHalfEven s := by
  have hf : ⌊t⌋ ≤ ⌊s⌋ := Int.floor_mono h
  rcases lt_or_eq_of_le hf with hlt | heq
  · have := (roundHalfEven_bounds t).1.2
    have := (roundHalfEven_bounds s).1.1
    omega
  · unfold roundHalfEven
    rw [heq]
    split_ifs <;> first | omega | (exfalso; linarith)

/-- Rounding to the nearest integer moves a number by at most 1/2. -/
theorem roundHalfEven_err (t : ℚ) : |(roundHalfEven t : ℚ) - t| ≤ 1 / 2 := by
  have h := (roundHalfEven_bounds t).2
  rw [abs_le]
  constructor <;> linarith

/-- Powers of two are positive. -/
theorem two_zpow_pos (e : Int) : (0 : ℚ) < 2 ^ e := zpow_pos (by norm_num) e

/-- Powers of two grow with the exponent. -/
theorem two_zpow_mono {a b : Int} (h : a ≤ b) : (2 : ℚ) ^ a ≤ 2 ^ b :=
  zpow_le_zpow_right₀ (by norm_num) h

/-- The binade of a number other than 0: it is at least -1022, the magnitude is
below 2^(e + 1), and it is at least 2^e unless `e` is -1022. -/
theorem binade_spec (x : ℚ) :
    -1022 ≤ binade x ∧ |x| < 2 ^ (binade x + 1) ∧ (x ≠ 0 → 2 ^ binade x ≤ |x| ∨ binade x = -1022) := by
  have hlt : |x| < (2 : ℚ) ^ (Int.log 2 |x| + 1) := by
    have := @Int.lt_zpow_succ_log_self ℚ _ _ 2 (by norm_num) |x|
    simpa using this
  refine ⟨le_max_right _ _, ?_, ?_⟩
  · exact lt_of_lt_of_le hlt (two_zpow_mono (by unfold binade; have := le_max_left (Int.log 2 |x|) (-1022); omega))
  · intro hx
    have hpos : 0 < |x| := abs_pos.mpr hx
    have hle : (2 : ℚ) ^ (Int.log 2 |x|) ≤ |x| := by
      have := @Int.zpow_log_le_self ℚ _ _ 2 |x| (by norm_num) hpos
      simpa using this
    unfold binade
    rcases le_total (Int.log 2 |x|) (-1022) with h | h
    · right
      exact max_eq_right h
    · left
      rw [max_eq_left h]
      exact hle

/-- The binade of a number with a known exponent. -/
theorem binade_eq (x : ℚ) (e : Int) (he : -1022 ≤ e) (h1 : 2 ^ e ≤ |x|) (h2 : |x| < 2 ^ (e + 1)) :
    binade x = e := by
  have hpos : 0 < |x| := lt_of_lt_of_le (two_zpow_pos e) h1
  have a1 : e ≤ Int.log 2 |x| := by
    rw [← Int.zpow_le_iff_le_log (by norm_num) hpos]
    simpa using h1
  have a2 : Int.log 2 |x| < e + 1 := by
    rw [← Int.lt_zpow_iff_log_lt (by norm_num) hpos]
    simpa using h2
  unfold binade
  rw [max_eq_left (by omega)]
  omega

/-- Zero is a binary64 number. -/
theorem rnd64_zero : rnd64 0 = 0 := by
  unfold rnd64
  simp [roundHalfEven]

/-- The value of `rnd64` at a number of known exponent. -/
theorem rnd64_eq (x : ℚ) (e : Int) (he : -1022 ≤ e) (h1 : 2 ^ e ≤ |x|) (h2 : |x| < 2 ^ (e + 1)) :
    rnd64 x = (roundHalfEven (x / 2 ^ (e - 52)) : ℚ) * 2 ^ (e - 52) := by
  unfold rnd64
  rw [binade_eq x e he h1 h2]

/-- The scaled significand is below 2^53 in magnitude. -/
theorem scaled_abs_lt (x : ℚ) : |x / 2 ^ (binade x - 52)| < 2 ^ (53 : Nat) := by
  have h := (binade_spec x).2.1
  have hp := two_zpow_pos (binade x - 52)
  rw [abs_div, abs_of_pos hp, div_lt_iff₀ hp]
  have e : (2 : ℚ) ^ (53 : Nat) * 2 ^ (binade x - 52) = 2 ^ (binade x + 1) := by
    rw [← zpow_natCast, ← zpow_add₀ (by norm_num)]
    congr 1
    push_cast
    ring
  rw [e]
  exact h

/-- The rounded significand has at most 53 bits, or is 2^53. -/
theorem roundHalfEven_scaled_le (x : ℚ) :
    -(2 : Int) ^ 53 ≤ roundHalfEven (x / 2 ^ (binade x - 52))
    ∧ roundHalfEven (x / 2 ^ (binade x - 52)) ≤ (2 : Int) ^ 53 := by
  have h := abs_lt.mp (scaled_abs_lt x)
  constructor
  · have := roundHalfEven_mono (le_of_lt h.1)
    have e : (-(2 : ℚ) ^ (53 : Nat)) = ((-(2 : Int) ^ 53 : Int) : ℚ) := by push_cast; rfl
    rw [e, roundHalfEven_intCast] at this
    exact this
  · have := roundHalfEven_mono (le_of_lt h.2)
    have e : ((2 : ℚ) ^ (53 : Nat)) = (((2 : Int) ^ 53 : Int) : ℚ) := by push_cast; rfl
    rw [e, roundHalfEven_intCast] at this
    exact this

/-- The rounding keeps the sign: not negative. -/
theorem rnd64_nonneg {x : ℚ} (h : 0 ≤ x) : 0 ≤ rnd64 x := by
  unfold rnd64
  have hp := two_zpow_pos (binade x - 52)
  have : 0 ≤ roundHalfEven (x / 2 ^ (binade x - 52)) := by
    have := roundHalfEven_mono (div_nonneg h (le_of_lt hp))
    rw [show (0 : ℚ) = ((0 : Int) : ℚ) by simp, roundHalfEven_intCast] at this
    exact this
  have : (0 : ℚ) ≤ (roundHalfEven (x / 2 ^ (binade x - 52)) : ℚ) := by exact_mod_cast this
  positivity

/-- The rounding keeps the sign: not positive. -/
theorem rnd64_nonpos {x : ℚ} (h : x ≤ 0) : rnd64 x ≤ 0 := by
  unfold rnd64
  have hp := two_zpow_pos (binade x - 52)
  have : roundHalfEven (x / 2 ^ (binade x - 52)) ≤ 0 := by
    have := roundHalfEven_mono (div_nonpos_of_nonpos_of_nonneg h (le_of_lt hp))
    rw [show (0 : ℚ) = ((0 : Int) : ℚ) by simp, roundHalfEven_intCast] at this
    exact this
  have : (roundHalfEven (x / 2 ^ (binade x - 52)) : ℚ) ≤ 0 := by exact_mod_cast this
  exact mul_nonpos_of_nonpos_of_nonneg this (le_of_lt hp)

/-- Splitting a power of two. -/
theorem two_zpow_split (e : Int) (k : Nat) : (2 : ℚ) ^ k * 2 ^ (e - k) = 2 ^ e := by
  rw [← zpow_natCast, ← zpow_add₀ (by norm_num)]
  congr 1
  ring

/-- The rounded value of a positive number that reaches its binade is at least
the power of two that starts the binade. -/
theorem rnd64_ge_pow {x : ℚ} (h : 2 ^ binade x ≤ x) : 2 ^ binade x ≤ rnd64 x := by
  have hp := two_zpow_pos (binade x - 52)
  have hs : ((2 : Int) ^ 52 : Int) ≤ roundHalfEven (x / 2 ^ (binade x - 52)) := by
    have h1 : (((2 : Int) ^ 52 : Int) : ℚ) ≤ x / 2 ^ (binade x - 52) := by
      have e52 : (((2 : Int) ^ 52 : Int) : ℚ) = (2 : ℚ) ^ (52 : Nat) := by norm_num
      rw [e52, le_div_iff₀ hp]
      have := two_zpow_split (binade x) 52
      push_cast at this
      rw [this]
      exact h
    have := roundHalfEven_mono h1
    rw [roundHalfEven_intCast] at this
    exact this
  have hs2 : ((2 : ℚ) ^ (52 : Nat)) ≤ (roundHalfEven (x / 2 ^ (binade x - 52)) : ℚ) := by
    exact_mod_cast hs
  unfold rnd64
  calc (2 : ℚ) ^ binade x = 2 ^ (52 : Nat) * 2 ^ (binade x - (52 : Nat)) := (two_zpow_split _ 52).symm
    _ ≤ _ := by
      push_cast
      exact mul_le_mul_of_nonneg_right hs2 (le_of_lt hp)

/-- The rounded value does not exceed the power of two that ends the binade. -/
theorem rnd64_le_pow (x : ℚ) : rnd64 x ≤ 2 ^ (binade x + 1) := by
  have hp := two_zpow_pos (binade x - 52)
  have hs := (roundHalfEven_scaled_le x).2
  have hs2 : (roundHalfEven (x / 2 ^ (binade x - 52)) : ℚ) ≤ (2 : ℚ) ^ (53 : Nat) := by
    exact_mod_cast hs
  unfold rnd64
  calc _ ≤ (2 : ℚ) ^ (53 : Nat) * 2 ^ (binade x - 52) :=
        mul_le_mul_of_nonneg_right hs2 (le_of_lt hp)
    _ = 2 ^ (binade x + 1) := by
      have := two_zpow_split (binade x + 1) 53
      push_cast at this
      rw [← this]
      congr 2
      ring

/-- The negative counterpart of `rnd64_ge_pow`. -/
theorem rnd64_le_neg_pow {x : ℚ} (h : 2 ^ binade x ≤ -x) :
    rnd64 x ≤ -2 ^ binade x := by
  have hp := two_zpow_pos (binade x - 52)
  have hs : roundHalfEven (x / 2 ^ (binade x - 52)) ≤ ((-(2 : Int) ^ 52 : Int)) := by
    have h1 : x / 2 ^ (binade x - 52) ≤ ((-(2 : Int) ^ 52 : Int) : ℚ) := by
      have e52 : ((-(2 : Int) ^ 52 : Int) : ℚ) = -(2 : ℚ) ^ (52 : Nat) := by norm_num
      rw [e52, div_le_iff₀ hp]
      have := two_zpow_split (binade x) 52
      push_cast at this
      rw [neg_mul, this]
      linarith
    have := roundHalfEven_mono h1
    rw [roundHalfEven_intCast] at this
    exact this
  have hs2 : (roundHalfEven (x / 2 ^ (binade x - 52)) : ℚ) ≤ -((2 : ℚ) ^ (52 : Nat)) := by
    exact_mod_cast hs
  unfold rnd64
  calc _ ≤ -((2 : ℚ) ^ (52 : Nat)) * 2 ^ (binade x - 52) :=
        mul_le_mul_of_nonneg_right hs2 (le_of_lt hp)
    _ = -2 ^ binade x := by
      have := two_zpow_split (binade x) 52
      push_cast at this
      rw [neg_mul, this]

/-- The negative counterpart of `rnd64_le_pow`. -/
theorem rnd64_ge_neg_pow (x : ℚ) : -2 ^ (binade x + 1) ≤ rnd64 x := by
  have hp := two_zpow_pos (binade x - 52)
  have hs := (roundHalfEven_scaled_le x).1
  have hs2 : -((2 : ℚ) ^ (53 : Nat)) ≤ (roundHalfEven (x / 2 ^ (binade x - 52)) : ℚ) := by
    exact_mod_cast hs
  unfold rnd64
  calc -(2 : ℚ) ^ (binade x + 1) = -((2 : ℚ) ^ (53 : Nat)) * 2 ^ (binade x - 52) := by
        have := two_zpow_split (binade x + 1) 53
        push_cast at this
        rw [neg_mul, ← this]
        congr 3
        ring
    _ ≤ _ := mul_le_mul_of_nonneg_right hs2 (le_of_lt hp)

/-- The binade grows with the magnitude. -/
theorem binade_mono {x y : ℚ} (hx : 0 < |x|) (h : |x| ≤ |y|) : binade x ≤ binade y := by
  unfold binade
  exact max_le_max (Int.log_mono_right hx h) (le_refl _)

/-- Rounding to binary64 is monotone. -/
theorem rnd64_mono {x y : ℚ} (h : x ≤ y) : rnd64 x ≤ rnd64 y := by
  rcases le_or_lt x 0 with hx0 | hx0
  · rcases le_or_lt 0 y with hy0 | hy0
    · exact le_trans (rnd64_nonpos hx0) (rnd64_nonneg hy0)
    · -- x ≤ y < 0
      have hxlt : x < 0 := lt_of_le_of_lt h hy0
      have hb : binade y ≤ binade x := by
        apply binade_mono (abs_pos.mpr (ne_of_lt hy0))
        rw [abs_of_neg hy0, abs_of_neg hxlt]
        linarith
      rcases lt_or_eq_of_le hb with hlt | heq
      · have hsx := (binade_spec x).2.2 (ne_of_lt hxlt)
        have hmin := (binade_spec y).1
        rcases hsx with hsx | hsx
        · rw [abs_of_neg hxlt] at hsx
          have a := rnd64_le_neg_pow hsx
          have b := rnd64_ge_neg_pow y
          have c : (2 : ℚ) ^ (binade y + 1) ≤ 2 ^ binade x := two_zpow_mono (by omega)
          linarith
        · omega
      · unfold rnd64
        rw [heq]
        have hp := two_zpow_pos (binade x - 52)
        have : x / 2 ^ (binade x - 52) ≤ y / 2 ^ (binade x - 52) :=
          div_le_div_of_nonneg_right h (le_of_lt hp)
        have := roundHalfEven_mono this
        have : (roundHalfEven (x / 2 ^ (binade x - 52)) : ℚ)
            ≤ (roundHalfEven (y / 2 ^ (binade x - 52)) : ℚ) := by exact_mod_cast this
        exact mul_le_mul_of_nonneg_right this (le_of_lt hp)
  · -- 0 < x ≤ y
    have hy0 : 0 < y := lt_of_lt_of_le hx0 h
    have hb : binade x ≤ binade y := by
      apply binade_mono (abs_pos.mpr (ne_of_gt hx0))
      rw [abs_of_pos hy0, abs_of_pos hx0]
      exact h
    rcases lt_or_eq_of_le hb with hlt | heq
    · have hsy := (binade_spec y).2.2 (ne_of_gt hy0)
      have hmin := (binade_spec x).1
      rcases hsy with hsy | hsy
      · rw [abs_of_pos hy0] at hsy
        have a := rnd64_ge_pow hsy
        have b := rnd64_le_pow x
        have c : (2 : ℚ) ^ (binade x + 1) ≤ 2 ^ binade y := two_zpow_mono (by omega)
        linarith
      · omega
    · unfold rnd64
      rw [heq]
      have hp := two_zpow_pos (binade y - 52)
      have : x / 2 ^ (binade y - 52) ≤ y / 2 ^ (binade y - 52) :=
        div_le_div_of_nonneg_right h (le_of_lt hp)
      have := roundHalfEven_mono this
      have : (roundHalfEven (x / 2 ^ (binade y - 52)) : ℚ)
          ≤ (roundHalfEven (y / 2 ^ (binade y - 52)) : ℚ) := by exact_mod_cast this
      exact mul_le_mul_of_nonneg_right this (le_of_lt hp)

/-- The rounding error: at most 2^-53 of the magnitude, or 2^-1075 for a
subnormal number. -/
theorem rnd64_err (x : ℚ) : |rnd64 x - x| ≤ |x| / 2 ^ (53 : Nat) + 1 / 2 ^ (1075 : Nat) := by
  have hp := two_zpow_pos (binade x - 52)
  have herr := roundHalfEven_err (x / 2 ^ (binade x - 52))
  have h1 : |rnd64 x - x| ≤ (1 / 2) * 2 ^ (binade x - 52) := by
    have e : rnd64 x - x
        = ((roundHalfEven (x / 2 ^ (binade x - 52)) : ℚ) - x / 2 ^ (binade x - 52))
            * 2 ^ (binade x - 52) := by
      unfold rnd64
      field_simp
    rw [e, abs_mul, abs_of_pos hp]
    exact mul_le_mul_of_nonneg_right herr (le_of_lt hp)
  have h53 : (1 / 2 : ℚ) * 2 ^ (binade x - 52) = 2 ^ binade x / 2 ^ (53 : Nat) := by
    have := two_zpow_split (binade x) 52
    push_cast at this
    rw [← this]
    field_simp
    ring
  rw [h53] at h1
  by_cases hx : x = 0
  · subst hx
    rw [rnd64_zero]
    simp
  rcases (binade_spec x).2.2 hx with hs | hs
  · have : (2 : ℚ) ^ binade x / 2 ^ (53 : Nat) ≤ |x| / 2 ^ (53 : Nat) :=
      div_le_div_of_nonneg_right hs (by positivity)
    have : (0 : ℚ) ≤ 1 / 2 ^ (1075 : Nat) := by positivity
    linarith
  · rw [hs] at h1
    have e : (2 : ℚ) ^ (-1022 : Int) / 2 ^ (53 : Nat) = 1 / 2 ^ (1075 : Nat) := by
      rw [zpow_neg, ← zpow_natCast, ← zpow_natCast]
      rw [div_eq_mul_inv, ← mul_inv, one_div, ← zpow_add₀ (by norm_num)]
      norm_num
    rw [e] at h1
    have : (0 : ℚ) ≤ |x| / 2 ^ (53 : Nat) := by positivity
    linarith

/-- A number with an integer scaled significand is not changed by the rounding. -/
theorem rnd64_of_scaled_int (x : ℚ) (m : Int) (h : x / 2 ^ (binade x - 52) = (m : ℚ)) :
    rnd64 x = x := by
  have hp := two_zpow_pos (binade x - 52)
  unfold rnd64
  rw [h, roundHalfEven_intCast, ← h]
  field_simp

/-- A binary64 number, that is a significand of at most 53 bits times a power of
two not below 2^-1074, is not changed by the rounding. -/
theorem rnd64_fix (n k : Int) (hn : |n| ≤ 2 ^ 53) (hk : -1074 ≤ k) :
    rnd64 ((n : ℚ) * 2 ^ k) = (n : ℚ) * 2 ^ k := by
  by_cases hn0 : n = 0
  · subst hn0
    simp [rnd64_zero]
  have hx : (n : ℚ) * 2 ^ k ≠ 0 := by
    have := two_zpow_pos k
    have : (n : ℚ) ≠ 0 := by exact_mod_cast hn0
    positivity
  have hpk := two_zpow_pos k
  have hnq : |(n : ℚ)| ≤ 2 ^ (53 : Nat) := by exact_mod_cast hn
  have habs : |(n : ℚ) * 2 ^ k| = |(n : ℚ)| * 2 ^ k := by rw [abs_mul, abs_of_pos hpk]
  rcases le_or_lt (binade ((n : ℚ) * 2 ^ k) - 52) k with hle | hlt
  · -- the grid of the binade is not coarser than 2^k
    obtain ⟨j, hj⟩ := Int.eq_ofNat_of_zero_le (show 0 ≤ k - (binade ((n : ℚ) * 2 ^ k) - 52) by omega)
    apply rnd64_of_scaled_int _ (n * 2 ^ j)
    have e : (2 : ℚ) ^ k = 2 ^ j * 2 ^ (binade ((n : ℚ) * 2 ^ k) - 52) := by
      rw [← zpow_natCast, ← zpow_add₀ (by norm_num), ← hj]
      congr 1
      ring
    have hp := two_zpow_pos (binade ((n : ℚ) * 2 ^ k) - 52)
    rw [div_eq_iff (ne_of_gt hp)]
    push_cast
    nth_rewrite 1 [e]
    ring
  · -- the binade starts above 2^(k + 52): the significand is 2^53 in magnitude
    have hmin := (binade_spec ((n : ℚ) * 2 ^ k)).1
    rcases (binade_spec ((n : ℚ) * 2 ^ k)).2.2 hx with hs | hs
    · rw [habs] at hs
      have hub : |(n : ℚ)| * 2 ^ k ≤ 2 ^ (k + 53) := by
        have := two_zpow_split (k + 53) 53
        have e : (k + 53 - ((53 : Nat) : Int)) = k := by push_cast; ring
        rw [e] at this
        rw [← this]
        exact mul_le_mul_of_nonneg_right hnq (le_of_lt hpk)
      have hb : binade ((n : ℚ) * 2 ^ k) ≤ k + 53 := by
        have := le_trans hs hub
        exact (zpow_le_zpow_iff_right₀ (by norm_num : (1 : ℚ) < 2)).mp this
      have hbe : binade ((n : ℚ) * 2 ^ k) = k + 53 := by omega
      rw [hbe] at hs
      have hn53 : (2 : ℚ) ^ (53 : Nat) ≤ |(n : ℚ)| := by
        have := two_zpow_split (k + 53) 53
        have e : (k + 53 - ((53 : Nat) : Int)) = k := by push_cast; ring
        rw [e] at this
        rw [← this] at hs
        exact le_of_mul_le_mul_right hs hpk
      have hn53i : |n| = 2 ^ 53 := by
        have : (2 : Int) ^ 53 ≤ |n| := by exact_mod_cast hn53
        omega
      apply rnd64_of_scaled_int _ (n / 2)
      rw [hbe]
      have hp := two_zpow_pos (k + 53 - 52)
      rw [div_eq_iff (ne_of_gt hp)]
      have e2 : (2 : ℚ) ^ (k + 53 - 52) = 2 * 2 ^ k := by
        have : k + 53 - 52 = 1 + k := by ring
        rw [this, zpow_add₀ (by norm_num)]
        norm_num
      rw [e2]
      have hdiv : ((n / 2 : Int) : ℚ) * 2 = (n : ℚ) := by
        have h2 : n / 2 * 2 = n := by
          rcases abs_eq (by norm_num : (0 : Int) ≤ 2 ^ 53) |>.mp hn53i with h | h <;>
            rw [h] <;> norm_num
        exact_mod_cast h2
      rw [← hdiv]
      ring
    · omega

/-- An integer of at most 53 bits is a binary64 number. -/
theorem rnd64_intCast (z : Int) (h : |z| ≤ 2 ^ 53) : rnd64 (z : ℚ) = z := by
  have := rnd64_fix z 0 h (by norm_num)
  simpa using this

/-- A rounded value is a binary64 number. -/
theorem rnd64_idem (x : ℚ) : rnd64 (rnd64 x) = rnd64 x := by
  have h := roundHalfEven_scaled_le x
  have hmin := (binade_spec x).1
  unfold rnd64
  exact rnd64_fix _ _ (abs_le.mpr ⟨by omega, by omega⟩) (by omega)

/-- The nearest integer, when it is not a tie. -/
theorem roundHalfEven_eq (t : ℚ) (n : Int) (h1 : (n : ℚ) - 1 / 2 < t) (h2 : t < (n : ℚ) + 1 / 2) :
    roundHalfEven t = n := by
  have hb := roundHalfEven_bounds t
  have a : ((roundHalfEven t : Int) : ℚ) < (n : ℚ) + 1 := by linarith [hb.2.1]
  have b : (n : ℚ) - 1 < ((roundHalfEven t : Int) : ℚ) := by linarith [hb.2.2]
  have a2 : roundHalfEven t < n + 1 := by exact_mod_cast a
  have b2 : n - 1 < roundHalfEven t := by exact_mod_cast b
  omega

/-- Evaluation of `rnd64` at a positive number from the exponent `e` and the
significand `n`. -/
theorem rnd64_eval (x : ℚ) (e n : Int) (he : -1022 ≤ e) (h1 : 2 ^ e ≤ x)
    (h2 : x < 2 ^ (e + 1)) (h3 : (n : ℚ) - 1 / 2 < x / 2 ^ (e - 52))
    (h4 : x / 2 ^ (e - 52) < (n : ℚ) + 1 / 2) : rnd64 x = (n : ℚ) * 2 ^ (e - 52) := by
  have hx : 0 < x := lt_of_lt_of_le (two_zpow_pos e) h1
  rw [rnd64_eq x e he (by rw [abs_of_pos hx]; exact h1) (by rw [abs_of_pos hx]; exact h2),
    roundHalfEven_eq _ n h3 h4]

/-- The negative of a rounded value is a binary64 number. -/
theorem rnd64_neg_idem (x : ℚ) : rnd64 (-rnd64 x) = -rnd64 x := by
  have h := roundHalfEven_scaled_le x
  have hmin := (binade_spec x).1
  have e : -rnd64 x
      = ((-(roundHalfEven (x / 2 ^ (binade x - 52))) : Int) : ℚ) * 2 ^ (binade x - 52) := by
    unfold rnd64
    push_cast
    ring
  rw [e]
  exact rnd64_fix _ _ (abs_le.mpr ⟨by omega, by omega⟩) (by omega)

/-- A number between two binary64 numbers rounds to a number between them. -/
theorem rnd64_between {a x b : ℚ} (ha : rnd64 a = a) (hb : rnd64 b = b) (h1 : a ≤ x) (h2 : x ≤ b) :
    a ≤ rnd64 x ∧ rnd64 x ≤ b :=
  ⟨ha ▸ rnd64_mono h1, hb ▸ rnd64_mono h2⟩

/-- A natural number of at most 53 bits is a binary64 number. -/
theorem rnd64_natLit (n : Nat) (h : n ≤ 2 ^ 53) : rnd64 (n : ℚ) = n := by
  have := rnd64_intCast (n : Int) (by rw [abs_of_nonneg (by positivity)]; exact_mod_cast h)
  simpa using this

/-- One is a binary64 number. -/
theorem rnd64_one : rnd64 1 = 1 := by simpa using rnd64_natLit 1 (by norm_num)

/-- One half is a binary64 number. -/
theorem rnd64_half : rnd64 (1 / 2) = 1 / 2 := by
  have := rnd64_fix 1 (-1) (by norm_num) (by norm_num)
  norm_num at this
  simpa using this

/-- The base delay lies between 0 and 1000, is a binary64 number, and differs
from the exact `1000 * (1 - speed / 100)` by at most 2^-41. -/
theorem baseDelay64_bounds (speed : Int) (hs0 : 0 ≤ speed) (hs1 : speed ≤ 100) :
    0 ≤ baseDelay64 speed ∧ baseDelay64 speed ≤ 1000
    ∧ rnd64 (baseDelay64 speed) = baseDelay64 speed
    ∧ |baseDelay64 speed - 1000 * (1 - (speed : ℚ) / 100)| ≤ 1 / 2 ^ (41 : Nat) := by
  have c0 := rnd64_zero
  have c1 := rnd64_one
  have c1000 : rnd64 1000 = 1000 := by simpa using rnd64_natLit 1000 (by norm_num)
  have hsq0 : (0 : ℚ) ≤ (speed : ℚ) := by exact_mod_cast hs0
  have hsq1 : (speed : ℚ) ≤ 100 := by exact_mod_cast hs1
  have hx0 : (0 : ℚ) ≤ (speed : ℚ) / 100 := by positivity
  have hx1 : (speed : ℚ) / 100 ≤ 1 := by rw [div_le_one (by norm_num)]; exact hsq1
  obtain ⟨hq0, hq1⟩ : 0 ≤ fdiv (speed : ℚ) 100 ∧ fdiv (speed : ℚ) 100 ≤ 1 :=
    rnd64_between c0 c1 hx0 hx1
  obtain ⟨hw0, hw1⟩ : 0 ≤ fsub 1 (fdiv (speed : ℚ) 100) ∧ fsub 1 (fdiv (speed : ℚ) 100) ≤ 1 :=
    rnd64_between c0 c1 (by linarith) (by linarith)
  obtain ⟨hB0, hB1⟩ : 0 ≤ fmul 1000 (fsub 1 (fdiv (speed : ℚ) 100))
      ∧ fmul 1000 (fsub 1 (fdiv (speed : ℚ) 100)) ≤ 1000 :=
    rnd64_between c0 c1000 (by positivity) (by linarith)
  have e1 := abs_le.mp (rnd64_err ((speed : ℚ) / 100))
  have e2 := abs_le.mp (rnd64_err (1 - fdiv (speed : ℚ) 100))
  have e3 := abs_le.mp (rnd64_err (1000 * fsub 1 (fdiv (speed : ℚ) 100)))
  rw [abs_of_nonneg hx0] at e1
  rw [abs_of_nonneg (by linarith : (0 : ℚ) ≤ 1 - fdiv (speed : ℚ) 100)] at e2
  rw [abs_of_nonneg (by positivity : (0 : ℚ) ≤ 1000 * fsub 1 (fdiv (speed : ℚ) 100))] at e3
  have hq : rnd64 ((speed : ℚ) / 100) = fdiv (speed : ℚ) 100 := rfl
  have hw : rnd64 (1 - fdiv (speed : ℚ) 100) = fsub 1 (fdiv (speed : ℚ) 100) := rfl
  have hB : rnd64 (1000 * fsub 1 (fdiv (speed : ℚ) 100))
      = fmul 1000 (fsub 1 (fdiv (speed : ℚ) 100)) := rfl
  rw [hq] at e1
  rw [hw] at e2
  rw [hB] at e3
  refine ⟨hB0, hB1, rnd64_idem _, ?_⟩
  unfold baseDelay64
  generalize fmul 1000 (fsub 1 (fdiv (speed : ℚ) 100)) = B at *
  generalize fsub 1 (fdiv (speed : ℚ) 100) = w at *
  generalize fdiv (speed : ℚ) 100 = q at *
  have k53 : (0 : ℚ) < 2 ^ (53 : Nat) := by positivity
  have a1 : (speed : ℚ) / 100 / 2 ^ (53 : Nat) ≤ 1 / 2 ^ (53 : Nat) :=
    div_le_div_of_nonneg_right hx1 (le_of_lt k53)
  have a2 : (1 - q) / 2 ^ (53 : Nat) ≤ 1 / 2 ^ (53 : Nat) :=
    div_le_div_of_nonneg_right (by linarith) (le_of_lt k53)
  have a3 : 1000 * w / 2 ^ (53 : Nat) ≤ 1000 / 2 ^ (53 : Nat) :=
    div_le_div_of_nonneg_right (by linarith) (le_of_lt k53)
  have num : (3000 : ℚ) / 2 ^ (53 : Nat) + 2001 * (1 / 2 ^ (1075 : Nat)) ≤ 1 / 2 ^ (41 : Nat) := by
    norm_num
  rw [abs_le]
  constructor <;> linarith [e1.1, e1.2, e2.1, e2.2, e3.1, e3.2]

/-- What `getRandomDelay64` computes, for a speed in 0..100, a factor in 0..1 and
a draw in 0..1. -/
theorem getRandomDelay64_bounds (m : MouseController ℚ)
    (hs0 : 0 ≤ m.m_responseSpeed) (hs1 : m.m_responseSpeed ≤ 100)
    (hf0 : 0 ≤ m.m_randomizationFactor) (hf1 : m.m_randomizationFactor ≤ 1)
    (hr0 : 0 ≤ m.m_rng 0) (hr1 : m.m_rng 0 ≤ 1) :
    (getRandomDelay64 m).1
        = fadd (baseDelay64 m.m_responseSpeed)
            (fmul (fmul (baseDelay64 m.m_responseSpeed) m.m_randomizationFactor)
                  (fsub (fmul (m.m_rng 0) 2) 1))
    ∧ fsub (baseDelay64 m.m_responseSpeed)
          (fmul (baseDelay64 m.m_responseSpeed) m.m_randomizationFactor)
        ≤ (getRandomDelay64 m).1
    ∧ (getRandomDelay64 m).1
        ≤ fadd (baseDelay64 m.m_responseSpeed)
            (fmul (baseDelay64 m.m_responseSpeed) m.m_randomizationFactor)
    ∧ 0 ≤ (getRandomDelay64 m).1
    ∧ (getRandomDelay64 m).1 ≤ 2000 := by
  have hdef : (getRandomDelay64 m).1
      = max 0 (fadd (baseDelay64 m.m_responseSpeed)
          (fmul (fmul (baseDelay64 m.m_responseSpeed) m.m_randomizationFactor)
                (fsub (fmul (m.m_rng 0) 2) 1))) := rfl
  rw [hdef]
  have c0 := rnd64_zero
  have c1 := rnd64_one
  have c2 : rnd64 2 = 2 := by simpa using rnd64_natLit 2 (by norm_num)
  have c2000 : rnd64 2000 = 2000 := by simpa using rnd64_natLit 2000 (by norm_num)
  have cm1 : rnd64 (-1) = -1 := by
    have := rnd64_neg_idem 1
    rwa [c1] at this
  obtain ⟨hB0, hB1, hBfix, _⟩ := baseDelay64_bounds m.m_responseSpeed hs0 hs1
  generalize baseDelay64 m.m_responseSpeed = B at hB0 hB1 hBfix ⊢
  obtain ⟨hv0, hv1⟩ : 0 ≤ fmul B m.m_randomizationFactor ∧ fmul B m.m_randomizationFactor ≤ B :=
    rnd64_between c0 hBfix (mul_nonneg hB0 hf0) (by nlinarith)
  have hvfix : rnd64 (fmul B m.m_randomizationFactor) = fmul B m.m_randomizationFactor :=
    rnd64_idem _
  have hvneg : rnd64 (-fmul B m.m_randomizationFactor) = -fmul B m.m_randomizationFactor :=
    rnd64_neg_idem _
  generalize fmul B m.m_randomizationFactor = v at hv0 hv1 hvfix hvneg ⊢
  obtain ⟨hd0, hd1⟩ : 0 ≤ fmul (m.m_rng 0) 2 ∧ fmul (m.m_rng 0) 2 ≤ 2 :=
    rnd64_between c0 c2 (by positivity) (by linarith)
  obtain ⟨hc0, hc1⟩ : -1 ≤ fsub (fmul (m.m_rng 0) 2) 1 ∧ fsub (fmul (m.m_rng 0) 2) 1 ≤ 1 :=
    rnd64_between cm1 c1 (by linarith) (by linarith)
  generalize fsub (fmul (m.m_rng 0) 2) 1 = c at hc0 hc1 ⊢
  obtain ⟨hx0, hx1⟩ : -v ≤ fmul v c ∧ fmul v c ≤ v :=
    rnd64_between hvneg hvfix (by nlinarith) (by nlinarith)
  generalize fmul v c = variation at hx0 hx1 ⊢
  have hlow : fsub B v ≤ fadd B variation := rnd64_mono (by linarith)
  have hup : fadd B variation ≤ fadd B v := rnd64_mono (by linarith)
  have hlow0 : 0 ≤ fsub B v := by
    have := rnd64_mono (show (0 : ℚ) ≤ B - v by linarith)
    rwa [c0] at this
  have hup2 : fadd B v ≤ 2000 := by
    have := rnd64_mono (show B + v ≤ 2000 by linarith)
    rwa [c2000] at this
  have hmax : max 0 (fadd B variation) = fadd B variation :=
    max_eq_right (le_trans hlow0 hlow)
  rw [hmax]
  exact ⟨rfl, hlow, hup, le_trans hlow0 hlow, le_trans hup hup2⟩

/-- With the factor 0 the delay is the base delay. -/
theorem getRandomDelay64_factor_zero (m : MouseController ℚ)
    (hs0 : 0 ≤ m.m_responseSpeed) (hs1 : m.m_responseSpeed ≤ 100)
    (hf : m.m_randomizationFactor = 0) :
    (getRandomDelay64 m).1 = baseDelay64 m.m_responseSpeed := by
  have hdef : (getRandomDelay64 m).1
      = max 0 (fadd (baseDelay64 m.m_responseSpeed)
          (fmul (fmul (baseDelay64 m.m_responseSpeed) m.m_randomizationFactor)
                (fsub (fmul (m.m_rng 0) 2) 1))) := rfl
  obtain ⟨hB0, _, hBfix, _⟩ := baseDelay64_bounds m.m_responseSpeed hs0 hs1
  rw [hdef, hf]
  have z1 : fmul (baseDelay64 m.m_responseSpeed) 0 = 0 := by
    unfold fmul
    rw [mul_zero, rnd64_zero]
  have z2 : fmul 0 (fsub (fmul (m.m_rng 0) 2) 1) = 0 := by
    unfold fmul
    rw [zero_mul, rnd64_zero]
  have z3 : fadd (baseDelay64 m.m_responseSpeed) 0 = baseDelay64 m.m_responseSpeed := by
    unfold fadd
    rw [add_zero, hBfix]
  rw [z1, z2, z3]
  exact max_eq_right hB0

/-- The base delay at speed 80 in binary64: 199.99999999999994. -/
theorem baseDelay64_eighty : baseDelay64 80 = 3518437208883199 / 17592186044416 := by
  have e1 : rnd64 (4 / 5) = (3602879701896397 / 4503599627370496) := by
    rw [rnd64_eval (4 / 5) (-1) (7205759403792794) (by norm_num) (by norm_num) (by norm_num)
      (by norm_num) (by norm_num)]
    norm_num
  have e2 : rnd64 (900719925474099 / 4503599627370496) = (900719925474099 / 4503599627370496) := by
    rw [rnd64_eval (900719925474099 / 4503599627370496) (-3) (7205759403792792) (by norm_num) (by norm_num) (by norm_num)
      (by norm_num) (by norm_num)]
    norm_num
  have e3 : rnd64 (112589990684262375 / 562949953421312) = (3518437208883199 / 17592186044416) := by
    rw [rnd64_eval (112589990684262375 / 562949953421312) (7) (7036874417766398) (by norm_num) (by norm_num) (by norm_num)
      (by norm_num) (by norm_num)]
    norm_num
  unfold baseDelay64 fmul fsub fdiv
  have a1 : ((80 : Int) : ℚ) / 100 = 4 / 5 := by norm_num
  rw [a1, e1]
  have a2 : (1 : ℚ) - 3602879701896397 / 4503599627370496 = (900719925474099 / 4503599627370496) := by norm_num
  rw [a2, e2]
  have a3 : (1000 : ℚ) * (900719925474099 / 4503599627370496) = (112589990684262375 / 562949953421312) := by norm_num
  rw [a3, e3]


/-- The literal 0.3 as a double lies between 0 and 1. -/
theorem rnd64_three_tenths : 0 ≤ rnd64 (3 / 10) ∧ rnd64 (3 / 10) ≤ 1 :=
  rnd64_between rnd64_zero rnd64_one (by norm_num) (by norm_num)

/-- The loop of `addMicroMovements64` keeps the length of the path. -/
theorem addMicroMovementsLoop64_length (n i : Nat) (path : List (BezierPoint ℚ)) (g : Rng ℚ) :
    (addMicroMovementsLoop64 n i path g).1.length = path.length := by
  induction n generalizing i path g with
  | zero => rfl
  | succ n ih =>
    unfold addMicroMovementsLoop64
    simp only []
    split_ifs
    · cases hp : path[i]? with
      | none => simp only [hp]; exact ih _ _ _
      | some p =>
        simp only [hp]
        rw [ih]
        exact List.length_set _ _ _
    · exact ih _ _ _

/-- `addMicroMovements64` keeps the length of the path and changes the generator
only; the path it returns depends on the humanization flag and the generator only. -/
theorem addMicroMovements64_facts (m : MouseController ℚ) (path : List (BezierPoint ℚ)) :
    (addMicroMovements64 m path).1.length = path.length
    ∧ (addMicroMovements64 m path).2 = { m with m_rng := (addMicroMovements64 m path).2.m_rng }
    ∧ (∀ mb : MouseController ℚ, mb.m_humanizeEnabled = m.m_humanizeEnabled → mb.m_rng = m.m_rng →
        (addMicroMovements64 mb path).1 = (addMicroMovements64 m path).1
        ∧ (addMicroMovements64 mb path).2.m_rng = (addMicroMovements64 m path).2.m_rng) := by
  refine ⟨?_, ?_, ?_⟩
  · unfold addMicroMovements64
    split_ifs
    · rfl
    · exact addMicroMovementsLoop64_length _ _ _ _
  · unfold addMicroMovements64
    split_ifs <;> rfl
  · intro mb h1 h2
    unfold addMicroMovements64
    rw [h1, h2]
    split_ifs
    · exact ⟨rfl, h2⟩
    · exact ⟨rfl, rfl⟩

/-- `generateBezierPath64` returns a path of `steps + 1` points for a step count
other than 0 and below `INT_MAX`, and no path for the step count `INT_MAX`. -/
theorem generateBezierPath64_some (sqrt : ℚ → ℚ) (g : Rng ℚ) (start endP : QPoint) (steps : Int) :
    (steps ≠ 0 → steps < INT_MAX →
      ∃ path g1, generateBezierPath64 sqrt g start endP steps = some (path, g1)
        ∧ path.length = (steps + 1).toNat)
    ∧ (INT_MAX ≤ steps → generateBezierPath64 sqrt g start endP steps = none) := by
  constructor
  · intro h0 h1
    unfold generateBezierPath64
    simp only []
    rw [if_neg (by omega)]
    exact ⟨_, _, rfl, by simp⟩
  · intro h
    unfold generateBezierPath64
    simp only []
    rw [if_pos (Or.inr h)]

/-- The result of `moveSmoothly64` where the division and the path are defined. -/
theorem moveSmoothly64_eq (sqrt : ℚ → ℚ) (m : MouseController ℚ) (target : QPoint)
    (durationMs : Int) (path : List (BezierPoint ℚ)) (g : Rng ℚ)
    (hint : m.m_timerInterval ≠ 0)
    (hmin : ¬ (durationMs = INT_MIN ∧ m.m_timerInterval = -1))
    (hg : generateBezierPath64 sqrt m.m_rng m.cursor target
        (max 10 (Int.tdiv durationMs m.m_timerInterval)) = some (path, g)) :
    moveSmoothly64 sqrt m target durationMs
      = some ({ m with
                  m_rng := if m.m_humanizeEnabled = true then
                      (addMicroMovements64 { m with m_rng := g } path).2.m_rng else g
                  m_currentPath := if m.m_humanizeEnabled = true then
                      (addMicroMovements64 { m with m_rng := g } path).1 else path
                  m_pathIndex := 0
                  m_targetPosition := target
                  m_isMoving := true
                  m_timerActive := true },
              [MouseSignal.movementStarted]) := by
  by_cases hm : m.m_isMoving = true <;> by_cases hh : m.m_humanizeEnabled = true
  · unfold moveSmoothly64
    rw [if_pos hm]
    dsimp only [MouseController.getCurrentPosition]
    rw [if_neg (by tauto), hg]
    dsimp only
    rw [if_pos hh, if_pos hh, if_pos hh]
    obtain ⟨_, h2, h3⟩ := addMicroMovements64_facts { m with m_rng := g } path
    obtain ⟨_, h2b, _⟩ := addMicroMovements64_facts { m with m_timerActive := false, m_rng := g } path
    obtain ⟨h4, h5⟩ := h3 { m with m_timerActive := false, m_rng := g } rfl rfl
    rw [h2b, h4, h5]
  · unfold moveSmoothly64
    rw [if_pos hm]
    dsimp only [MouseController.getCurrentPosition]
    rw [if_neg (by tauto), hg]
    dsimp only
    rw [if_neg hh, if_neg hh, if_neg hh]
  · unfold moveSmoothly64
    rw [if_neg hm]
    dsimp only [MouseController.getCurrentPosition]
    rw [if_neg (by tauto), hg]
    dsimp only
    rw [if_pos hh, if_pos hh, if_pos hh]
    obtain ⟨_, h2, _⟩ := addMicroMovements64_facts { m with m_rng := g } path
    rw [h2]
  · unfold moveSmoothly64
    rw [if_neg hm]
    dsimp only [MouseController.getCurrentPosition]
    rw [if_neg (by tauto), hg]
    dsimp only
    rw [if_neg hh, if_neg hh, if_neg hh]

/-- A call of `moveSmoothly64` has no result exactly where the division or the
path is not defined. -/
theorem moveSmoothly64_none (sqrt : ℚ → ℚ) (m : MouseController ℚ) (target : QPoint)
    (durationMs : Int) :
    ((m.m_timerInterval = 0 ∨ (durationMs = INT_MIN ∧ m.m_timerInterval = -1)) →
      moveSmoothly64 sqrt m target durationMs = none)
    ∧ (generateBezierPath64 sqrt m.m_rng m.cursor target
          (max 10 (Int.tdiv durationMs m.m_timerInterval)) = none →
      moveSmoothly64 sqrt m target durationMs = none) := by
  constructor
  · intro h
    by_cases hm : m.m_isMoving = true
    · unfold moveSmoothly64
      rw [if_pos hm]
      dsimp only
      rw [if_pos h]
    · unfold moveSmoothly64
      rw [if_neg hm]
      dsimp only
      rw [if_pos h]
  · intro h
    by_cases hu : m.m_timerInterval = 0 ∨ (durationMs = INT_MIN ∧ m.m_timerInterval = -1)
    · by_cases hm : m.m_isMoving = true
      · unfold moveSmoothly64
        rw [if_pos hm]
        dsimp only
        rw [if_pos hu]
      · unfold moveSmoothly64
        rw [if_neg hm]
        dsimp only
        rw [if_pos hu]
    · by_cases hm : m.m_isMoving = true
      · unfold moveSmoothly64
        rw [if_pos hm]
        dsimp only [MouseController.getCurrentPosition]
        rw [if_neg hu, h]
      · unfold moveSmoothly64
        rw [if_neg hm]
        dsimp only [MouseController.getCurrentPosition]
        rw [if_neg hu, h]

/-- The members that a call of `moveSmoothly64` sets, and those it keeps. -/
theorem moveSmoothly64_fields (sqrt : ℚ → ℚ) (m : MouseController ℚ) (target : QPoint)
    (durationMs : Int) (r : MouseController ℚ × List MouseSignal)
    (h : moveSmoothly64 sqrt m target durationMs = some r) :
    r.1.m_pathIndex = 0
    ∧ r.1.m_timerInterval = m.m_timerInterval
    ∧ r.1.m_isMoving = true
    ∧ r.1.m_timerActive = true
    ∧ r.1.m_targetPosition = target
    ∧ r.1.cursor = m.cursor
    ∧ r.1.m_aimAssistStrength = m.m_aimAssistStrength
    ∧ r.1.m_responseSpeed = m.m_responseSpeed
    ∧ r.1.m_randomizationFactor = m.m_randomizationFactor
    ∧ r.1.m_humanizeEnabled = m.m_humanizeEnabled
    ∧ r.2 = [MouseSignal.movementStarted] := by
  by_cases hu : m.m_timerInterval = 0 ∨ (durationMs = INT_MIN ∧ m.m_timerInterval = -1)
  · rw [(moveSmoothly64_none sqrt m target durationMs).1 hu] at h
    exact absurd h (by simp)
  · cases hg : generateBezierPath64 sqrt m.m_rng m.cursor target
        (max 10 (Int.tdiv durationMs m.m_timerInterval)) with
    | none =>
      rw [(moveSmoothly64_none sqrt m target durationMs).2 hg] at h
      exact absurd h (by simp)
    | some pg =>
      obtain ⟨path, g⟩ := pg
      rw [moveSmoothly64_eq sqrt m target durationMs path g (by tauto) (by tauto) hg] at h
      injection h with h
      subst h
      exact ⟨rfl, rfl, rfl, rfl, rfl, rfl, rfl, rfl, rfl, rfl, rfl⟩

/-- The result of `moveSmoothly64` for the timer interval 1 and a duration below
`INT_MAX`: the path has `max(10, durationMs) + 1` points. -/
theorem moveSmoothly64_defined (sqrt : ℚ → ℚ) (m : MouseController ℚ) (target : QPoint)
    (durationMs : Int) (hint : m.m_timerInterval = 1) (hd : durationMs < INT_MAX) :
    ∃ path g, generateBezierPath64 sqrt m.m_rng m.cursor target (max 10 durationMs)
        = some (path, g)
      ∧ path.length = (max 10 durationMs).toNat + 1
      ∧ moveSmoothly64 sqrt m target durationMs
        = some ({ m with
                  m_rng := if m.m_humanizeEnabled = true then
                      (addMicroMovements64 { m with m_rng := g } path).2.m_rng else g
                  m_currentPath := if m.m_humanizeEnabled = true then
                      (addMicroMovements64 { m with m_rng := g } path).1 else path
                  m_pathIndex := 0
                  m_targetPosition := target
                  m_isMoving := true
                  m_timerActive := true },
              [MouseSignal.movementStarted]) := by
  have hmax : max 10 durationMs < INT_MAX := by
    unfold INT_MAX at hd ⊢
    omega
  have h10 : (10 : Int) ≤ max 10 durationMs := le_max_left _ _
  obtain ⟨path, g, hg, hlen⟩ :=
    (generateBezierPath64_some sqrt m.m_rng m.cursor target (max 10 durationMs)).1
      (by omega) hmax
  have e : Int.tdiv durationMs m.m_timerInterval = durationMs := by
    rw [hint]
    exact Int.tdiv_one durationMs
  refine ⟨path, g, hg, ?_, ?_⟩
  · rw [hlen]
    omega
  · exact moveSmoothly64_eq sqrt m target durationMs path g (by rw [hint]; decide)
      (by rw [hint]; intro h; exact absurd h.2 (by decide)) (by rw [e]; exact hg)

/-- The object after `assistDelta64` differs from the one before in the generator
only, and its generator is that of the object, two draws further on when
humanization is enabled. -/
theorem assistDelta64_state (m : MouseController ℚ) (targetPos : QPoint) :
    (assistDelta64 m targetPos).2
      = { m with m_rng := fun n => m.m_rng (n + (if m.m_humanizeEnabled = true then 2 else 0)) } := by
  by_cases hh : m.m_humanizeEnabled = true
  · unfold assistDelta64 addRandomOffset64
    rw [if_pos hh, if_pos hh]
    dsimp only
    rw [if_neg (by simp [hh])]
    rfl
  · unfold assistDelta64
    rw [if_neg hh, if_neg hh]
    rfl

/-- The delta of `assistDelta64`: the truncated scaled components of the vector
to the target, plus the offset when humanization is enabled. -/
theorem assistDelta64_delta (m : MouseController ℚ) (targetPos : QPoint) :
    (m.m_humanizeEnabled = false →
      (assistDelta64 m targetPos).1
        = ⟨truncToInt (fmul ((targetPos.x - m.getCurrentPosition.x : Int) : ℚ)
              (fdiv (m.m_aimAssistStrength : ℚ) 100)),
           truncToInt (fmul ((targetPos.y - m.getCurrentPosition.y : Int) : ℚ)
              (fdiv (m.m_aimAssistStrength : ℚ) 100))⟩)
    ∧ (m.m_humanizeEnabled = true →
      (assistDelta64 m targetPos).1
        = ⟨truncToInt (fmul ((targetPos.x - m.getCurrentPosition.x : Int) : ℚ)
              (fdiv (m.m_aimAssistStrength : ℚ) 100)) + (addRandomOffset64 m ⟨0, 0⟩ 2).1.x,
           truncToInt (fmul ((targetPos.y - m.getCurrentPosition.y : Int) : ℚ)
              (fdiv (m.m_aimAssistStrength : ℚ) 100)) + (addRandomOffset64 m ⟨0, 0⟩ 2).1.y⟩) := by
  constructor
  · intro hh
    unfold assistDelta64
    rw [if_neg (by simp [hh])]
  · intro hh
    unfold assistDelta64
    rw [if_pos hh]

/-- With a strength other than 0, `applyAimAssist64` is the `moveSmoothly64` or
the `moveRelative` that the derived duration selects. -/
theorem applyAimAssist64_branches (sqrt : ℚ → ℚ) (m : MouseController ℚ) (targetPos : QPoint)
    (hs : m.m_aimAssistStrength ≠ 0) :
    applyAimAssist64 sqrt m targetPos
      = if truncToInt (max 10 (fmul (getRandomDelay64 (assistDelta64 m targetPos).2).1 (1 / 2)))
            > 20 then
          moveSmoothly64 sqrt (getRandomDelay64 (assistDelta64 m targetPos).2).2
            ⟨m.cursor.x + (assistDelta64 m targetPos).1.x,
             m.cursor.y + (assistDelta64 m targetPos).1.y⟩
            (truncToInt (max 10 (fmul (getRandomDelay64 (assistDelta64 m targetPos).2).1 (1 / 2))))
        else
          some (moveRelative (getRandomDelay64 (assistDelta64 m targetPos).2).2
            (assistDelta64 m targetPos).1.x (assistDelta64 m targetPos).1.y) := by
  unfold applyAimAssist64
  rw [if_neg hs]
  rfl

/-- The object that `applyAimAssist64` passes on differs from the one it is
called on in the generator only. -/
theorem assist64_draws_state (m : MouseController ℚ) (targetPos : QPoint) :
    (getRandomDelay64 (assistDelta64 m targetPos).2).2
      = { m with m_rng := (getRandomDelay64 (assistDelta64 m targetPos).2).2.m_rng } := by
  rw [assistDelta64_state]
  rfl

/-- Truncation of a number between two integers stays between them. -/
theorem truncToInt_between (x : ℚ) (a b : Int) (h1 : (a : ℚ) ≤ x) (h2 : x ≤ (b : ℚ)) :
    a ≤ truncToInt x ∧ truncToInt x ≤ b := by
  unfold truncToInt
  split_ifs with h
  · constructor
    · exact Int.le_floor.mpr h1
    · have : ((⌊x⌋ : Int) : ℚ) ≤ (b : ℚ) := le_trans (Int.floor_le x) h2
      exact_mod_cast this
  · constructor
    · have : (a : ℚ) ≤ ((⌈x⌉ : Int) : ℚ) := le_trans h1 (Int.le_ceil x)
      exact_mod_cast this
    · exact Int.ceil_le.mpr h2

/-- The scaling factor `m_aimAssistStrength / 100.0` lies between 0 and 1 for a
strength in 0..100, and is 1 for the strength 100. -/
theorem strength64_bounds (strength : Int) (h0 : 0 ≤ strength) (h1 : strength ≤ 100) :
    0 ≤ fdiv (strength : ℚ) 100 ∧ fdiv (strength : ℚ) 100 ≤ 1
    ∧ (strength = 100 → fdiv (strength : ℚ) 100 = 1) := by
  have hq0 : (0 : ℚ) ≤ (strength : ℚ) := by exact_mod_cast h0
  have hq1 : (strength : ℚ) ≤ 100 := by exact_mod_cast h1
  obtain ⟨a, b⟩ : 0 ≤ fdiv (strength : ℚ) 100 ∧ fdiv (strength : ℚ) 100 ≤ 1 :=
    rnd64_between rnd64_zero rnd64_one (by positivity)
      (by rw [div_le_one (by norm_num)]; exact hq1)
  refine ⟨a, b, ?_⟩
  intro h
  subst h
  unfold fdiv
  have a1 : ((100 : Int) : ℚ) / 100 = 1 := by norm_num
  rw [a1, rnd64_one]

/-- The truncated product of an `int` with a factor between 0 and 1, in
binary64: it lies between 0 and the `int`, and is the `int` for the factor 1. -/
theorem truncToInt_scaled64 (d : Int) (k : ℚ) (hd : INT_MIN ≤ d ∧ d ≤ INT_MAX)
    (hk0 : 0 ≤ k) (hk1 : k ≤ 1) :
    (0 ≤ d → 0 ≤ truncToInt (fmul (d : ℚ) k) ∧ truncToInt (fmul (d : ℚ) k) ≤ d)
    ∧ (d ≤ 0 → d ≤ truncToInt (fmul (d : ℚ) k) ∧ truncToInt (fmul (d : ℚ) k) ≤ 0)
    ∧ (k = 1 → truncToInt (fmul (d : ℚ) k) = d) := by
  have hfix : rnd64 (d : ℚ) = d := by
    apply rnd64_intCast
    unfold INT_MIN INT_MAX at hd
    rw [abs_le]
    constructor <;> omega
  refine ⟨?_, ?_, ?_⟩
  · intro h
    have hdc : (0 : ℚ) ≤ (d : ℚ) := by exact_mod_cast h
    obtain ⟨a, b⟩ : 0 ≤ fmul (d : ℚ) k ∧ fmul (d : ℚ) k ≤ (d : ℚ) :=
      rnd64_between rnd64_zero hfix (mul_nonneg hdc hk0) (by nlinarith)
    exact truncToInt_between _ 0 d (by simpa using a) b
  · intro h
    have hdc : (d : ℚ) ≤ 0 := by exact_mod_cast h
    obtain ⟨a, b⟩ : (d : ℚ) ≤ fmul (d : ℚ) k ∧ fmul (d : ℚ) k ≤ 0 :=
      rnd64_between hfix rnd64_zero (by nlinarith) (mul_nonpos_of_nonpos_of_nonneg hdc hk0)
    exact truncToInt_between _ d 0 a (by simpa using b)
  · intro h
    subst h
    unfold fmul
    rw [mul_one, hfix]
    exact truncToInt_intCast d

/-- A tick of the movement timer keeps the timer interval. -/
theorem onMovementTick_interval {α : Type} [LinearOrderedField α] [FloorRing α]
    (m : MouseController α) (r : MouseController α × List MouseSignal)
    (h : onMovementTick m = some r) : r.1.m_timerInterval = m.m_timerInterval := by
  unfold onMovementTick at h
  split_ifs at h
  · injection h with h
    subst h
    rfl
  · cases hp : m.m_currentPath[m.m_pathIndex.toNat]? with
    | none => rw [hp] at h; exact absurd h (by simp)
    | some p =>
      rw [hp] at h
      injection h with h
      subst h
      rfl

/-- A call of `applyAimAssist64` keeps the timer interval. -/
theorem applyAimAssist64_interval (sqrt : ℚ → ℚ) (m : MouseController ℚ) (targetPos : QPoint)
    (r : MouseController ℚ × List MouseSignal) (h : applyAimAssist64 sqrt m targetPos = some r) :
    r.1.m_timerInterval = m.m_timerInterval := by
  by_cases hs : m.m_aimAssistStrength = 0
  · unfold applyAimAssist64 at h
    rw [if_pos hs] at h
    injection h with h
    subst h
    rfl
  · rw [applyAimAssist64_branches sqrt m targetPos hs] at h
    have hst := assist64_draws_state m targetPos
    split_ifs at h
    · have := (moveSmoothly64_fields sqrt _ _ _ r h).2.1
      rw [this, hst]
    · injection h with h
      subst h
      rw [hst]
      rfl

/-- Every call keeps the timer interval. -/
theorem apply64_keeps_interval (sqrt : ℚ → ℚ) (m m1 : MouseController ℚ) (c : MouseCall ℚ)
    (h : MouseCall.apply64 sqrt m c = some m1) : m1.m_timerInterval = m.m_timerInterval := by
  cases c with
  | setter s =>
    simp only [MouseCall.apply64, Option.some.injEq] at h
    subst h
    cases s <;> rfl
  | moveToTarget target =>
    simp only [MouseCall.apply64, Option.some.injEq] at h
    subst h
    rfl
  | moveSmoothly target durationMs =>
    simp only [MouseCall.apply64, Option.map_eq_some'] at h
    obtain ⟨r, hr, rfl⟩ := h
    exact (moveSmoothly64_fields sqrt m target durationMs r hr).2.1
  | moveRelative dx dy =>
    simp only [MouseCall.apply64, Option.some.injEq] at h
    subst h
    rfl
  | applyAimAssist targetPos =>
    simp only [MouseCall.apply64, Option.map_eq_some'] at h
    obtain ⟨r, hr, rfl⟩ := h
    exact applyAimAssist64_interval sqrt m targetPos r hr
  | onMovementTick =>
    simp only [MouseCall.apply64, Option.map_eq_some'] at h
    obtain ⟨r, hr, rfl⟩ := h
    exact onMovementTick_interval m r hr

/-- The timer interval is 1 after the constructor and any sequence of calls. -/
theorem mouseAfterCallsFrom64_interval (sqrt : ℚ → ℚ) (calls : List (MouseCall ℚ))
    (m m1 : MouseController ℚ) (hm : m.m_timerInterval = 1)
    (h : mouseAfterCallsFrom64 sqrt m calls = some m1) : m1.m_timerInterval = 1 := by
  induction calls generalizing m with
  | nil =>
    simp only [mouseAfterCallsFrom64, Option.some.injEq] at h
    subst h
    exact hm
  | cons c rest ih =>
    unfold mouseAfterCallsFrom64 at h
    cases hc : MouseCall.apply64 sqrt m c with
    | none => rw [hc] at h; exact absurd h (by simp)
    | some m2 =>
      rw [hc] at h
      exact ih m2 ((apply64_keeps_interval sqrt m m2 c hc).trans hm) h

/-- Evaluation of a truncation that is not negative. -/
theorem truncToInt_eval (x : ℚ) (n : Int) (h1 : (n : ℚ) ≤ x) (h2 : x < (n : ℚ) + 1)
    (h0 : 0 ≤ n) : truncToInt x = n := by
  have hx : (0 : ℚ) ≤ x := le_trans (by exact_mod_cast h0) h1
  unfold truncToInt
  rw [if_pos hx]
  exact Int.floor_eq_iff.mpr ⟨h1, h2⟩

/-- The literal 0.3 as a double. -/
theorem rnd64_three_tenths_eq : rnd64 (3 / 10) = 5404319552844595 / 18014398509481984 := by
  have hK : rnd64 (3 / 10) = (5404319552844595 / 18014398509481984) := by
    rw [rnd64_eval (3 / 10) (-2) (5404319552844595) (by norm_num) (by norm_num) (by norm_num)
      (by norm_num) (by norm_num)]
    norm_num
  exact hK

/-- A product with the double 0 is 0. -/
theorem fmul_zero (a : ℚ) : fmul a 0 = 0 ∧ fmul 0 a = 0 := by
  unfold fmul
  rw [mul_zero, zero_mul, rnd64_zero]
  exact ⟨rfl, rfl⟩

/-- Adding the double 0 to a double leaves it. -/
theorem fadd_zero (a : ℚ) (h : rnd64 a = a) : fadd a 0 = a := by
  unfold fadd
  rw [add_zero, h]

/-- The draw 1/2 gives the factor 0: `0.5 * 2.0 - 1.0` is 0. -/
theorem half_draw_zero : fsub (fmul (1 / 2) 2) 1 = 0 := by
  unfold fmul fsub
  have a : (1 / 2 : ℚ) * 2 = 1 := by norm_num
  rw [a, rnd64_one, sub_self, rnd64_zero]

/-- The path that `moveSmoothly64` stores does not depend on the path and the
index stored before the call. -/
theorem moveSmoothly64_replaces (sqrt : ℚ → ℚ) (m : MouseController ℚ) (target : QPoint)
    (durationMs : Int) (hint : m.m_timerInterval = 1) (hd : durationMs < INT_MAX)
    (oldPath : List (BezierPoint ℚ)) (oldIndex : Int) :
    ∃ r r2, moveSmoothly64 sqrt m target durationMs = some r
      ∧ moveSmoothly64 sqrt { m with m_currentPath := oldPath, m_pathIndex := oldIndex }
          target durationMs = some r2
      ∧ r2.1.m_currentPath = r.1.m_currentPath
      ∧ r2.1.m_pathIndex = 0 := by
  obtain ⟨path, g, hg, _, hms⟩ := moveSmoothly64_defined sqrt m target durationMs hint hd
  obtain ⟨path2, g2, hg2, _, hms2⟩ := moveSmoothly64_defined sqrt
    { m with m_currentPath := oldPath, m_pathIndex := oldIndex } target durationMs hint hd
  have e : (path2, g2) = (path, g) := by
    have := hg2.symm.trans hg
    injection this
  obtain ⟨rfl, rfl⟩ := Prod.mk.inj e
  refine ⟨_, _, hms, hms2, ?_, rfl⟩
  dsimp only
  split_ifs
  · exact ((addMicroMovements64_facts { m with m_rng := g2 } path2).2.2
      { m with m_currentPath := oldPath, m_pathIndex := oldIndex, m_rng := g2 } rfl rfl).1
  · rfl

/-! ### Binary64 Bezier evaluation -/

/-- The error of a rounded product, from the errors of the factors, for a
rounding with relative error `e` and absolute error `h`. -/
theorem rnd64_mul_err (e h : ℚ) (hr : ∀ x, |rnd64 x - x| ≤ |x| * e + h) (he : 0 ≤ e)
    (a a0 b b0 da db A B : ℚ) (ha : |a - a0| ≤ da) (hb : |b - b0| ≤ db)
    (hA : |a| ≤ A) (hB0 : |b0| ≤ B) (hB : |b| ≤ B) :
    |rnd64 (a * b) - a0 * b0| ≤ da * B + A * db + A * B * e + h := by
  have hda : 0 ≤ da := le_trans (abs_nonneg _) ha
  have hdb : 0 ≤ db := le_trans (abs_nonneg _) hb
  have hA0 : 0 ≤ A := le_trans (abs_nonneg _) hA
  have hB00 : 0 ≤ B := le_trans (abs_nonneg _) hB0
  have h1 := hr (a * b)
  have h2 : |a * b| ≤ A * B := by
    rw [abs_mul]
    exact mul_le_mul hA hB (abs_nonneg _) hA0
  have h3 : |a * b - a0 * b0| ≤ da * B + A * db := by
    have e : a * b - a0 * b0 = (a - a0) * b0 + a * (b - b0) := by ring
    rw [e]
    refine le_trans (abs_add _ _) ?_
    rw [abs_mul, abs_mul]
    exact add_le_add (mul_le_mul ha hB0 (abs_nonneg _) hda) (mul_le_mul hA hb (abs_nonneg _) hA0)
  have h4 : |a * b| * e ≤ A * B * e := mul_le_mul_of_nonneg_right h2 he
  have h5 : |rnd64 (a * b) - a0 * b0| ≤ |rnd64 (a * b) - a * b| + |a * b - a0 * b0| := by
    have e : rnd64 (a * b) - a0 * b0 = (rnd64 (a * b) - a * b) + (a * b - a0 * b0) := by ring
    rw [e]
    exact abs_add _ _
  linarith

/-- The error of a rounded sum, from the errors of the terms. -/
theorem rnd64_add_err (e h : ℚ) (hr : ∀ x, |rnd64 x - x| ≤ |x| * e + h) (he : 0 ≤ e)
    (a a0 b b0 da db Y : ℚ) (ha : |a - a0| ≤ da) (hb : |b - b0| ≤ db)
    (hY : |a0 + b0| ≤ Y) :
    |rnd64 (a + b) - (a0 + b0)| ≤ da + db + (Y + da + db) * e + h := by
  have h1 := hr (a + b)
  have h3 : |a + b - (a0 + b0)| ≤ da + db := by
    have e : a + b - (a0 + b0) = (a - a0) + (b - b0) := by ring
    rw [e]
    exact le_trans (abs_add _ _) (add_le_add ha hb)
  have hX : |a + b| ≤ Y + da + db := by
    have e : a + b = (a0 + b0) + (a + b - (a0 + b0)) := by ring
    rw [e]
    refine le_trans (abs_add _ _) ?_
    linarith
  have h4 : |a + b| * e ≤ (Y + da + db) * e := mul_le_mul_of_nonneg_right hX he
  have h5 : |rnd64 (a + b) - (a0 + b0)| ≤ |rnd64 (a + b) - (a + b)| + |a + b - (a0 + b0)| := by
    have e : rnd64 (a + b) - (a0 + b0) = (rnd64 (a + b) - (a + b)) + (a + b - (a0 + b0)) := by
      ring
    rw [e]
    exact abs_add _ _
  linarith

/-- The rounding error of binary64 with the two error terms named. -/
theorem rnd64_err_named :
    ∃ e h : ℚ, (∀ x, |rnd64 x - x| ≤ |x| * e + h) ∧ 0 ≤ e ∧ 0 ≤ h ∧ 4 * h ≤ e ∧ 64 * e ≤ 1
      ∧ ∀ C : ℚ, C / 2 ^ (47 : Nat) = 64 * e * C := by
  refine ⟨1 / 2 ^ (53 : Nat), 1 / 2 ^ (1075 : Nat), ?_, by positivity, by positivity, ?_, ?_, ?_⟩
  · intro x
    have := rnd64_err x
    rw [div_eq_mul_one_div] at this
    exact this
  · norm_num
  · norm_num
  · intro C
    norm_num
    ring

/-- A rounded product of a value in 0..A and a value in 0..1 lies in 0..A, for a
binary64 number A. -/
theorem rnd64_mul_range (a b A : ℚ) (hA : rnd64 A = A) (ha : 0 ≤ a ∧ a ≤ A)
    (hb : 0 ≤ b ∧ b ≤ 1) : 0 ≤ rnd64 (a * b) ∧ rnd64 (a * b) ≤ A :=
  rnd64_between rnd64_zero hA (mul_nonneg ha.1 hb.1) (by nlinarith [ha.1, ha.2, hb.1, hb.2])

/-- A value in 0..B has magnitude at most B. -/
theorem abs_le_of_range (x B : ℚ) (hx : 0 ≤ x ∧ x ≤ B) : |x| ≤ B :=
  abs_le.mpr ⟨by linarith [hx.1, hx.2], hx.2⟩

/-- The partial sums of the Bernstein weights lie in 0..1, so that the partial
sums of the weighted value are bounded by its magnitude. -/
theorem bernstein_partial (t c C : ℚ) (ht0 : 0 ≤ t) (ht1 : t ≤ 1) (hC : |c| = C) :
    |(1 - t) * (1 - t) * (1 - t) * c + 3 * ((1 - t) * (1 - t)) * t * c| ≤ C
    ∧ |(1 - t) * (1 - t) * (1 - t) * c + 3 * ((1 - t) * (1 - t)) * t * c
        + 3 * (1 - t) * (t * t) * c| ≤ C
    ∧ (1 - t) * (1 - t) * (1 - t) * c + 3 * ((1 - t) * (1 - t)) * t * c
        + 3 * (1 - t) * (t * t) * c + t * t * t * c = c := by
  have hC0 : 0 ≤ C := hC ▸ abs_nonneg c
  refine ⟨?_, ?_, by ring⟩
  · have e : (1 - t) * (1 - t) * (1 - t) * c + 3 * ((1 - t) * (1 - t)) * t * c
        = ((1 - t) * (1 - t) * (1 + 2 * t)) * c := by ring
    rw [e, abs_mul, hC]
    have h1 : 0 ≤ (1 - t) * (1 - t) * (1 + 2 * t) := by
      have : 0 ≤ (1 - t) * (1 - t) := mul_self_nonneg _
      exact mul_nonneg this (by linarith)
    have h2 : (1 - t) * (1 - t) * (1 + 2 * t) ≤ 1 := by nlinarith [mul_nonneg ht0 ht0]
    rw [abs_of_nonneg h1]
    nlinarith
  · have e : (1 - t) * (1 - t) * (1 - t) * c + 3 * ((1 - t) * (1 - t)) * t * c
        + 3 * (1 - t) * (t * t) * c = (1 - t * t * t) * c := by ring
    rw [e, abs_mul, hC]
    have h1 : 0 ≤ 1 - t * t * t := by nlinarith [mul_nonneg ht0 ht0]
    have h2 : 1 - t * t * t ≤ 1 := by nlinarith [mul_nonneg ht0 (mul_nonneg ht0 ht0)]
    rw [abs_of_nonneg h1]
    nlinarith

/-- The rounding errors of the four Bernstein weights as `bezierPoint` computes
them in binary64, for a parameter `t` in 0..1: each weight lies in 0..3 and
differs from the exact weight by at most 15 unit errors. -/
theorem bernstein64_weights (e h : ℚ) (hr : ∀ x, |rnd64 x - x| ≤ |x| * e + h) (he0 : 0 ≤ e)
    (hh0 : 0 ≤ h) (t : ℚ) (ht0 : 0 ≤ t) (ht1 : t ≤ 1) :
    (|rnd64 (rnd64 (rnd64 (1 - t) * rnd64 (1 - t)) * rnd64 (1 - t))| ≤ 1
      ∧ |rnd64 (rnd64 (rnd64 (1 - t) * rnd64 (1 - t)) * rnd64 (1 - t))
          - (1 - t) * (1 - t) * (1 - t)| ≤ 5 * (e + h))
    ∧ (|rnd64 (rnd64 (3 * rnd64 (rnd64 (1 - t) * rnd64 (1 - t))) * t)| ≤ 3
      ∧ |rnd64 (rnd64 (3 * rnd64 (rnd64 (1 - t) * rnd64 (1 - t))) * t)
          - 3 * ((1 - t) * (1 - t)) * t| ≤ 15 * (e + h))
    ∧ (|rnd64 (rnd64 (3 * rnd64 (1 - t)) * rnd64 (t * t))| ≤ 3
      ∧ |rnd64 (rnd64 (3 * rnd64 (1 - t)) * rnd64 (t * t)) - 3 * (1 - t) * (t * t)|
          ≤ 12 * (e + h))
    ∧ (|rnd64 (rnd64 (t * t) * t)| ≤ 1
      ∧ |rnd64 (rnd64 (t * t) * t) - t * t * t| ≤ 2 * (e + h)) := by
  have c1 := rnd64_one
  have c3 : rnd64 3 = 3 := by simpa using rnd64_natLit 3 (by norm_num)
  have mulE := rnd64_mul_err e h hr he0
  have htt0 : |t - t| ≤ 0 := by simp
  have h33 : |(3 : ℚ) - 3| ≤ 0 := by simp
  have tr : 0 ≤ t ∧ t ≤ 1 := ⟨ht0, ht1⟩
  have hta : |t| ≤ 1 := abs_le_of_range t 1 tr
  have h3a : |(3 : ℚ)| ≤ 3 := by norm_num
  have Ur : 0 ≤ 1 - t ∧ 1 - t ≤ 1 := ⟨by linarith only [ht1], by linarith only [ht0]⟩
  have hUa : |1 - t| ≤ 1 := abs_le_of_range _ 1 Ur
  have three_r : (0 : ℚ) ≤ 3 ∧ (3 : ℚ) ≤ 3 := ⟨by norm_num, le_refl _⟩
  -- u = 1 - t
  obtain ⟨u, hu⟩ : ∃ u, rnd64 (1 - t) = u := ⟨_, rfl⟩
  rw [hu]
  have ur : 0 ≤ u ∧ u ≤ 1 := by
    rw [← hu]; exact rnd64_between rnd64_zero c1 Ur.1 Ur.2
  have ue : |u - (1 - t)| ≤ e + h := by
    have := hr (1 - t)
    rw [hu] at this
    have h2 : |1 - t| * e ≤ 1 * e := mul_le_mul_of_nonneg_right hUa he0
    linarith only [this, h2]
  have ua : |u| ≤ 1 := abs_le_of_range u 1 ur
  -- tt = t * t
  obtain ⟨tt, htt⟩ : ∃ tt, rnd64 (t * t) = tt := ⟨_, rfl⟩
  rw [htt]
  have ttr : 0 ≤ tt ∧ tt ≤ 1 := by
    rw [← htt]; exact rnd64_mul_range t t 1 c1 tr tr
  have tte : |tt - t * t| ≤ e + h := by
    have := mulE t t t t 0 0 1 1 htt0 htt0 hta hta hta
    rw [htt] at this
    linarith only [this]
  have tta : |tt| ≤ 1 := abs_le_of_range tt 1 ttr
  have tt0a : |t * t| ≤ 1 :=
    abs_le_of_range _ 1 ⟨mul_nonneg ht0 ht0, by nlinarith only [ht0, ht1]⟩
  -- uu = u * u
  obtain ⟨uu, huu⟩ : ∃ uu, rnd64 (u * u) = uu := ⟨_, rfl⟩
  rw [huu]
  have uur : 0 ≤ uu ∧ uu ≤ 1 := by
    rw [← huu]; exact rnd64_mul_range u u 1 c1 ur ur
  have uue : |uu - (1 - t) * (1 - t)| ≤ 3 * (e + h) := by
    have := mulE u (1 - t) u (1 - t) (e + h) (e + h) 1 1 ue ue ua hUa ua
    rw [huu] at this
    linarith only [this]
  have uua : |uu| ≤ 1 := abs_le_of_range uu 1 uur
  have uu0a : |(1 - t) * (1 - t)| ≤ 1 :=
    abs_le_of_range _ 1 ⟨mul_nonneg Ur.1 Ur.1, by nlinarith only [Ur.1, Ur.2]⟩
  -- uuu = uu * u
  obtain ⟨uuu, huuu⟩ : ∃ uuu, rnd64 (uu * u) = uuu := ⟨_, rfl⟩
  rw [huuu]
  have uuur : 0 ≤ uuu ∧ uuu ≤ 1 := by
    rw [← huuu]; exact rnd64_mul_range uu u 1 c1 uur ur
  have uuue : |uuu - (1 - t) * (1 - t) * (1 - t)| ≤ 5 * (e + h) := by
    have := mulE uu ((1 - t) * (1 - t)) u (1 - t) (3 * (e + h)) (e + h) 1 1 uue ue uua hUa ua
    rw [huuu] at this
    linarith only [this]
  -- ttt = tt * t
  obtain ⟨ttt, httt⟩ : ∃ ttt, rnd64 (tt * t) = ttt := ⟨_, rfl⟩
  rw [httt]
  have tttr : 0 ≤ ttt ∧ ttt ≤ 1 := by
    rw [← httt]; exact rnd64_mul_range tt t 1 c1 ttr tr
  have ttte : |ttt - t * t * t| ≤ 2 * (e + h) := by
    have := mulE tt (t * t) t t (e + h) 0 1 1 tte htt0 tta hta hta
    rw [httt] at this
    linarith only [this]
  -- a = 3 * uu
  obtain ⟨a, ha⟩ : ∃ a, rnd64 (3 * uu) = a := ⟨_, rfl⟩
  rw [ha]
  have ar : 0 ≤ a ∧ a ≤ 3 := by
    rw [← ha]; exact rnd64_mul_range 3 uu 3 c3 three_r uur
  have ae : |a - 3 * ((1 - t) * (1 - t))| ≤ 12 * (e + h) := by
    have := mulE 3 3 uu ((1 - t) * (1 - t)) 0 (3 * (e + h)) 3 1 h33 uue h3a uu0a uua
    rw [ha] at this
    linarith only [this, hh0]
  have aa : |a| ≤ 3 := abs_le_of_range a 3 ar
  -- b = a * t
  obtain ⟨b, hb⟩ : ∃ b, rnd64 (a * t) = b := ⟨_, rfl⟩
  rw [hb]
  have br : 0 ≤ b ∧ b ≤ 3 := by
    rw [← hb]; exact rnd64_mul_range a t 3 c3 ar tr
  have be : |b - 3 * ((1 - t) * (1 - t)) * t| ≤ 15 * (e + h) := by
    have := mulE a (3 * ((1 - t) * (1 - t))) t t (12 * (e + h)) 0 3 1 ae htt0 aa hta hta
    rw [hb] at this
    linarith only [this, hh0]
  -- a2 = 3 * u
  obtain ⟨a2, ha2⟩ : ∃ a2, rnd64 (3 * u) = a2 := ⟨_, rfl⟩
  rw [ha2]
  have a2r : 0 ≤ a2 ∧ a2 ≤ 3 := by
    rw [← ha2]; exact rnd64_mul_range 3 u 3 c3 three_r ur
  have a2e : |a2 - 3 * (1 - t)| ≤ 6 * (e + h) := by
    have := mulE 3 3 u (1 - t) 0 (e + h) 3 1 h33 ue h3a hUa ua
    rw [ha2] at this
    linarith only [this, hh0]
  have a2a : |a2| ≤ 3 := abs_le_of_range a2 3 a2r
  -- b2 = a2 * tt
  obtain ⟨b2, hb2⟩ : ∃ b2, rnd64 (a2 * tt) = b2 := ⟨_, rfl⟩
  rw [hb2]
  have b2r : 0 ≤ b2 ∧ b2 ≤ 3 := by
    rw [← hb2]; exact rnd64_mul_range a2 tt 3 c3 a2r ttr
  have b2e : |b2 - 3 * (1 - t) * (t * t)| ≤ 12 * (e + h) := by
    have := mulE a2 (3 * (1 - t)) tt (t * t) (6 * (e + h)) (e + h) 3 1 a2e tte a2a tt0a tta
    rw [hb2] at this
    linarith only [this, hh0]
  exact ⟨⟨abs_le_of_range uuu 1 uuur, uuue⟩, ⟨abs_le_of_range b 3 br, be⟩,
    ⟨abs_le_of_range b2 3 b2r, b2e⟩, ⟨abs_le_of_range ttt 1 tttr, ttte⟩⟩

/-- The rounding error of the Bernstein sum with four equal control values: in
binary64, for a parameter `t` in 0..1 and a value `c` of magnitude at least 1,
the sum differs from `c` by at most 2^-47 of its magnitude. -/
theorem bezierSum64_err (t c : ℚ) (ht0 : 0 ≤ t) (ht1 : t ≤ 1) (hc : 1 ≤ |c|) :
    |fadd (fadd (fadd (fmul (fmul (fmul (fsub 1 t) (fsub 1 t)) (fsub 1 t)) c)
                      (fmul (fmul (fmul 3 (fmul (fsub 1 t) (fsub 1 t))) t) c))
                (fmul (fmul (fmul 3 (fsub 1 t)) (fmul t t)) c))
          (fmul (fmul (fmul t t) t) c) - c| ≤ |c| / 2 ^ (47 : Nat) := by
  obtain ⟨e, h, hr, he0, hh0, hhe, he64, hfin⟩ := rnd64_err_named
  rw [hfin]
  have mulE := rnd64_mul_err e h hr he0
  have addE := rnd64_add_err e h hr he0
  obtain ⟨⟨w0a, w0e⟩, ⟨w1a, w1e⟩, ⟨w2a, w2e⟩, ⟨w3a, w3e⟩⟩ :=
    bernstein64_weights e h hr he0 hh0 t ht0 ht1
  obtain ⟨C, hC⟩ : ∃ C : ℚ, |c| = C := ⟨_, rfl⟩
  obtain ⟨p1, p2, p3⟩ := bernstein_partial t c C ht0 ht1 hC
  rw [hC] at hc ⊢
  have hcc : |c - c| ≤ 0 := by simp
  have hCa : |c| ≤ C := le_of_eq hC
  have hhC : h ≤ h * C := by nlinarith only [hh0, hc]
  have heC : 0 ≤ e * C := mul_nonneg he0 (by linarith only [hc])
  have hhC0 : 0 ≤ h * C := mul_nonneg hh0 (by linarith only [hc])
  have hsm : 48 * ((e + h) * C) ≤ C := by nlinarith only [hhe, he64, hc, he0, hh0]
  unfold fadd fsub fmul
  obtain ⟨w0, hw0⟩ : ∃ w0, rnd64 (rnd64 (rnd64 (1 - t) * rnd64 (1 - t)) * rnd64 (1 - t)) = w0 :=
    ⟨_, rfl⟩
  obtain ⟨w1, hw1⟩ :
      ∃ w1, rnd64 (rnd64 (3 * rnd64 (rnd64 (1 - t) * rnd64 (1 - t))) * t) = w1 := ⟨_, rfl⟩
  obtain ⟨w2, hw2⟩ : ∃ w2, rnd64 (rnd64 (3 * rnd64 (1 - t)) * rnd64 (t * t)) = w2 := ⟨_, rfl⟩
  obtain ⟨w3, hw3⟩ : ∃ w3, rnd64 (rnd64 (t * t) * t) = w3 := ⟨_, rfl⟩
  rw [hw0] at w0a w0e ⊢
  rw [hw1] at w1a w1e ⊢
  rw [hw2] at w2a w2e ⊢
  rw [hw3] at w3a w3e ⊢
  have T0e : |rnd64 (w0 * c) - (1 - t) * (1 - t) * (1 - t) * c| ≤ 6 * ((e + h) * C) := by
    have := mulE w0 ((1 - t) * (1 - t) * (1 - t)) c c (5 * (e + h)) 0 1 C w0e hcc w0a hCa hCa
    linarith only [this, hhC, hhC0, heC]
  have T1e : |rnd64 (w1 * c) - 3 * ((1 - t) * (1 - t)) * t * c| ≤ 18 * ((e + h) * C) := by
    have := mulE w1 (3 * ((1 - t) * (1 - t)) * t) c c (15 * (e + h)) 0 3 C w1e hcc w1a hCa hCa
    linarith only [this, hhC, hhC0, heC]
  have T2e : |rnd64 (w2 * c) - 3 * (1 - t) * (t * t) * c| ≤ 15 * ((e + h) * C) := by
    have := mulE w2 (3 * (1 - t) * (t * t)) c c (12 * (e + h)) 0 3 C w2e hcc w2a hCa hCa
    linarith only [this, hhC, hhC0, heC]
  have T3e : |rnd64 (w3 * c) - t * t * t * c| ≤ 3 * ((e + h) * C) := by
    have := mulE w3 (t * t * t) c c (2 * (e + h)) 0 1 C w3e hcc w3a hCa hCa
    linarith only [this, hhC, hhC0, heC]
  have S1e := addE _ _ _ _ _ _ C T0e T1e p1
  have S1e2 : |rnd64 (rnd64 (w0 * c) + rnd64 (w1 * c))
      - ((1 - t) * (1 - t) * (1 - t) * c + 3 * ((1 - t) * (1 - t)) * t * c)|
      ≤ 26 * ((e + h) * C) := by
    have k : (C + 6 * ((e + h) * C) + 18 * ((e + h) * C)) * e ≤ 2 * C * e :=
      mul_le_mul_of_nonneg_right (by linarith only [hsm, he0, hh0, hc, heC]) he0
    linarith only [S1e, k, hhC, hhC0, heC]
  have S2e := addE _ _ _ _ _ _ C S1e2 T2e p2
  have S2e2 : |rnd64 (rnd64 (rnd64 (w0 * c) + rnd64 (w1 * c)) + rnd64 (w2 * c))
      - ((1 - t) * (1 - t) * (1 - t) * c + 3 * ((1 - t) * (1 - t)) * t * c
        + 3 * (1 - t) * (t * t) * c)| ≤ 43 * ((e + h) * C) := by
    have k : (C + 26 * ((e + h) * C) + 15 * ((e + h) * C)) * e ≤ 2 * C * e :=
      mul_le_mul_of_nonneg_right (by linarith only [hsm, he0, hh0, hc, heC]) he0
    linarith only [S2e, k, hhC, hhC0, heC]
  have p3a : |(1 - t) * (1 - t) * (1 - t) * c + 3 * ((1 - t) * (1 - t)) * t * c
        + 3 * (1 - t) * (t * t) * c + t * t * t * c| ≤ C := by
    rw [p3]; exact hCa
  have S3e := addE _ _ _ _ _ _ C S2e2 T3e p3a
  rw [p3] at S3e
  have k : (C + 43 * ((e + h) * C) + 3 * ((e + h) * C)) * e ≤ 2 * C * e :=
    mul_le_mul_of_nonneg_right (by linarith only [hsm, he0, hh0, hc, heC]) he0
  nlinarith only [S3e, k, hhC, hhC0, hhe, heC, hh0, hc, mul_le_mul_of_nonneg_right hhe (show (0 : ℚ) ≤ C by linarith only [hc])]

/-- A product with the double 0 on the right is 0. -/
theorem fmul_zero_right (a : ℚ) : fmul a 0 = 0 := (fmul_zero a).1

/-- A product with the double 0 on the left is 0. -/
theorem fmul_zero_left (a : ℚ) : fmul 0 a = 0 := (fmul_zero a).2

/-- The difference of a double and itself is 0. -/
theorem fsub_self (a : ℚ) : fsub a a = 0 := by
  unfold fsub
  rw [sub_self, rnd64_zero]

/-- The Bernstein sum of `bezierPoint64` with four equal control values `c`, a
binary64 number: it is `c` at the parameters 0 and 1, and 0 for `c = 0`. -/
theorem bezierSum64_exact (t c : ℚ) (hc : rnd64 c = c) :
    ((t = 0 ∨ t = 1 ∨ c = 0) →
      fadd (fadd (fadd (fmul (fmul (fmul (fsub 1 t) (fsub 1 t)) (fsub 1 t)) c)
                        (fmul (fmul (fmul 3 (fmul (fsub 1 t) (fsub 1 t))) t) c))
                  (fmul (fmul (fmul 3 (fsub 1 t)) (fmul t t)) c))
            (fmul (fmul (fmul t t) t) c) = c) := by
  have c1 := rnd64_one
  have c3 : rnd64 3 = 3 := by simpa using rnd64_natLit 3 (by norm_num)
  have m1 : fmul 1 1 = 1 := by unfold fmul; rw [mul_one, c1]
  have m1c : fmul 1 c = c := by unfold fmul; rw [one_mul, hc]
  have m31 : fmul 3 1 = 3 := by unfold fmul; rw [mul_one, c3]
  have a00 : fadd 0 0 = 0 := by unfold fadd; rw [add_zero, rnd64_zero]
  have a0c : fadd 0 c = c := by unfold fadd; rw [zero_add, hc]
  have ac0 : fadd c 0 = c := fadd_zero c hc
  intro h
  rcases h with h | h | h
  · subst h
    have s10 : fsub 1 0 = 1 := by unfold fsub; rw [sub_zero, c1]
    simp only [s10, m1, m1c, m31, fmul_zero_right, fmul_zero_left, a00, a0c, ac0]
  · subst h
    simp only [fsub_self, m1, m1c, m31, fmul_zero_right, fmul_zero_left, a00, a0c, ac0]
  · subst h
    simp only [fmul_zero_right, fmul_zero_left, a00]

/-- The two coordinates of `bezierPoint64` with four equal control points are the
Bernstein sums of the coordinates of the point. -/
theorem bezierPoint64_same (t cx cy : ℚ) :
    bezierPoint64 t ⟨cx, cy⟩ ⟨cx, cy⟩ ⟨cx, cy⟩ ⟨cx, cy⟩
      = ⟨fadd (fadd (fadd (fmul (fmul (fmul (fsub 1 t) (fsub 1 t)) (fsub 1 t)) cx)
                          (fmul (fmul (fmul 3 (fmul (fsub 1 t) (fsub 1 t))) t) cx))
                    (fmul (fmul (fmul 3 (fsub 1 t)) (fmul t t)) cx))
              (fmul (fmul (fmul t t) t) cx),
         fadd (fadd (fadd (fmul (fmul (fmul (fsub 1 t) (fsub 1 t)) (fsub 1 t)) cy)
                          (fmul (fmul (fmul 3 (fmul (fsub 1 t) (fsub 1 t))) t) cy))
                    (fmul (fmul (fmul 3 (fsub 1 t)) (fmul t t)) cy))
              (fmul (fmul (fmul t t) t) cy)⟩ := rfl

/-- An `int` converts to `double` exactly. -/
theorem rnd64_int (z : Int) (hz : INT_MIN ≤ z ∧ z ≤ INT_MAX) : rnd64 (z : ℚ) = z := by
  apply rnd64_intCast
  unfold INT_MIN INT_MAX at hz
  rw [abs_le]
  constructor <;> omega

/-- With equal start and end points, a square root that maps 0 to 0 and `int`
coordinates, the four control points of `generateBezierPath64` are the point
itself, whatever the draws. -/
theorem generateBezierPath64_same (sqrt : ℚ → ℚ) (hsqrt : sqrt 0 = 0) (g : Rng ℚ) (p : QPoint)
    (steps : Int) (hsteps : 1 ≤ steps) (hmax : steps < INT_MAX)
    (hpx : INT_MIN ≤ p.x ∧ p.x ≤ INT_MAX) (hpy : INT_MIN ≤ p.y ∧ p.y ≤ INT_MAX) :
    generateBezierPath64 sqrt g p p steps
      = some ((List.range (steps + 1).toNat).map
                (fun (i : Nat) => bezierPoint64 (fdiv ((i : Int) : ℚ) (steps : ℚ))
                  ⟨(p.x : ℚ), (p.y : ℚ)⟩ ⟨(p.x : ℚ), (p.y : ℚ)⟩
                  ⟨(p.x : ℚ), (p.y : ℚ)⟩ ⟨(p.x : ℚ), (p.y : ℚ)⟩),
              fun n => g (n + 1 + 1 + 1 + 1)) := by
  have hx := rnd64_int p.x hpx
  have hy := rnd64_int p.y hpy
  have ax : fadd (p.x : ℚ) 0 = p.x := fadd_zero _ hx
  have ay : fadd (p.y : ℚ) 0 = p.y := fadd_zero _ hy
  have a00 : fadd 0 0 = 0 := by unfold fadd; rw [add_zero, rnd64_zero]
  unfold generateBezierPath64
  simp only [Rng.next]
  rw [if_neg (by omega)]
  simp only [fsub_self, fmul_zero_right, fmul_zero_left, a00, hsqrt, ax, ay]

/-- Truncation of a number less than 1 away from an integer `c`: it is `c` or the
integer next to `c` on the side of 0. -/
theorem truncToInt_near (x : ℚ) (c : Int) (h : |x - c| < 1) :
    (0 ≤ c → c - 1 ≤ truncToInt x ∧ truncToInt x ≤ c)
    ∧ (c ≤ 0 → c ≤ truncToInt x ∧ truncToInt x ≤ c + 1) := by
  obtain ⟨h1, h2⟩ := abs_lt.mp h
  have f1 := Int.floor_le x
  have f2 := Int.lt_floor_add_one x
  have g1 := Int.le_ceil x
  have g2 := Int.ceil_lt_add_one x
  have k1 : ((c - 1 : Int) : ℚ) < x := by push_cast; linarith
  have k2 : x < ((c + 1 : Int) : ℚ) := by push_cast; linarith
  have fl1 : c - 1 ≤ ⌊x⌋ := Int.le_floor.mpr (le_of_lt k1)
  have fl2 : ⌊x⌋ < c + 1 := Int.floor_lt.mpr k2
  have ce1 : c - 1 < ⌈x⌉ := Int.lt_ceil.mpr k1
  have ce2 : ⌈x⌉ ≤ c + 1 := Int.ceil_le.mpr (le_of_lt k2)
  unfold truncToInt
  split_ifs with hx
  · constructor
    · intro _
      omega
    · intro hc
      have hc0 : c = 0 := by
        have : (-1 : ℚ) < (c : ℚ) := by linarith
        have : -1 < c := by exact_mod_cast this
        omega
      subst hc0
      have : (0 : Int) ≤ ⌊x⌋ := Int.floor_nonneg.mpr hx
      omega
  · have hx' : x < 0 := not_le.mp hx
    constructor
    · intro hc
      have hc0 : c = 0 := by
        have : (c : ℚ) < 1 := by linarith
        have : c < 1 := by exact_mod_cast this
        omega
      subst hc0
      have : ⌈x⌉ ≤ 0 := Int.ceil_le.mpr (by simpa using le_of_lt hx')
      omega
    · intro _
      omega

/-- A coordinate of a point of the degenerate path: within 2^-47 of the magnitude
of the coordinate of the point, and truncated to that coordinate or the integer
next to it on the side of 0. -/
theorem bezierSum64_near (t : ℚ) (c : Int) (ht0 : 0 ≤ t) (ht1 : t ≤ 1)
    (hc : INT_MIN ≤ c ∧ c ≤ INT_MAX) :
    |fadd (fadd (fadd (fmul (fmul (fmul (fsub 1 t) (fsub 1 t)) (fsub 1 t)) (c : ℚ))
                      (fmul (fmul (fmul 3 (fmul (fsub 1 t) (fsub 1 t))) t) (c : ℚ)))
                (fmul (fmul (fmul 3 (fsub 1 t)) (fmul t t)) (c : ℚ)))
          (fmul (fmul (fmul t t) t) (c : ℚ)) - (c : ℚ)| ≤ |(c : ℚ)| / 2 ^ (47 : Nat)
    ∧ (0 ≤ c →
        c - 1 ≤ truncToInt
          (fadd (fadd (fadd (fmul (fmul (fmul (fsub 1 t) (fsub 1 t)) (fsub 1 t)) (c : ℚ))
                      (fmul (fmul (fmul 3 (fmul (fsub 1 t) (fsub 1 t))) t) (c : ℚ)))
                (fmul (fmul (fmul 3 (fsub 1 t)) (fmul t t)) (c : ℚ)))
            (fmul (fmul (fmul t t) t) (c : ℚ)))
        ∧ truncToInt
          (fadd (fadd (fadd (fmul (fmul (fmul (fsub 1 t) (fsub 1 t)) (fsub 1 t)) (c : ℚ))
                      (fmul (fmul (fmul 3 (fmul (fsub 1 t) (fsub 1 t))) t) (c : ℚ)))
                (fmul (fmul (fmul 3 (fsub 1 t)) (fmul t t)) (c : ℚ)))
            (fmul (fmul (fmul t t) t) (c : ℚ))) ≤ c)
    ∧ (c ≤ 0 →
        c ≤ truncToInt
          (fadd (fadd (fadd (fmul (fmul (fmul (fsub 1 t) (fsub 1 t)) (fsub 1 t)) (c : ℚ))
                      (fmul (fmul (fmul 3 (fmul (fsub 1 t) (fsub 1 t))) t) (c : ℚ)))
                (fmul (fmul (fmul 3 (fsub 1 t)) (fmul t t)) (c : ℚ)))
            (fmul (fmul (fmul t t) t) (c : ℚ)))
        ∧ truncToInt
          (fadd (fadd (fadd (fmul (fmul (fmul (fsub 1 t) (fsub 1 t)) (fsub 1 t)) (c : ℚ))
                      (fmul (fmul (fmul 3 (fmul (fsub 1 t) (fsub 1 t))) t) (c : ℚ)))
                (fmul (fmul (fmul 3 (fsub 1 t)) (fmul t t)) (c : ℚ)))
            (fmul (fmul (fmul t t) t) (c : ℚ))) ≤ c + 1) := by
  have herr : |fadd (fadd (fadd (fmul (fmul (fmul (fsub 1 t) (fsub 1 t)) (fsub 1 t)) (c : ℚ))
                      (fmul (fmul (fmul 3 (fmul (fsub 1 t) (fsub 1 t))) t) (c : ℚ)))
                (fmul (fmul (fmul 3 (fsub 1 t)) (fmul t t)) (c : ℚ)))
          (fmul (fmul (fmul t t) t) (c : ℚ)) - (c : ℚ)| ≤ |(c : ℚ)| / 2 ^ (47 : Nat) := by
    by_cases h0 : c = 0
    · subst h0
      rw [bezierSum64_exact t ((0 : Int) : ℚ) (by simp [rnd64_zero]) (Or.inr (Or.inr (by simp)))]
      simp
    · apply bezierSum64_err t (c : ℚ) ht0 ht1
      have : (1 : Int) ≤ |c| := Int.one_le_abs h0
      exact_mod_cast this
  have hlt : |(c : ℚ)| / 2 ^ (47 : Nat) < 1 := by
    have h1 : |(c : ℚ)| ≤ 2 ^ (31 : Nat) := by
      unfold INT_MIN INT_MAX at hc
      rw [abs_le]
      constructor
      · have : (-2147483648 : Int) ≤ c := hc.1
        have : ((-2147483648 : Int) : ℚ) ≤ (c : ℚ) := by exact_mod_cast this
        norm_num at this ⊢
        linarith
      · have : c ≤ (2147483647 : Int) := hc.2
        have : (c : ℚ) ≤ ((2147483647 : Int) : ℚ) := by exact_mod_cast this
        norm_num at this ⊢
        linarith
    rw [div_lt_one (by positivity)]
    refine lt_of_le_of_lt h1 ?_
    norm_num
  obtain ⟨n1, n2⟩ := truncToInt_near _ c (lt_of_le_of_lt herr hlt)
  exact ⟨herr, n1, n2⟩

/-- The parameter of the i-th point of a path of `steps` steps lies in 0..1; it
is 0 for the first point and 1 for the last. -/
theorem pathParam64 (i : Nat) (steps : Int) (hsteps : 1 ≤ steps) (hi : (i : Int) ≤ steps) :
    (0 ≤ fdiv ((i : Int) : ℚ) (steps : ℚ) ∧ fdiv ((i : Int) : ℚ) (steps : ℚ) ≤ 1)
    ∧ (i = 0 → fdiv ((i : Int) : ℚ) (steps : ℚ) = 0)
    ∧ ((i : Int) = steps → fdiv ((i : Int) : ℚ) (steps : ℚ) = 1) := by
  have hs : (0 : ℚ) < (steps : ℚ) := by
    have : (0 : Int) < steps := by omega
    exact_mod_cast this
  have hi0 : (0 : ℚ) ≤ ((i : Int) : ℚ) := by positivity
  have hi1 : ((i : Int) : ℚ) ≤ (steps : ℚ) := by exact_mod_cast hi
  refine ⟨rnd64_between rnd64_zero rnd64_one (div_nonneg hi0 (le_of_lt hs))
    (by rw [div_le_one hs]; exact hi1), ?_, ?_⟩
  · intro h
    subst h
    unfold fdiv
    simp [rnd64_zero]
  · intro h
    unfold fdiv
    rw [h, div_self (ne_of_gt hs), rnd64_one]


/-- The nearest integer of a tie: the even one of the two. -/
theorem roundHalfEven_tie (t : ℚ) (f : Int) (h : t = (f : ℚ) + 1 / 2) :
    roundHalfEven t = if f % 2 = 0 then f else f + 1 := by
  have hf : ⌊t⌋ = f := by
    rw [Int.floor_eq_iff, h]
    constructor <;> linarith
  unfold roundHalfEven
  rw [hf, h]
  have e : (f : ℚ) + 1 / 2 - (f : ℚ) = 1 / 2 := by ring
  rw [e, if_neg (lt_irrefl _), if_neg (lt_irrefl _)]

/-- Evaluation of `rnd64` at a positive number that lies half way between two
binary64 numbers. -/
theorem rnd64_eval_tie (x : ℚ) (e f n : Int) (he : -1022 ≤ e) (h1 : 2 ^ e ≤ x)
    (h2 : x < 2 ^ (e + 1)) (h3 : x / 2 ^ (e - 52) = (f : ℚ) + 1 / 2)
    (hn : n = if f % 2 = 0 then f else f + 1) : rnd64 x = (n : ℚ) * 2 ^ (e - 52) := by
  have hx : 0 < x := lt_of_lt_of_le (two_zpow_pos e) h1
  rw [rnd64_eq x e he (by rw [abs_of_pos hx]; exact h1) (by rw [abs_of_pos hx]; exact h2),
    roundHalfEven_tie _ f h3, ← hn]

/-- The point of parameter 0.3 on the degenerate curve at (7, 3) in binary64:
(6.999999999999998, 2.9999999999999996). -/
theorem bezierPoint64_seven_three :
    bezierPoint64 (5404319552844595 / 18014398509481984) ⟨7, 3⟩ ⟨7, 3⟩ ⟨7, 3⟩ ⟨7, 3⟩
      = ⟨(3940649673949183 / 562949953421312), (6755399441055743 / 2251799813685248)⟩ := by
  have n_u : rnd64 (1 - (5404319552844595 / 18014398509481984)) = (3152519739159347 / 4503599627370496) := by
    rw [rnd64_eval_tie (1 - (5404319552844595 / 18014398509481984)) (-1) (6305039478318694) (6305039478318694) (by norm_num) (by norm_num) (by norm_num)
      (by norm_num) (by norm_num)]
    norm_num
  have n_tt : rnd64 ((5404319552844595 / 18014398509481984) * (5404319552844595 / 18014398509481984)) = (3242591731706757 / 36028797018963968) := by
    rw [rnd64_eval ((5404319552844595 / 18014398509481984) * (5404319552844595 / 18014398509481984)) (-4) (6485183463413514) (by norm_num) (by norm_num) (by norm_num)
      (by norm_num) (by norm_num)]
    norm_num
  have n_uu : rnd64 ((3152519739159347 / 4503599627370496) * (3152519739159347 / 4503599627370496)) = (8827055269646171 / 18014398509481984) := by
    rw [rnd64_eval ((3152519739159347 / 4503599627370496) * (3152519739159347 / 4503599627370496)) (-2) (8827055269646171) (by norm_num) (by norm_num) (by norm_num)
      (by norm_num) (by norm_num)]
    norm_num
  have n_uuu : rnd64 ((8827055269646171 / 18014398509481984) * (3152519739159347 / 4503599627370496)) = (6178938688752319 / 18014398509481984) := by
    rw [rnd64_eval ((8827055269646171 / 18014398509481984) * (3152519739159347 / 4503599627370496)) (-2) (6178938688752319) (by norm_num) (by norm_num) (by norm_num)
      (by norm_num) (by norm_num)]
    norm_num
  have n_ttt : rnd64 ((3242591731706757 / 36028797018963968) * (5404319552844595 / 18014398509481984)) = (7782220156096217 / 288230376151711744) := by
    rw [rnd64_eval ((3242591731706757 / 36028797018963968) * (5404319552844595 / 18014398509481984)) (-6) (7782220156096217) (by norm_num) (by norm_num) (by norm_num)
      (by norm_num) (by norm_num)]
    norm_num
  have n_a : rnd64 (3 * (8827055269646171 / 18014398509481984)) = (1655072863058657 / 1125899906842624) := by
    rw [rnd64_eval (3 * (8827055269646171 / 18014398509481984)) (0) (6620291452234628) (by norm_num) (by norm_num) (by norm_num)
      (by norm_num) (by norm_num)]
    norm_num
  have n_b : rnd64 ((1655072863058657 / 1125899906842624) * (5404319552844595 / 18014398509481984)) = (7944349742681553 / 18014398509481984) := by
    rw [rnd64_eval ((1655072863058657 / 1125899906842624) * (5404319552844595 / 18014398509481984)) (-2) (7944349742681553) (by norm_num) (by norm_num) (by norm_num)
      (by norm_num) (by norm_num)]
    norm_num
  have n_a2 : rnd64 (3 * (3152519739159347 / 4503599627370496)) = (1182194902184755 / 562949953421312) := by
    rw [rnd64_eval_tie (3 * (3152519739159347 / 4503599627370496)) (1) (4728779608739020) (4728779608739020) (by norm_num) (by norm_num) (by norm_num)
      (by norm_num) (by norm_num)]
    norm_num
  have n_b2 : rnd64 ((1182194902184755 / 562949953421312) * (3242591731706757 / 36028797018963968)) = (6809442636584189 / 36028797018963968) := by
    rw [rnd64_eval ((1182194902184755 / 562949953421312) * (3242591731706757 / 36028797018963968)) (-3) (6809442636584189) (by norm_num) (by norm_num) (by norm_num)
      (by norm_num) (by norm_num)]
    norm_num
  have n_T0x : rnd64 ((6178938688752319 / 18014398509481984) * 7) = (5406571352658279 / 2251799813685248) := by
    rw [rnd64_eval ((6178938688752319 / 18014398509481984) * 7) (1) (5406571352658279) (by norm_num) (by norm_num) (by norm_num)
      (by norm_num) (by norm_num)]
    norm_num
  have n_T1x : rnd64 ((7944349742681553 / 18014398509481984) * 7) = (6951306024846359 / 2251799813685248) := by
    rw [rnd64_eval ((7944349742681553 / 18014398509481984) * 7) (1) (6951306024846359) (by norm_num) (by norm_num) (by norm_num)
      (by norm_num) (by norm_num)]
    norm_num
  have n_T2x : rnd64 ((6809442636584189 / 36028797018963968) * 7) = (5958262307011165 / 4503599627370496) := by
    rw [rnd64_eval ((6809442636584189 / 36028797018963968) * 7) (0) (5958262307011165) (by norm_num) (by norm_num) (by norm_num)
      (by norm_num) (by norm_num)]
    norm_num
  have n_T3x : rnd64 ((7782220156096217 / 288230376151711744) * 7) = (3404721318292095 / 18014398509481984) := by
    rw [rnd64_eval ((7782220156096217 / 288230376151711744) * 7) (-3) (6809442636584190) (by norm_num) (by norm_num) (by norm_num)
      (by norm_num) (by norm_num)]
    norm_num
  have n_S1x : rnd64 ((5406571352658279 / 2251799813685248) + (6951306024846359 / 2251799813685248)) = (6178938688752319 / 1125899906842624) := by
    rw [rnd64_eval ((5406571352658279 / 2251799813685248) + (6951306024846359 / 2251799813685248)) (2) (6178938688752319) (by norm_num) (by norm_num) (by norm_num)
      (by norm_num) (by norm_num)]
    norm_num
  have n_S2x : rnd64 ((6178938688752319 / 1125899906842624) + (5958262307011165 / 4503599627370496)) = (3834252132752555 / 562949953421312) := by
    rw [rnd64_eval ((6178938688752319 / 1125899906842624) + (5958262307011165 / 4503599627370496)) (2) (7668504265505110) (by norm_num) (by norm_num) (by norm_num)
      (by norm_num) (by norm_num)]
    norm_num
  have n_S3x : rnd64 ((3834252132752555 / 562949953421312) + (3404721318292095 / 18014398509481984)) = (3940649673949183 / 562949953421312) := by
    rw [rnd64_eval ((3834252132752555 / 562949953421312) + (3404721318292095 / 18014398509481984)) (2) (7881299347898366) (by norm_num) (by norm_num) (by norm_num)
      (by norm_num) (by norm_num)]
    norm_num
  have n_T0y : rnd64 ((6178938688752319 / 18014398509481984) * 3) = (4634204016564239 / 4503599627370496) := by
    rw [rnd64_eval ((6178938688752319 / 18014398509481984) * 3) (0) (4634204016564239) (by norm_num) (by norm_num) (by norm_num)
      (by norm_num) (by norm_num)]
    norm_num
  have n_T1y : rnd64 ((7944349742681553 / 18014398509481984) * 3) = (5958262307011165 / 4503599627370496) := by
    rw [rnd64_eval ((7944349742681553 / 18014398509481984) * 3) (0) (5958262307011165) (by norm_num) (by norm_num) (by norm_num)
      (by norm_num) (by norm_num)]
    norm_num
  have n_T2y : rnd64 ((6809442636584189 / 36028797018963968) * 3) = (2553540988719071 / 4503599627370496) := by
    rw [rnd64_eval ((6809442636584189 / 36028797018963968) * 3) (-1) (5107081977438142) (by norm_num) (by norm_num) (by norm_num)
      (by norm_num) (by norm_num)]
    norm_num
  have n_T3y : rnd64 ((7782220156096217 / 288230376151711744) * 3) = (5836665117072163 / 72057594037927936) := by
    rw [rnd64_eval ((7782220156096217 / 288230376151711744) * 3) (-4) (5836665117072163) (by norm_num) (by norm_num) (by norm_num)
      (by norm_num) (by norm_num)]
    norm_num
  have n_S1y : rnd64 ((4634204016564239 / 4503599627370496) + (5958262307011165 / 4503599627370496)) = (2648116580893851 / 1125899906842624) := by
    rw [rnd64_eval ((4634204016564239 / 4503599627370496) + (5958262307011165 / 4503599627370496)) (1) (5296233161787702) (by norm_num) (by norm_num) (by norm_num)
      (by norm_num) (by norm_num)]
    norm_num
  have n_S2y : rnd64 ((2648116580893851 / 1125899906842624) + (2553540988719071 / 4503599627370496)) = (3286501828073619 / 1125899906842624) := by
    rw [rnd64_eval_tie ((2648116580893851 / 1125899906842624) + (2553540988719071 / 4503599627370496)) (1) (6573003656147237) (6573003656147238) (by norm_num) (by norm_num) (by norm_num)
      (by norm_num) (by norm_num)]
    norm_num
  have n_S3y : rnd64 ((3286501828073619 / 1125899906842624) + (5836665117072163 / 72057594037927936)) = (6755399441055743 / 2251799813685248) := by
    rw [rnd64_eval ((3286501828073619 / 1125899906842624) + (5836665117072163 / 72057594037927936)) (1) (6755399441055743) (by norm_num) (by norm_num) (by norm_num)
      (by norm_num) (by norm_num)]
    norm_num
  rw [bezierPoint64_same]
  unfold fadd fsub fmul
  simp only [n_u, n_tt, n_uu, n_uuu, n_ttt, n_a, n_b, n_a2, n_b2, n_T0x, n_T1x, n_T2x, n_T3x, n_S1x, n_S2x, n_S3x, n_T0y, n_T1y, n_T2y, n_T3y, n_S1y, n_S2y, n_S3y]

/-- The square root `qsqrt` maps 0 to 0. -/
theorem qsqrt_zero : qsqrt 0 = 0 := by
  simp [qsqrt]

/-! ### The delay in binary64: NaN and the exact interval -/

/-- On a factor that is a number, `getRandomDelayNaN64` returns the delay of
`getRandomDelay64`. -/
theorem getRandomDelayNaN64_some (m : MouseController ℚ) :
    getRandomDelayNaN64 m (some m.m_randomizationFactor)
      = (some (fadd (baseDelay64 m.m_responseSpeed)
            (fmul (fmul (baseDelay64 m.m_responseSpeed) m.m_randomizationFactor)
                  (fsub (fmul (m.m_rng 0) 2) 1))),
         (getRandomDelay64 m).1) := rfl

/-- The delay of `getRandomDelay64` lies within 2^-39 of the exact interval from
B * (1 - f) to B * (1 + f), B = 1000 * (1 - speed / 100), for a speed in 0..100,
a factor in 0..1 and a draw in 0..1. -/
theorem getRandomDelay64_envelope (m : MouseController ℚ)
    (hs0 : 0 ≤ m.m_responseSpeed) (hs1 : m.m_responseSpeed ≤ 100)
    (hf0 : 0 ≤ m.m_randomizationFactor) (hf1 : m.m_randomizationFactor ≤ 1)
    (hr0 : 0 ≤ m.m_rng 0) (hr1 : m.m_rng 0 ≤ 1) :
    1000 * (1 - (m.m_responseSpeed : ℚ) / 100) * (1 - m.m_randomizationFactor)
        - 1 / 2 ^ (39 : Nat) ≤ (getRandomDelay64 m).1
    ∧ (getRandomDelay64 m).1
        ≤ 1000 * (1 - (m.m_responseSpeed : ℚ) / 100) * (1 + m.m_randomizationFactor)
          + 1 / 2 ^ (39 : Nat) := by
  obtain ⟨_, d2, d3, _, _⟩ := getRandomDelay64_bounds m hs0 hs1 hf0 hf1 hr0 hr1
  obtain ⟨hB0, hB1, hBfix, hBx⟩ := baseDelay64_bounds m.m_responseSpeed hs0 hs1
  obtain ⟨e, h, hr, he0, hh0, hhe, _, hC⟩ := rnd64_err_named
  have he : 64 * e = 1 / 2 ^ (47 : Nat) := by
    have := hC 1
    linarith
  generalize (getRandomDelay64 m).1 = delay at d2 d3 ⊢
  generalize 1000 * (1 - (m.m_responseSpeed : ℚ) / 100) = Bx at hBx ⊢
  generalize baseDelay64 m.m_responseSpeed = B at hB0 hB1 hBfix hBx d2 d3 ⊢
  generalize m.m_randomizationFactor = f at hf0 hf1 d2 d3 ⊢
  have hBf0 : 0 ≤ B * f := mul_nonneg hB0 hf0
  have hBf1 : B * f ≤ B := by nlinarith
  obtain ⟨hP0, hP1⟩ : 0 ≤ fmul B f ∧ fmul B f ≤ B := rnd64_between rnd64_zero hBfix hBf0 hBf1
  have eP := abs_le.mp (hr (B * f))
  rw [abs_of_nonneg hBf0] at eP
  have hPdef : rnd64 (B * f) = fmul B f := rfl
  rw [hPdef] at eP
  have eS := abs_le.mp (hr (B - fmul B f))
  rw [abs_of_nonneg (by linarith : 0 ≤ B - fmul B f)] at eS
  have hSdef : rnd64 (B - fmul B f) = fsub B (fmul B f) := rfl
  rw [hSdef] at eS
  have eA := abs_le.mp (hr (B + fmul B f))
  rw [abs_of_nonneg (by linarith : 0 ≤ B + fmul B f)] at eA
  have hAdef : rnd64 (B + fmul B f) = fadd B (fmul B f) := rfl
  rw [hAdef] at eA
  generalize fsub B (fmul B f) = S at d2 eS
  generalize fadd B (fmul B f) = A at d3 eA
  generalize fmul B f = P at hP0 hP1 eP eS eA
  obtain ⟨u, hu⟩ : ∃ u : ℚ, u = 1 / 2 ^ (41 : Nat) := ⟨_, rfl⟩
  have hBx2 : -u ≤ B - Bx ∧ B - Bx ≤ u := by
    rw [hu]
    exact abs_le.mp hBx
  have heu : 4096 * e = u := by
    rw [hu]
    have n47 : (1 : ℚ) / 2 ^ (47 : Nat) = 1 / 64 * (1 / 2 ^ (41 : Nat)) := by norm_num
    linarith
  have n39 : (1 : ℚ) / 2 ^ (39 : Nat) = 4 * u := by
    rw [hu]
    norm_num
  rw [n39]
  clear hBx he hC hu n39 hr hBfix
  have k1 : B * f * e ≤ 1000 * e :=
    mul_le_mul_of_nonneg_right (by linarith) he0
  have k2 : (B - P) * e ≤ 1000 * e :=
    mul_le_mul_of_nonneg_right (by linarith) he0
  have k3 : (B + P) * e ≤ 2000 * e :=
    mul_le_mul_of_nonneg_right (by linarith) he0
  have k4 : (B - Bx) * f ≤ u := by nlinarith only [hBx2.1, hBx2.2, hf0, hf1]
  have k5 : -u ≤ (B - Bx) * f := by nlinarith only [hBx2.1, hBx2.2, hf0, hf1]
  constructor
  · linarith only [d2, eS.1, eP.2, k1, k2, k4, k5, hBx2.1, hBx2.2, heu, hhe, hh0, he0]
  · linarith only [d3, eA.2, eP.2, k1, k3, k4, k5, hBx2.1, hBx2.2, heu, hhe, hh0, he0]

/-- The delay that `getRandomDelay64` computes on the default controller. -/
theorem defaultController64_delay : (getRandomDelay64 defaultController64).1 = 500 := by
  have c500 : rnd64 500 = 500 := by simpa using rnd64_natLit 500 (by norm_num)
  have hdef : (getRandomDelay64 defaultController64).1
      = max 0 (fadd (baseDelay64 50)
          (fmul (fmul (baseDelay64 50) defaultController64.m_randomizationFactor)
                (fsub (fmul (1 / 2) 2) 1))) := rfl
  have hB : baseDelay64 50 = 500 := by
    unfold baseDelay64 fmul fsub fdiv
    have b1 : ((50 : Int) : ℚ) / 100 = 1 / 2 := by norm_num
    have b2 : (1 : ℚ) - 1 / 2 = 1 / 2 := by norm_num
    have b3 : (1000 : ℚ) * (1 / 2) = 500 := by norm_num
    rw [b1, rnd64_half, b2, rnd64_half, b3, c500]
  rw [hdef, hB, half_draw_zero, (fmul_zero _).1, fadd_zero 500 c500]
  norm_num

end Helpers

/-! ## Theorems -/

section Theorems

variable {α : Type} [LinearOrderedField α]

/-- C1: for a color whose HSV components are those Qt can report (h in -1..359,
s and v in 0..255) and a tolerance in 0..100, every component of the range of
`calculateColorRange` satisfies 0 <= lower <= upper, and the upper bounds stay
within 180 (hue) and 255 (saturation, value). -/
theorem calculateColorRange_within_bounds (color : QColor) (t : Int)
    (hc : color.valid) (ht0 : 0 ≤ t) (ht1 : t ≤ 100) :
    (0 ≤ (calculateColorRange color t : ColorRange α).lower.v0
      ∧ (calculateColorRange color t : ColorRange α).lower.v0
          ≤ (calculateColorRange color t : ColorRange α).upper.v0
      ∧ (calculateColorRange color t : ColorRange α).upper.v0 ≤ 180)
    ∧ (0 ≤ (calculateColorRange color t : ColorRange α).lower.v1
      ∧ (calculateColorRange color t : ColorRange α).lower.v1
          ≤ (calculateColorRange color t : ColorRange α).upper.v1
      ∧ (calculateColorRange color t : ColorRange α).upper.v1 ≤ 255)
    ∧ (0 ≤ (calculateColorRange color t : ColorRange α).lower.v2
      ∧ (calculateColorRange color t : ColorRange α).lower.v2
          ≤ (calculateColorRange color t : ColorRange α).upper.v2
      ∧ (calculateColorRange color t : ColorRange α).upper.v2 ≤ 255) := by
  obtain ⟨hh1, hh2, hs1, hs2, hv1, hv2⟩ := hc
  obtain ⟨hH1, hH2⟩ := halfHue_bounds color.h hh1 hh2
  have e1 := tolScale_eq t 180 ht0 (by norm_num)
  have e2 := tolScale_eq t 255 ht0 (by norm_num)
  have b1 : 0 ≤ t * 180 / 100 := Int.ediv_nonneg (by omega) (by norm_num)
  have b2 : 0 ≤ t * 255 / 100 := Int.ediv_nonneg (by omega) (by norm_num)
  simp only [calculateColorRange, e1, e2]
  refine ⟨⟨?_, ?_, ?_⟩, ⟨?_, ?_, ?_⟩, ⟨?_, ?_, ?_⟩⟩
  all_goals (norm_cast; simp only [le_max_iff, max_le_iff, le_min_iff, min_le_iff]; omega)

/-- C1 at the default color (red) and the default tolerance 30, over the rationals. -/
theorem calculateColorRange_within_bounds_witness :
    (0 ≤ (calculateColorRange ⟨0, 255, 255⟩ 30 : ColorRange ℚ).lower.v0
      ∧ (calculateColorRange ⟨0, 255, 255⟩ 30 : ColorRange ℚ).lower.v0
          ≤ (calculateColorRange ⟨0, 255, 255⟩ 30 : ColorRange ℚ).upper.v0
      ∧ (calculateColorRange ⟨0, 255, 255⟩ 30 : ColorRange ℚ).upper.v0 ≤ 180)
    ∧ (0 ≤ (calculateColorRange ⟨0, 255, 255⟩ 30 : ColorRange ℚ).lower.v1
      ∧ (calculateColorRange ⟨0, 255, 255⟩ 30 : ColorRange ℚ).lower.v1
          ≤ (calculateColorRange ⟨0, 255, 255⟩ 30 : ColorRange ℚ).upper.v1
      ∧ (calculateColorRange ⟨0, 255, 255⟩ 30 : ColorRange ℚ).upper.v1 ≤ 255)
    ∧ (0 ≤ (calculateColorRange ⟨0, 255, 255⟩ 30 : ColorRange ℚ).lower.v2
      ∧ (calculateColorRange ⟨0, 255, 255⟩ 30 : ColorRange ℚ).lower.v2
          ≤ (calculateColorRange ⟨0, 255, 255⟩ 30 : ColorRange ℚ).upper.v2
      ∧ (calculateColorRange ⟨0, 255, 255⟩ 30 : ColorRange ℚ).upper.v2 ≤ 255) :=
  calculateColorRange_within_bounds ⟨0, 255, 255⟩ 30 (by decide) (by decide) (by decide)

/-- C2: for every color and tolerances 0 <= t1 < t2 <= 100 the range for t2
contains the range for t1: in each component the lower bound for t2 is at most
the one for t1, and the upper bound for t1 is at most the one for t2. -/
theorem calculateColorRange_monotone (color : QColor) (t1 t2 : Int)
    (h0 : 0 ≤ t1) (h12 : t1 < t2) (h2 : t2 ≤ 100) :
    ((calculateColorRange color t2 : ColorRange α).lower.v0
        ≤ (calculateColorRange color t1 : ColorRange α).lower.v0
      ∧ (calculateColorRange color t2 : ColorRange α).lower.v1
        ≤ (calculateColorRange color t1 : ColorRange α).lower.v1
      ∧ (calculateColorRange color t2 : ColorRange α).lower.v2
        ≤ (calculateColorRange color t1 : ColorRange α).lower.v2)
    ∧ ((calculateColorRange color t1 : ColorRange α).upper.v0
        ≤ (calculateColorRange color t2 : ColorRange α).upper.v0
      ∧ (calculateColorRange color t1 : ColorRange α).upper.v1
        ≤ (calculateColorRange color t2 : ColorRange α).upper.v1
      ∧ (calculateColorRange color t1 : ColorRange α).upper.v2
        ≤ (calculateColorRange color t2 : ColorRange α).upper.v2) := by
  have _h100 := h2
  have e1 := tolScale_eq t1 180 h0 (by norm_num)
  have e2 := tolScale_eq t1 255 h0 (by norm_num)
  have e3 := tolScale_eq t2 180 (by omega) (by norm_num)
  have e4 := tolScale_eq t2 255 (by omega) (by norm_num)
  have m1 : t1 * 180 / 100 ≤ t2 * 180 / 100 := Int.ediv_le_ediv (by norm_num) (by omega)
  have m2 : t1 * 255 / 100 ≤ t2 * 255 / 100 := Int.ediv_le_ediv (by norm_num) (by omega)
  simp only [calculateColorRange, e1, e2, e3, e4]
  refine ⟨⟨?_, ?_, ?_⟩, ⟨?_, ?_, ?_⟩⟩
  all_goals (norm_cast; simp only [le_max_iff, max_le_iff, le_min_iff, min_le_iff]; omega)

/-- C2 at the default color, tolerances 10 and 30, over the rationals. -/
theorem calculateColorRange_monotone_witness :
    ((calculateColorRange ⟨0, 255, 255⟩ 30 : ColorRange ℚ).lower.v0
        ≤ (calculateColorRange ⟨0, 255, 255⟩ 10 : ColorRange ℚ).lower.v0
      ∧ (calculateColorRange ⟨0, 255, 255⟩ 30 : ColorRange ℚ).lower.v1
        ≤ (calculateColorRange ⟨0, 255, 255⟩ 10 : ColorRange ℚ).lower.v1
      ∧ (calculateColorRange ⟨0, 255, 255⟩ 30 : ColorRange ℚ).lower.v2
        ≤ (calculateColorRange ⟨0, 255, 255⟩ 10 : ColorRange ℚ).lower.v2)
    ∧ ((calculateColorRange ⟨0, 255, 255⟩ 10 : ColorRange ℚ).upper.v0
        ≤ (calculateColorRange ⟨0, 255, 255⟩ 30 : ColorRange ℚ).upper.v0
      ∧ (calculateColorRange ⟨0, 255, 255⟩ 10 : ColorRange ℚ).upper.v1
        ≤ (calculateColorRange ⟨0, 255, 255⟩ 30 : ColorRange ℚ).upper.v1
      ∧ (calculateColorRange ⟨0, 255, 255⟩ 10 : ColorRange ℚ).upper.v2
        ≤ (calculateColorRange ⟨0, 255, 255⟩ 30 : ColorRange ℚ).upper.v2) :=
  calculateColorRange_monotone ⟨0, 255, 255⟩ 10 30 (by decide) (by decide) (by decide)

/-- C3: the four setters store the clamped argument, for every integer argument
and every object: tolerance, strength and speed in 0..100, radius in 50..500
(an argument below the range is stored as the lower bound, one above it as the
upper bound, one inside it unchanged); and after the constructor followed by
any sequence of setter calls the four stored values lie in their ranges. -/
theorem setters_clamp_at_assignment :
    (∀ (s : ColorDetection α) (x : Int),
        (s.setColorTolerance x).getColorTolerance = max 0 (min x 100))
    ∧ (∀ (s : ColorDetection α) (x : Int),
        (s.setFOVRadius x).getFOVRadius = max 50 (min x 500))
    ∧ (∀ (m : MouseController α) (x : Int),
        (m.setAimAssistStrength x).getAimAssistStrength = max 0 (min x 100))
    ∧ (∀ (m : MouseController α) (x : Int),
        (m.setResponseSpeed x).getResponseSpeed = max 0 (min x 100))
    ∧ (∀ calls : List (DetectionSetter α),
        (0 ≤ (detectionAfter calls).getColorTolerance
          ∧ (detectionAfter calls).getColorTolerance ≤ 100)
        ∧ (50 ≤ (detectionAfter calls).getFOVRadius
          ∧ (detectionAfter calls).getFOVRadius ≤ 500))
    ∧ (∀ (seed : Rng α) (cursor : QPoint) (calls : List (MouseSetter α)),
        (0 ≤ (mouseAfter seed cursor calls).getAimAssistStrength
          ∧ (mouseAfter seed cursor calls).getAimAssistStrength ≤ 100)
        ∧ (0 ≤ (mouseAfter seed cursor calls).getResponseSpeed
          ∧ (mouseAfter seed cursor calls).getResponseSpeed ≤ 100)) := by
  refine ⟨?_, ?_, ?_, ?_, ?_, ?_⟩
  · intro s x
    exact clamp_eq_max_min x 0 100 (by norm_num)
  · intro s x
    exact clamp_eq_max_min x 50 500 (by norm_num)
  · intro m x
    exact clamp_eq_max_min x 0 100 (by norm_num)
  · intro m x
    exact clamp_eq_max_min x 0 100 (by norm_num)
  · intro calls
    exact detectionSetters_keep_ranges calls ColorDetection.init
      (by simp [ColorDetection.inRanges, ColorDetection.init])
  · intro seed cursor calls
    exact mouseSetters_keep_ranges calls (MouseController.init seed cursor)
      (by simp [MouseController.inRanges, MouseController.init])

/-- C4 (as amended): no target returned by `findTargets` has an area below
`m_minArea` or above `m_maxArea`; every contour whose area lies in the closed
interval from `m_minArea` to `m_maxArea` and whose zeroth moment is non-zero
has its target in the result; so, when `m_minArea <= m_maxArea`, a contour of
area exactly `m_minArea` or exactly `m_maxArea` (zeroth moment non-zero) has
its target in the result. -/
theorem findTargets_area_filter [FloorRing α] {M : Type} (cv : OpenCV M α) (sqrt : α → α)
    (s : ColorDetection α) (mask : M) (center : QPoint) :
    (∀ t ∈ findTargets cv sqrt s mask center,
        ¬ t.area < s.m_minArea ∧ ¬ t.area > s.m_maxArea)
    ∧ (∀ c ∈ cv.findContours mask,
        s.m_minArea ≤ c.area → c.area ≤ s.m_maxArea → c.m00 ≠ 0 →
          makeTarget sqrt s center c ∈ findTargets cv sqrt s mask center)
    ∧ (s.m_minArea ≤ s.m_maxArea →
        ∀ c ∈ cv.findContours mask,
          (c.area = s.m_minArea ∨ c.area = s.m_maxArea) → c.m00 ≠ 0 →
            makeTarget sqrt s center c ∈ findTargets cv sqrt s mask center) := by
  have key : ∀ c ∈ cv.findContours mask,
      s.m_minArea ≤ c.area → c.area ≤ s.m_maxArea → c.m00 ≠ 0 →
        makeTarget sqrt s center c ∈ findTargets cv sqrt s mask center := by
    intro c hc h1 h2 h3
    exact (mem_findTargets cv sqrt s mask center _).mpr ⟨c, hc, ⟨h1, h2, h3⟩, rfl⟩
  refine ⟨?_, key, ?_⟩
  · intro t ht
    obtain ⟨c, _, ⟨a1, a2, _⟩, rfl⟩ := (mem_findTargets cv sqrt s mask center t).mp ht
    exact ⟨not_lt.mpr a1, not_lt.mpr a2⟩
  · intro hle c hc hb h3
    rcases hb with hb | hb
    · exact key c hc (le_of_eq hb.symm) (hb ▸ hle) h3
    · exact key c hc (hb ▸ hle) (le_of_eq hb) h3

/-- C4, evaluated: with `m_minArea = 100` and the default `m_maxArea = 50000`, the
contour of area exactly 100 is in the result. -/
theorem findTargets_area_filter_witness :
    makeTarget qsqrt minArea100 ⟨50, 50⟩ squareContour
      ∈ findTargets testCV qsqrt minArea100 squareFrame ⟨50, 50⟩ :=
  (findTargets_area_filter testCV qsqrt minArea100 squareFrame ⟨50, 50⟩).2.2
    (by norm_num [minArea100, ColorDetection.setMinArea, ColorDetection.init])
    squareContour
    (by simp [testCV, squareFrame])
    (Or.inl (by norm_num [minArea100, ColorDetection.setMinArea, squareContour]))
    (by norm_num [squareContour])

/-- C4 as stated fails: after `setMinArea(100)` and `setMaxArea(50)`, a contour
of area exactly `m_minArea = 100` with non-zero zeroth moment is found in the
mask, and `findTargets` returns no target at all. -/
theorem findTargets_boundary_excluded_when_bounds_inverted :
    squareContour ∈ testCV.findContours squareFrame
    ∧ squareContour.area = invertedAreaBounds.getMinArea
    ∧ squareContour.m00 ≠ 0
    ∧ findTargets testCV qsqrt invertedAreaBounds squareFrame ⟨50, 50⟩ = [] := by
  refine ⟨by simp [testCV, squareFrame], ?_, ?_, ?_⟩
  · norm_num [squareContour, invertedAreaBounds, ColorDetection.getMinArea,
      ColorDetection.setMinArea, ColorDetection.setMaxArea]
  · norm_num [squareContour]
  · norm_num [findTargets, findTargetsLoop, testCV, squareFrame, squareContour,
      invertedAreaBounds, ColorDetection.setMinArea, ColorDetection.setMaxArea,
      ColorDetection.init, stdSort]

/-- C5: the list returned by `findTargets` is ordered closest-first (each target
is at most as far as its successor, and as every later target), and it is a
permutation of the targets built from the accepted contours, so sorting drops
and duplicates none; the list returned by `detect` is ordered the same way; it
is empty for an empty frame, and for a non-empty frame it is a permutation of
the targets built, with the center of the frame, from the accepted contours of
the mask that `detect` computes (the color mask intersected with the
field-of-view mask, morphology applied when enabled). -/
theorem findTargets_sorted_closest_first [FloorRing α] {M : Type} (cv : OpenCV M α)
    (sqrt : α → α) (s : ColorDetection α) (mask : M) (center : QPoint)
    (elapsed : Int) (frame : M) (fovCenter : QPoint) :
    List.Chain' (fun a b : DetectedTarget α => a.distanceFromCenter ≤ b.distanceFromCenter)
        (findTargets cv sqrt s mask center)
    ∧ List.Pairwise
        (fun a b : DetectedTarget α => a.distanceFromCenter ≤ b.distanceFromCenter)
        (findTargets cv sqrt s mask center)
    ∧ List.Perm (findTargets cv sqrt s mask center)
        (((cv.findContours mask).filter (fun c => decide (accepted s c))).map
          (makeTarget sqrt s center))
    ∧ List.Chain' (fun a b : DetectedTarget α => a.distanceFromCenter ≤ b.distanceFromCenter)
        (detect cv sqrt elapsed s frame fovCenter).targets
    ∧ List.Pairwise
        (fun a b : DetectedTarget α => a.distanceFromCenter ≤ b.distanceFromCenter)
        (detect cv sqrt elapsed s frame fovCenter).targets
    ∧ (cv.empty frame = true → (detect cv sqrt elapsed s frame fovCenter).targets = [])
    ∧ (cv.empty frame = false →
        List.Perm (detect cv sqrt elapsed s frame fovCenter).targets
          (((cv.findContours
            (if s.m_morphologyEnabled = true then
              applyMorphology cv
                (cv.bitwise_and
                  (cv.inRange (cv.cvtColorBGR2HSV frame)
                    (calculateColorRange s.m_targetColor s.m_colorTolerance).lower
                    (calculateColorRange s.m_targetColor s.m_colorTolerance).upper)
                  (createFOVMask cv (cv.cols frame) (cv.rows frame)
                    ⟨Int.tdiv (cv.cols frame) 2, Int.tdiv (cv.rows frame) 2⟩ s.getFOVRadius))
            else
              cv.bitwise_and
                (cv.inRange (cv.cvtColorBGR2HSV frame)
                  (calculateColorRange s.m_targetColor s.m_colorTolerance).lower
                  (calculateColorRange s.m_targetColor s.m_colorTolerance).upper)
                (createFOVMask cv (cv.cols frame) (cv.rows frame)
                  ⟨Int.tdiv (cv.cols frame) 2, Int.tdiv (cv.rows frame) 2⟩ s.getFOVRadius))).filter
              (fun c => decide (accepted s c))).map
            (makeTarget sqrt s ⟨Int.tdiv (cv.cols frame) 2, Int.tdiv (cv.rows frame) 2⟩))) := by
  have hf : ∀ (m : M) (c : QPoint), List.Pairwise
      (fun a b : DetectedTarget α => a.distanceFromCenter ≤ b.distanceFromCenter)
      (findTargets cv sqrt s m c) := fun m c => stdSort_distance_pairwise _
  have hd : List.Pairwise
      (fun a b : DetectedTarget α => a.distanceFromCenter ≤ b.distanceFromCenter)
      (detect cv sqrt elapsed s frame fovCenter).targets := by
    rcases detect_targets_cases cv sqrt elapsed s frame fovCenter with ⟨_, h⟩ | ⟨_, m, h⟩
    · rw [h]; exact List.Pairwise.nil
    · rw [h]; exact hf m _
  refine ⟨List.Pairwise.chain' (hf mask center), hf mask center,
    findTargets_perm_accepted cv sqrt s mask center, List.Pairwise.chain' hd, hd, ?_, ?_⟩
  · intro he
    unfold detect
    rw [if_pos he]
  · intro hne
    have h : (detect cv sqrt elapsed s frame fovCenter).targets
        = findTargets cv sqrt s
            (if s.m_morphologyEnabled = true then
              applyMorphology cv
                (cv.bitwise_and
                  (cv.inRange (cv.cvtColorBGR2HSV frame)
                    (calculateColorRange s.m_targetColor s.m_colorTolerance).lower
                    (calculateColorRange s.m_targetColor s.m_colorTolerance).upper)
                  (createFOVMask cv (cv.cols frame) (cv.rows frame)
                    ⟨Int.tdiv (cv.cols frame) 2, Int.tdiv (cv.rows frame) 2⟩ s.getFOVRadius))
            else
              cv.bitwise_and
                (cv.inRange (cv.cvtColorBGR2HSV frame)
                  (calculateColorRange s.m_targetColor s.m_colorTolerance).lower
                  (calculateColorRange s.m_targetColor s.m_colorTolerance).upper)
                (createFOVMask cv (cv.cols frame) (cv.rows frame)
                  ⟨Int.tdiv (cv.cols frame) 2, Int.tdiv (cv.rows frame) 2⟩ s.getFOVRadius))
            ⟨Int.tdiv (cv.cols frame) 2, Int.tdiv (cv.rows frame) 2⟩ := by
      unfold detect
      rw [if_neg (by simp [hne])]
      rfl
    rw [h]
    exact findTargets_perm_accepted cv sqrt s _ _

/-- C5 on the empty frame and on the 100 x 100 frame showing one square. -/
theorem findTargets_sorted_closest_first_witness :
    testCV.empty emptyFrame = true
    ∧ (detect testCV qsqrt 3 ColorDetection.init emptyFrame ⟨0, 0⟩).targets = []
    ∧ testCV.empty squareFrame = false
    ∧ (detect testCV qsqrt 3 ColorDetection.init squareFrame ⟨53, 54⟩).targets = [squareTarget]
    ∧ List.Perm (detect testCV qsqrt 3 ColorDetection.init squareFrame ⟨53, 54⟩).targets
        (((testCV.findContours
          (if (ColorDetection.init : ColorDetection ℚ).m_morphologyEnabled = true then
              applyMorphology testCV
                (testCV.bitwise_and
                  (testCV.inRange (testCV.cvtColorBGR2HSV squareFrame)
                    (calculateColorRange (ColorDetection.init : ColorDetection ℚ).m_targetColor (ColorDetection.init : ColorDetection ℚ).m_colorTolerance).lower
                    (calculateColorRange (ColorDetection.init : ColorDetection ℚ).m_targetColor (ColorDetection.init : ColorDetection ℚ).m_colorTolerance).upper)
                  (createFOVMask testCV (testCV.cols squareFrame) (testCV.rows squareFrame)
                    ⟨Int.tdiv (testCV.cols squareFrame) 2, Int.tdiv (testCV.rows squareFrame) 2⟩ (ColorDetection.init : ColorDetection ℚ).getFOVRadius))
            else
              testCV.bitwise_and
                (testCV.inRange (testCV.cvtColorBGR2HSV squareFrame)
                  (calculateColorRange (ColorDetection.init : ColorDetection ℚ).m_targetColor (ColorDetection.init : ColorDetection ℚ).m_colorTolerance).lower
                  (calculateColorRange (ColorDetection.init : ColorDetection ℚ).m_targetColor (ColorDetection.init : ColorDetection ℚ).m_colorTolerance).upper)
                (createFOVMask testCV (testCV.cols squareFrame) (testCV.rows squareFrame)
                  ⟨Int.tdiv (testCV.cols squareFrame) 2, Int.tdiv (testCV.rows squareFrame) 2⟩ (ColorDetection.init : ColorDetection ℚ).getFOVRadius))).filter
            (fun c => decide (accepted (ColorDetection.init : ColorDetection ℚ) c))).map
          (makeTarget qsqrt ColorDetection.init
            ⟨Int.tdiv (testCV.cols squareFrame) 2, Int.tdiv (testCV.rows squareFrame) 2⟩)) :=
  ⟨by decide,
   (findTargets_sorted_closest_first testCV qsqrt ColorDetection.init emptyFrame ⟨0, 0⟩ 3
      emptyFrame ⟨0, 0⟩).2.2.2.2.2.1 (by decide),
   by decide,
   squareFrame_targets 3 ⟨53, 54⟩,
   (findTargets_sorted_closest_first testCV qsqrt ColorDetection.init squareFrame ⟨50, 50⟩ 3
      squareFrame ⟨53, 54⟩).2.2.2.2.2.2 (by decide)⟩

/-- C6 as stated fails: on the 100 x 100 frame showing one square with centroid
(50, 50), `detect` called with the point (53, 54) returns that target with
distance 0, the distance to the center of the frame; the squared distance from
the centroid to (53, 54) is 25. -/
theorem detect_distance_not_from_argument :
    testCV.empty squareFrame = false
    ∧ (detect testCV qsqrt 3 ColorDetection.init squareFrame ⟨53, 54⟩).targets = [squareTarget]
    ∧ squareTarget.distanceFromCenter ^ 2
        ≠ ((squareTarget.center.x - 53 : Int) : ℚ) ^ 2
          + ((squareTarget.center.y - 54 : Int) : ℚ) ^ 2 := by
  refine ⟨by decide, ?_, ?_⟩
  · have e : Int.tdiv 100 2 = 50 := by decide
    simp [detect, testCV, squareFrame, findTargets, findTargetsLoop, squareContour,
      ColorDetection.init, stdSort, makeTarget, calculateConfidence, truncToInt, qsqrt,
      squareTarget, e]
    norm_num
  · norm_num [squareTarget]

/-- C6 (as amended): with an exact square root, for every non-empty frame and
every point passed to `detect`, the squared distance of each returned target is
the sum of the squared offsets of its centroid from the center of the frame,
(cols/2, rows/2); it is the distance to the point passed when that point is the
center of the frame; and `findTargets` measures from the point it is given. -/
theorem detect_distance_from_frame_center [FloorRing α] {M : Type} (cv : OpenCV M α)
    (sqrt : α → α) (hsqrt : ∀ x : α, 0 ≤ x → sqrt x ^ 2 = x)
    (elapsed : Int) (s : ColorDetection α) (frame : M) (fovCenter : QPoint)
    (hne : cv.empty frame = false) :
    (∀ t ∈ (detect cv sqrt elapsed s frame fovCenter).targets,
        t.distanceFromCenter ^ 2
          = ((t.center.x - Int.tdiv (cv.cols frame) 2 : Int) : α) ^ 2
            + ((t.center.y - Int.tdiv (cv.rows frame) 2 : Int) : α) ^ 2)
    ∧ (fovCenter = ⟨Int.tdiv (cv.cols frame) 2, Int.tdiv (cv.rows frame) 2⟩ →
        ∀ t ∈ (detect cv sqrt elapsed s frame fovCenter).targets,
          t.distanceFromCenter ^ 2
            = ((t.center.x - fovCenter.x : Int) : α) ^ 2
              + ((t.center.y - fovCenter.y : Int) : α) ^ 2)
    ∧ (∀ (mask : M) (center : QPoint), ∀ t ∈ findTargets cv sqrt s mask center,
        t.distanceFromCenter ^ 2
          = ((t.center.x - center.x : Int) : α) ^ 2
            + ((t.center.y - center.y : Int) : α) ^ 2) := by
  have main : ∀ t ∈ (detect cv sqrt elapsed s frame fovCenter).targets,
      t.distanceFromCenter ^ 2
        = ((t.center.x - Int.tdiv (cv.cols frame) 2 : Int) : α) ^ 2
          + ((t.center.y - Int.tdiv (cv.rows frame) 2 : Int) : α) ^ 2 := by
    intro t ht
    rcases detect_targets_cases cv sqrt elapsed s frame fovCenter with ⟨he, _⟩ | ⟨_, m, h⟩
    · rw [hne] at he
      exact absurd he (by decide)
    · rw [h] at ht
      exact findTargets_distance_sq cv sqrt hsqrt s m _ t ht
  refine ⟨main, ?_, ?_⟩
  · intro hc t ht
    rw [hc]
    exact main t ht
  · intro mask center t ht
    exact findTargets_distance_sq cv sqrt hsqrt s mask center t ht

/-- C6, evaluated over the reals with the real square root, on a 100 x 100
frame showing one square, `detect` being given the point (53, 54). -/
theorem detect_distance_from_frame_center_witness :
    (testCV : OpenCV (TestImage ℝ) ℝ).empty
        ⟨100, 100, [⟨100, ⟨45, 45, 11, 11⟩, 100, 5000, 5000⟩]⟩ = false
    ∧ ∀ t ∈ (detect testCV Real.sqrt 3 ColorDetection.init
              (⟨100, 100, [⟨100, ⟨45, 45, 11, 11⟩, 100, 5000, 5000⟩]⟩ : TestImage ℝ)
              ⟨53, 54⟩).targets,
        t.distanceFromCenter ^ 2
          = ((t.center.x - Int.tdiv 100 2 : Int) : ℝ) ^ 2
            + ((t.center.y - Int.tdiv 100 2 : Int) : ℝ) ^ 2 :=
  ⟨by simp [testCV],
   (detect_distance_from_frame_center testCV Real.sqrt (fun _ hx => Real.sq_sqrt hx) 3
      ColorDetection.init
      (⟨100, 100, [⟨100, ⟨45, 45, 11, 11⟩, 100, 5000, 5000⟩]⟩ : TestImage ℝ)
      ⟨53, 54⟩ (by simp [testCV])).1⟩

/-- C7: for area >= 0, distance >= 0 and a radius in 50..500, `calculateConfidence`
returns 0.4 * min(area/1000, 1) + 0.6 * max(0, 1 - distance/radius), and the
value lies between 0 and 1. -/
theorem calculateConfidence_bounded (s : ColorDetection α) (area distance : α)
    (ha : 0 ≤ area) (hd : 0 ≤ distance)
    (hr1 : 50 ≤ s.m_fovRadius) (hr2 : s.m_fovRadius ≤ 500) :
    calculateConfidence s area distance
        = (4 / 10) * min (area / 1000) 1
          + (6 / 10) * max 0 (1 - distance / (s.m_fovRadius : α))
    ∧ 0 ≤ calculateConfidence s area distance
    ∧ calculateConfidence s area distance ≤ 1 := by
  have _hr2 := hr2
  have hr : (0 : α) ≤ (s.m_fovRadius : α) := by
    have : (0 : Int) ≤ s.m_fovRadius := by omega
    exact_mod_cast this
  have a0 : 0 ≤ min (area / 1000) 1 := le_min (div_nonneg ha (by norm_num)) zero_le_one
  have a1 : min (area / 1000) 1 ≤ 1 := min_le_right _ _
  have d0 : 0 ≤ max 0 (1 - distance / (s.m_fovRadius : α)) := le_max_left _ _
  have d1 : max 0 (1 - distance / (s.m_fovRadius : α)) ≤ 1 :=
    max_le zero_le_one (sub_le_self 1 (div_nonneg hd hr))
  refine ⟨?_, ?_, ?_⟩
  · simp only [calculateConfidence]
    ring
  · simp only [calculateConfidence]
    nlinarith
  · simp only [calculateConfidence]
    nlinarith

/-- C7 at the default radius 150, area 100 and distance 0, over the rationals. -/
theorem calculateConfidence_bounded_witness :
    calculateConfidence (ColorDetection.init : ColorDetection ℚ) 100 0
        = (4 / 10) * min ((100 : ℚ) / 1000) 1
          + (6 / 10) * max 0 (1 - 0 / (((ColorDetection.init : ColorDetection ℚ).m_fovRadius : ℚ)))
    ∧ 0 ≤ calculateConfidence (ColorDetection.init : ColorDetection ℚ) 100 0
    ∧ calculateConfidence (ColorDetection.init : ColorDetection ℚ) 100 0 ≤ 1 :=
  calculateConfidence_bounded ColorDetection.init 100 0 (by norm_num) (by norm_num)
    (by simp [ColorDetection.init]) (by simp [ColorDetection.init])

/-- C8: on an empty frame `detect` returns the empty list, and afterwards the
last detection time is 0 and the last target count is 0, whatever they were
before; the other members are unchanged. -/
theorem detect_empty_frame [FloorRing α] {M : Type} (cv : OpenCV M α) (sqrt : α → α)
    (elapsed : Int) (s : ColorDetection α) (frame : M) (fovCenter : QPoint)
    (he : cv.empty frame = true) :
    (detect cv sqrt elapsed s frame fovCenter).targets = []
    ∧ (detect cv sqrt elapsed s frame fovCenter).state.getLastDetectionTime = 0
    ∧ (detect cv sqrt elapsed s frame fovCenter).state.getLastTargetCount = 0
    ∧ (detect cv sqrt elapsed s frame fovCenter).state
        = { s with m_lastDetectionTime := 0, m_lastTargetCount := 0 } := by
  unfold detect
  rw [if_pos he]
  exact ⟨rfl, rfl, rfl, rfl⟩

/-- C8 on an extractor that recorded 7 ms and 2 targets in an earlier call. -/
theorem detect_empty_frame_witness :
    testCV.empty emptyFrame = true
    ∧ afterEarlierCall.getLastDetectionTime = 7
    ∧ afterEarlierCall.getLastTargetCount = 2
    ∧ (detect testCV qsqrt 5 afterEarlierCall emptyFrame ⟨0, 0⟩).targets = []
    ∧ (detect testCV qsqrt 5 afterEarlierCall emptyFrame ⟨0, 0⟩).state.getLastDetectionTime = 0
    ∧ (detect testCV qsqrt 5 afterEarlierCall emptyFrame ⟨0, 0⟩).state.getLastTargetCount = 0 :=
  ⟨by decide, rfl, rfl,
   (detect_empty_frame testCV qsqrt 5 afterEarlierCall emptyFrame ⟨0, 0⟩ (by decide)).1,
   (detect_empty_frame testCV qsqrt 5 afterEarlierCall emptyFrame ⟨0, 0⟩ (by decide)).2.1,
   (detect_empty_frame testCV qsqrt 5 afterEarlierCall emptyFrame ⟨0, 0⟩ (by decide)).2.2.1⟩

/-- C9 as stated fails: `detect` on an empty frame emits no signal at all, so
no `detectionComplete`. -/
theorem detect_empty_frame_emits_nothing :
    testCV.empty emptyFrame = true
    ∧ (detect testCV qsqrt 5 ColorDetection.init emptyFrame ⟨0, 0⟩).signals = [] :=
  ⟨by decide, by simp [detect, testCV, emptyFrame]⟩

/-- C9 (as amended): on a non-empty frame `detect` emits exactly one
`detectionComplete`, carrying the number of returned targets (and the elapsed
time), followed by one `targetDetected` carrying the first target of the result
when the result is non-empty and by nothing when it is empty; on an empty frame
it emits no signal. -/
theorem detect_signals [FloorRing α] {M : Type} (cv : OpenCV M α) (sqrt : α → α)
    (elapsed : Int) (s : ColorDetection α) (frame : M) (fovCenter : QPoint) :
    (cv.empty frame = false →
      (detect cv sqrt elapsed s frame fovCenter).signals
        = DetectionSignal.detectionComplete
            ((detect cv sqrt elapsed s frame fovCenter).targets.length : Int) (elapsed : α)
          :: ((detect cv sqrt elapsed s frame fovCenter).targets.head?.toList.map
                DetectionSignal.targetDetected))
    ∧ (cv.empty frame = true → (detect cv sqrt elapsed s frame fovCenter).signals = []) := by
  constructor
  · intro hne
    unfold detect
    simp only [hne, Bool.false_eq_true, if_false]
    split <;> simp_all
  · intro he
    unfold detect
    rw [if_pos he]

/-- C9 on the frame showing one square: one `detectionComplete` with count 1,
then `targetDetected` with that target. -/
theorem detect_signals_witness :
    testCV.empty squareFrame = false
    ∧ (detect testCV qsqrt 3 ColorDetection.init squareFrame ⟨53, 54⟩).signals
        = DetectionSignal.detectionComplete
            ((detect testCV qsqrt 3 ColorDetection.init squareFrame ⟨53, 54⟩).targets.length : Int)
            ((3 : Int) : ℚ)
          :: ((detect testCV qsqrt 3 ColorDetection.init squareFrame
                ⟨53, 54⟩).targets.head?.toList.map DetectionSignal.targetDetected) :=
  ⟨by decide,
   (detect_signals testCV qsqrt 3 ColorDetection.init squareFrame ⟨53, 54⟩).1 (by decide)⟩

/-- C12: when the assist strength is 0, `applyAimAssist` returns the controller
as it was, for every target and every state: pointer position, current path,
path index and moving flag are unchanged, and no signal is emitted. -/
theorem applyAimAssist_zero_strength [FloorRing α] (sqrt : α → α) (m : MouseController α)
    (targetPos : QPoint) (h : m.m_aimAssistStrength = 0) :
    (applyAimAssist sqrt m targetPos).1 = m
    ∧ (applyAimAssist sqrt m targetPos).2 = []
    ∧ (applyAimAssist sqrt m targetPos).1.getCurrentPosition = m.getCurrentPosition
    ∧ (applyAimAssist sqrt m targetPos).1.m_currentPath = m.m_currentPath
    ∧ (applyAimAssist sqrt m targetPos).1.m_pathIndex = m.m_pathIndex
    ∧ (applyAimAssist sqrt m targetPos).1.isMoving = m.isMoving := by
  have e : applyAimAssist sqrt m targetPos = (m, []) := by
    unfold applyAimAssist
    rw [if_pos h]
  rw [e]
  exact ⟨rfl, rfl, rfl, rfl, rfl, rfl⟩

/-- C12 on a controller set to strength 0 with the pointer at (5, 5), the target
at (100, 40): the pointer stays at (5, 5) and nothing is emitted. -/
theorem applyAimAssist_zero_strength_witness :
    zeroStrengthController.m_aimAssistStrength = 0
    ∧ (applyAimAssist qsqrt zeroStrengthController ⟨100, 40⟩).2 = []
    ∧ (applyAimAssist qsqrt zeroStrengthController ⟨100, 40⟩).1.getCurrentPosition = ⟨5, 5⟩ :=
  ⟨by decide,
   (applyAimAssist_zero_strength qsqrt zeroStrengthController ⟨100, 40⟩ (by decide)).2.1,
   (applyAimAssist_zero_strength qsqrt zeroStrengthController ⟨100, 40⟩ (by decide)).2.2.1⟩

/-- C13: when the response speed is 100, `getRandomDelay` returns exactly 0, for
every randomization factor and every random draw. -/
theorem getRandomDelay_zero_at_full_speed (m : MouseController α)
    (h : m.m_responseSpeed = 100) :
    (getRandomDelay m).1 = 0 :=
  getRandomDelay_eq_zero m h

/-- C13 on a controller set to response speed 100 (randomization factor 0.3,
draw 1/2). -/
theorem getRandomDelay_zero_at_full_speed_witness :
    fullSpeedController.getResponseSpeed = 100
    ∧ (getRandomDelay fullSpeedController).1 = 0 :=
  ⟨by decide, getRandomDelay_zero_at_full_speed fullSpeedController (by decide)⟩

/-- C14: `start` on a running tracker returns the tracker as it was and emits
nothing (frame counter, session clock and timers untouched, no `started`);
`stop` on a stopped tracker returns the tracker as it was and emits nothing
(running time not increased, no `stopped`); hence, from every state, a second
`start` after a `start`, and a second `stop` after a `stop`, changes nothing
and emits nothing, whatever the clock reads at the two calls. -/
theorem start_stop_idempotent {β : Type} :
    (∀ (t : Tracker β) (now : Int), t.m_isRunning = true → t.start now = (t, []))
    ∧ (∀ (t : Tracker β) (now : Int), t.m_isRunning = false → t.stop now = (t, []))
    ∧ (∀ (t : Tracker β) (now1 now2 : Int),
        (t.start now1).1.start now2 = ((t.start now1).1, []))
    ∧ (∀ (t : Tracker β) (now1 now2 : Int),
        (t.stop now1).1.stop now2 = ((t.stop now1).1, [])) := by
  have hstart : ∀ (t : Tracker β) (now : Int), t.m_isRunning = true → t.start now = (t, []) := by
    intro t now h
    unfold Tracker.start
    rw [if_pos h]
  have hstop : ∀ (t : Tracker β) (now : Int), t.m_isRunning = false → t.stop now = (t, []) := by
    intro t now h
    unfold Tracker.stop
    rw [if_pos (by simp [h])]
  refine ⟨hstart, hstop, ?_, ?_⟩
  · intro t now1 now2
    apply hstart
    unfold Tracker.start
    by_cases h : t.m_isRunning = true
    · rw [if_pos h]; exact h
    · rw [if_neg h]
  · intro t now1 now2
    apply hstop
    unfold Tracker.stop
    by_cases h : t.m_isRunning = true
    · rw [if_neg (not_not.mpr h)]
    · rw [if_pos h]; simpa using h

/-- C14 on a new tracker: a second `start` at time 9 after a `start` at time 5
changes nothing, and so does a second `stop` at time 30 after a `stop` at 20. -/
theorem start_stop_idempotent_witness :
    (plainTracker.start 5).1.m_isRunning = true
    ∧ (plainTracker.start 5).1.start 9 = ((plainTracker.start 5).1, [])
    ∧ (((plainTracker.start 5).1.stop 20).1.stop 30).1.m_totalRunningTime = 15
    ∧ ((plainTracker.start 5).1.stop 20).1.stop 30 = (((plainTracker.start 5).1.stop 20).1, []) :=
  ⟨rfl,
   (@start_stop_idempotent ℚ).1 (plainTracker.start 5).1 9 rfl,
   by rw [(@start_stop_idempotent ℚ).2.2.2 (plainTracker.start 5).1 20 30]; rfl,
   (@start_stop_idempotent ℚ).2.2.2 (plainTracker.start 5).1 20 30⟩

/-- C15: after `setTargetFPS(fps)` the stored target fps is `max 30 (min fps 300)`,
for every integer fps and every tracker; the call leaves the running flag, the
frame counter, the two cumulative counters, the accumulated running time and
the session clock as they were; and after the constructor followed by any
sequence of calls the target fps lies in 30..300. -/
theorem setTargetFPS_clamps [FloorRing α] {M : Type} :
    (∀ (t : Tracker α) (fps : Int), (t.setTargetFPS fps).getTargetFPS = max 30 (min fps 300))
    ∧ (∀ (t : Tracker α) (fps : Int),
        (t.setTargetFPS fps).isRunning = t.isRunning
        ∧ (t.setTargetFPS fps).m_frameCount = t.m_frameCount
        ∧ (t.setTargetFPS fps).getTotalTargetsDetected = t.getTotalTargetsDetected
        ∧ (t.setTargetFPS fps).getTotalAssists = t.getTotalAssists
        ∧ (t.setTargetFPS fps).m_totalRunningTime = t.m_totalRunningTime
        ∧ (t.setTargetFPS fps).m_runningTimer = t.m_runningTimer)
    ∧ (∀ (screens : List (QScreen M α)) (seed : Rng α) (cursor : QPoint)
        (calls : List (TrackerCall M α)) (t : Tracker α),
        trackerAfter screens seed cursor calls = some t →
          30 ≤ t.getTargetFPS ∧ t.getTargetFPS ≤ 300) := by
  refine ⟨?_, ?_, ?_⟩
  · intro t fps
    have e := clamp_eq_max_min fps 30 300 (by norm_num)
    simp only [Tracker.setTargetFPS, Tracker.getTargetFPS]
    split_ifs <;> exact e
  · intro t fps
    simp only [Tracker.setTargetFPS, Tracker.isRunning, Tracker.getTotalTargetsDetected,
      Tracker.getTotalAssists]
    split_ifs <;> exact ⟨rfl, rfl, rfl, rfl, rfl, rfl⟩
  · intro screens seed cursor calls t h
    exact (trackerAfterFrom_controlInv calls _ t (init_controlInv screens seed cursor) h).1

/-- C15 on a new tracker: after `start` and `setTargetFPS(1000)` the target fps is 300. -/
theorem setTargetFPS_clamps_witness :
    trackerAfter ([] : List (QScreen (TestImage ℚ) ℚ)) constHalf ⟨0, 0⟩
        [TrackerCall.start 0, TrackerCall.setTargetFPS 1000]
      = some ((plainTracker.start 0).1.setTargetFPS 1000)
    ∧ ((plainTracker.start 0).1.setTargetFPS 1000).getTargetFPS = 300
    ∧ 30 ≤ ((plainTracker.start 0).1.setTargetFPS 1000).getTargetFPS
    ∧ ((plainTracker.start 0).1.setTargetFPS 1000).getTargetFPS ≤ 300 :=
  ⟨rfl,
   by rw [(@setTargetFPS_clamps ℚ _ _ (TestImage ℚ)).1]; decide,
   ((@setTargetFPS_clamps ℚ _ _ (TestImage ℚ)).2.2 [] constHalf ⟨0, 0⟩
      [TrackerCall.start 0, TrackerCall.setTargetFPS 1000] _ rfl).1,
   ((@setTargetFPS_clamps ℚ _ _ (TestImage ℚ)).2.2 [] constHalf ⟨0, 0⟩
      [TrackerCall.start 0, TrackerCall.setTargetFPS 1000] _ rfl).2⟩

/-- C16: after the constructor followed by any sequence of calls the target fps
is positive and, while the tracker is running, the interval of the primary
timer is `max 1 (1000 / targetFps)` with the floor quotient, and lies in 3..33;
`start` on a stopped tracker with a positive target fps sets that interval, and
so does `setTargetFPS` on a running tracker; after the constructor (target fps
144) `start` sets the interval 6. -/
theorem tickInterval_matches_targetFPS [FloorRing α] {M : Type} :
    (∀ (screens : List (QScreen M α)) (seed : Rng α) (cursor : QPoint)
        (calls : List (TrackerCall M α)) (t : Tracker α),
        trackerAfter screens seed cursor calls = some t →
          0 < t.m_targetFPS
          ∧ (t.m_isRunning = true →
              t.m_trackerTimerInterval = max 1 (1000 / t.m_targetFPS)
              ∧ 3 ≤ t.m_trackerTimerInterval ∧ t.m_trackerTimerInterval ≤ 33))
    ∧ (∀ (t : Tracker α) (now : Int), t.m_isRunning = false → 0 < t.m_targetFPS →
        (t.start now).1.m_isRunning = true
        ∧ (t.start now).1.m_trackerTimerInterval = max 1 (1000 / (t.start now).1.m_targetFPS))
    ∧ (∀ (t : Tracker α) (fps : Int), t.m_isRunning = true →
        (t.setTargetFPS fps).m_trackerTimerInterval
          = max 1 (1000 / (t.setTargetFPS fps).m_targetFPS))
    ∧ (∀ (screens : List (QScreen M α)) (seed : Rng α) (cursor : QPoint) (now : Int),
        ((Tracker.init screens seed cursor).start now).1.m_targetFPS = 144
        ∧ ((Tracker.init screens seed cursor).start now).1.m_trackerTimerInterval = 6) := by
  refine ⟨?_, ?_, ?_, ?_⟩
  · intro screens seed cursor calls t h
    obtain ⟨⟨h1, h2⟩, hi⟩ :=
      trackerAfterFrom_controlInv calls _ t (init_controlInv screens seed cursor) h
    obtain ⟨e, lo, hi2⟩ := interval_bounds t.m_targetFPS h1 h2
    refine ⟨by omega, fun hrun => ?_⟩
    rw [hi hrun]
    exact ⟨e, lo, hi2⟩
  · intro t now hrun hpos
    have e : Int.tdiv 1000 t.m_targetFPS = 1000 / t.m_targetFPS :=
      Int.tdiv_eq_ediv (by norm_num) (by omega)
    simp only [Tracker.start, hrun, Bool.false_eq_true, if_false, e, and_self]
  · intro t fps hrun
    have hc := clamp_mem fps 30 300 (by norm_num)
    have e : Int.tdiv 1000 (clamp fps 30 300) = 1000 / clamp fps 30 300 :=
      Int.tdiv_eq_ediv (by norm_num) (by omega)
    simp only [Tracker.setTargetFPS, hrun, if_true, e]
  · intro screens seed cursor now
    exact ⟨rfl, rfl⟩

/-- C16 on a new tracker: after `start` at 144 fps the interval is 6, and after
`setTargetFPS(60)` while running it is 16 = max 1 (1000 / 60). -/
theorem tickInterval_matches_targetFPS_witness :
    trackerAfter ([] : List (QScreen (TestImage ℚ) ℚ)) constHalf ⟨0, 0⟩
        [TrackerCall.start 0, TrackerCall.setTargetFPS 60]
      = some ((plainTracker.start 0).1.setTargetFPS 60)
    ∧ ((plainTracker.start 0).1.setTargetFPS 60).m_isRunning = true
    ∧ ((plainTracker.start 0).1.setTargetFPS 60).m_trackerTimerInterval
        = max 1 (1000 / ((plainTracker.start 0).1.setTargetFPS 60).m_targetFPS)
    ∧ ((plainTracker.start 0).1.setTargetFPS 60).m_trackerTimerInterval = 16 :=
  ⟨rfl, rfl,
   (((@tickInterval_matches_targetFPS ℚ _ _ (TestImage ℚ)).1 [] constHalf ⟨0, 0⟩
      [TrackerCall.start 0, TrackerCall.setTargetFPS 60] _ rfl).2 rfl).1,
   by decide⟩

/-- C19: for a frame source with n enumerated displays and every integer index:
when index < 0 or index >= n, `setActiveMonitor(index)` returns the object as it
was and emits nothing; when 0 <= index < n the active display becomes index,
the other members stay, and exactly one `monitorChanged(index)` is emitted. -/
theorem setActiveMonitor_checks_index {β : Type} (s : ScreenCapture β) (n : Nat) (index : Int)
    (hn : s.getMonitors.length = n) :
    ((index < 0 ∨ index ≥ (n : Int)) →
      s.setActiveMonitor index = (s, [])
      ∧ (s.setActiveMonitor index).1.getActiveMonitor = s.getActiveMonitor)
    ∧ ((0 ≤ index ∧ index < (n : Int)) →
      (s.setActiveMonitor index).1.getActiveMonitor = index
      ∧ (s.setActiveMonitor index).1.getMonitors = s.getMonitors
      ∧ (s.setActiveMonitor index).1.getLastCaptureTime = s.getLastCaptureTime
      ∧ (s.setActiveMonitor index).2 = [CaptureSignal.monitorChanged index]) := by
  unfold ScreenCapture.getMonitors at hn
  constructor
  · intro h
    have e : s.setActiveMonitor index = (s, []) := by
      unfold ScreenCapture.setActiveMonitor
      rw [if_neg (by rw [hn]; omega)]
    rw [e]
    exact ⟨rfl, rfl⟩
  · intro h
    have e : s.setActiveMonitor index
        = ({ s with m_activeMonitor := index }, [CaptureSignal.monitorChanged index]) := by
      unfold ScreenCapture.setActiveMonitor
      rw [if_pos (by rw [hn]; omega)]
    rw [e]
    exact ⟨rfl, rfl, rfl, rfl⟩

/-- C19 on a frame source with two displays: index 1 is selected and announced,
index 2 and index -1 change nothing. -/
theorem setActiveMonitor_checks_index_witness :
    twoScreenCapture.getMonitors.length = 2
    ∧ (twoScreenCapture.setActiveMonitor 1).1.getActiveMonitor = 1
    ∧ (twoScreenCapture.setActiveMonitor 1).2 = [CaptureSignal.monitorChanged 1]
    ∧ twoScreenCapture.setActiveMonitor 2 = (twoScreenCapture, [])
    ∧ twoScreenCapture.setActiveMonitor (-1) = (twoScreenCapture, []) :=
  ⟨rfl,
   ((setActiveMonitor_checks_index twoScreenCapture 2 1 rfl).2 (by decide)).1,
   ((setActiveMonitor_checks_index twoScreenCapture 2 1 rfl).2 (by decide)).2.2.2,
   ((setActiveMonitor_checks_index twoScreenCapture 2 2 rfl).1 (by decide)).1,
   ((setActiveMonitor_checks_index twoScreenCapture 2 (-1) rfl).1 (by decide)).1⟩

/-- C20, the code at inputs where it departs from the claim, on a 100 x 100
frame. For the region (-10, 0, 50, 50) `captureRegion` cuts (0, 0, 50, 50), while
the region clipped to the frame is (0, 0, 40, 50). For the region
(200, 0, 50, 50) it builds the rectangle (200, 0, -100, 50), of negative width
and not inside the frame, and `captureRegion` has no result. A negative
requested width is passed on as it is. -/
theorem captureRegion_clipping_misses_cases :
    captureRegionRect 100 100 ⟨-10, 0, 50, 50⟩ = ⟨0, 0, 50, 50⟩
    ∧ clippedRegion 100 100 ⟨-10, 0, 50, 50⟩ = ⟨0, 0, 40, 50⟩
    ∧ captureRegionRect 100 100 ⟨200, 0, 50, 50⟩ = ⟨200, 0, -100, 50⟩
    ∧ ¬ roiInside 100 100 (captureRegionRect 100 100 ⟨200, 0, 50, 50⟩)
    ∧ twoScreenCapture.captureRegion testCV testSubmatrix twoScreens 4 ⟨200, 0, 50, 50⟩ = none
    ∧ captureRegionRect 100 100 ⟨10, 10, -5, 20⟩ = ⟨10, 10, -5, 20⟩ :=
  ⟨by decide, by decide, by decide, by decide, by decide, by decide⟩

/-- C21, the code where no display is available: with an empty list of screens
the constructor leaves the active index 0 and no monitors, the guarded readers
fall back to their defaults, and `capture`, which indexes the list of screens
without a guard, has no defined result, for every object and so for every
value of the active index; a tick of the tracker then has none either. -/
theorem capture_without_display_undefined [FloorRing α] {M : Type} :
    (∀ (s : ScreenCapture α) (elapsed : Int),
        s.capture ([] : List (QScreen M α)) elapsed = none)
    ∧ (ScreenCapture.init ([] : List (QScreen M α)) : ScreenCapture α).getActiveMonitor = 0
    ∧ (ScreenCapture.init ([] : List (QScreen M α)) : ScreenCapture α).getMonitors = []
    ∧ (ScreenCapture.init ([] : List (QScreen M α)) : ScreenCapture α).getScreenSize = (1920, 1080)
    ∧ (∀ (cv : OpenCV M α) (sqrt : α → α) (captureElapsed detectElapsed : Int) (t : Tracker α),
        (t.setEnabled true).onTrackerTick ⟨cv, sqrt, [], captureElapsed, detectElapsed⟩ = none) := by
  have hcap : ∀ (s : ScreenCapture α) (elapsed : Int),
      s.capture ([] : List (QScreen M α)) elapsed = none := by
    intro s elapsed
    unfold ScreenCapture.capture
    split_ifs <;> rfl
  refine ⟨hcap, rfl, rfl, rfl, ?_⟩
  intro cv sqrt e1 e2 t
  unfold Tracker.onTrackerTick
  rw [if_neg (by simp [Tracker.setEnabled])]
  have : (t.setEnabled true).processFrame ⟨cv, sqrt, [], e1, e2⟩ = none := by
    unfold Tracker.processFrame
    rw [hcap]
  rw [this]

/-- C25: a tick on a tracker whose enabled flag is false has a result whatever
the screens are, returns the tracker as it was (frame counter, targets counter,
assist counter, components all unchanged) and emits nothing, from the tracker,
the extractor or the mouse controller; `setEnabled(false)` leaves the running
flag and the timers as they were; after `setEnabled(true)` a tick is
`processFrame` followed by one increment of the frame counter, and when it has
a result a frame was captured (the capture time is recorded) and the frame
counter is one higher. -/
theorem disabled_tick_is_noop [FloorRing α] {M : Type} (env : TickEnv M α) (t : Tracker α) :
    (t.m_isEnabled = false → t.onTrackerTick env = some ⟨t, [], [], []⟩)
    ∧ (t.setEnabled false).onTrackerTick env = some ⟨t.setEnabled false, [], [], []⟩
    ∧ ((t.setEnabled false).isRunning = t.isRunning
        ∧ (t.setEnabled false).m_trackerTimerActive = t.m_trackerTimerActive
        ∧ (t.setEnabled false).m_statsTimerActive = t.m_statsTimerActive
        ∧ (t.setEnabled false).m_frameCount = t.m_frameCount
        ∧ (t.setEnabled false).getTotalTargetsDetected = t.getTotalTargetsDetected
        ∧ (t.setEnabled false).getTotalAssists = t.getTotalAssists)
    ∧ (t.setEnabled true).onTrackerTick env
        = ((t.setEnabled true).processFrame env).map
            (fun r => { r with state := { r.state with m_frameCount := r.state.m_frameCount + 1 } })
    ∧ (∀ r, (t.setEnabled true).onTrackerTick env = some r →
        r.state.m_frameCount = t.m_frameCount + 1
        ∧ r.state.m_screenCapture.getLastCaptureTime = (env.captureElapsed : α)) := by
  have hoff : ∀ t0 : Tracker α, t0.m_isEnabled = false →
      t0.onTrackerTick env = some ⟨t0, [], [], []⟩ := by
    intro t0 h
    unfold Tracker.onTrackerTick
    rw [if_pos (by simp [h])]
  have hon : (t.setEnabled true).onTrackerTick env
      = ((t.setEnabled true).processFrame env).map
          (fun r => { r with state := { r.state with m_frameCount := r.state.m_frameCount + 1 } }) := by
    unfold Tracker.onTrackerTick
    rw [if_neg (by simp [Tracker.setEnabled])]
    cases (t.setEnabled true).processFrame env <;> rfl
  refine ⟨hoff t, hoff _ rfl, ⟨rfl, rfl, rfl, rfl, rfl, rfl⟩, hon, ?_⟩
  intro r hr
  rw [hon] at hr
  cases hp : (t.setEnabled true).processFrame env with
  | none => simp [hp] at hr
  | some r0 =>
    simp only [hp, Option.map_some', Option.some.injEq] at hr
    obtain ⟨_, _, _, hfc⟩ := processFrame_keeps_control env _ r0 hp
    obtain ⟨frame, hcap⟩ := processFrame_capture env _ r0 hp
    have hsc := capture_some _ _ _ _ _ hcap
    subst hr
    constructor
    · show r0.state.m_frameCount + 1 = t.m_frameCount + 1
      rw [hfc]
      rfl
    · show r0.state.m_screenCapture.m_lastCaptureTime = (env.captureElapsed : α)
      rw [hsc]

/-- C25 on a disabled tracker in front of a screen that shows a target: the tick
returns the tracker unchanged and emits nothing. -/
theorem disabled_tick_is_noop_witness :
    (squareTracker.setEnabled false).m_isEnabled = false
    ∧ (squareTracker.setEnabled false).onTrackerTick squareEnv
        = some ⟨squareTracker.setEnabled false, [], [], []⟩ :=
  ⟨rfl, (disabled_tick_is_noop squareEnv (squareTracker.setEnabled false)).1 rfl⟩

/-- C27: `detect` does not depend on the point passed to it: two calls that
differ in that argument only give the same targets, the same object and the
same signals. On a non-empty frame of `cols` columns and `rows` rows the
targets are those found in the color mask intersected with
`createFOVMask(size, (cols / 2, rows / 2), m_fovRadius)`, which is the filled
circle of that center and radius drawn on a zero image of the size of the
frame, morphology applied when enabled; for a size that is not negative the
truncating division by 2 is the floor division. -/
theorem detect_fov_mask_at_frame_center [FloorRing α] {M : Type} (cv : OpenCV M α)
    (sqrt : α → α) (elapsed : Int) (s : ColorDetection α) (frame : M)
    (hne : cv.empty frame = false) :
    (∀ c1 c2 : QPoint, detect cv sqrt elapsed s frame c1 = detect cv sqrt elapsed s frame c2)
    ∧ (∀ fovCenter : QPoint,
        (detect cv sqrt elapsed s frame fovCenter).targets
          = findTargets cv sqrt s
              (if s.m_morphologyEnabled = true then
                applyMorphology cv
                  (cv.bitwise_and
                    (cv.inRange (cv.cvtColorBGR2HSV frame)
                      (calculateColorRange s.m_targetColor s.m_colorTolerance).lower
                      (calculateColorRange s.m_targetColor s.m_colorTolerance).upper)
                    (createFOVMask cv (cv.cols frame) (cv.rows frame)
                      ⟨Int.tdiv (cv.cols frame) 2, Int.tdiv (cv.rows frame) 2⟩ s.getFOVRadius))
              else
                cv.bitwise_and
                  (cv.inRange (cv.cvtColorBGR2HSV frame)
                    (calculateColorRange s.m_targetColor s.m_colorTolerance).lower
                    (calculateColorRange s.m_targetColor s.m_colorTolerance).upper)
                  (createFOVMask cv (cv.cols frame) (cv.rows frame)
                    ⟨Int.tdiv (cv.cols frame) 2, Int.tdiv (cv.rows frame) 2⟩ s.getFOVRadius))
              ⟨Int.tdiv (cv.cols frame) 2, Int.tdiv (cv.rows frame) 2⟩)
    ∧ createFOVMask cv (cv.cols frame) (cv.rows frame)
          ⟨Int.tdiv (cv.cols frame) 2, Int.tdiv (cv.rows frame) 2⟩ s.getFOVRadius
        = cv.circle (cv.zeros (cv.cols frame) (cv.rows frame))
            ⟨Int.tdiv (cv.cols frame) 2, Int.tdiv (cv.rows frame) 2⟩ s.m_fovRadius
    ∧ (0 ≤ cv.cols frame → Int.tdiv (cv.cols frame) 2 = cv.cols frame / 2)
    ∧ (0 ≤ cv.rows frame → Int.tdiv (cv.rows frame) 2 = cv.rows frame / 2) := by
  refine ⟨fun _ _ => rfl, ?_, rfl, fun h => Int.tdiv_eq_ediv h (by norm_num),
    fun h => Int.tdiv_eq_ediv h (by norm_num)⟩
  intro fovCenter
  unfold detect
  rw [if_neg (by simp [hne])]
  rfl

/-- C27 on the 100 x 100 frame showing one square: the points (53, 54) and (0, 0)
give the same result. -/
theorem detect_fov_mask_at_frame_center_witness :
    testCV.empty squareFrame = false
    ∧ detect testCV qsqrt 3 ColorDetection.init squareFrame ⟨53, 54⟩
        = detect testCV qsqrt 3 ColorDetection.init squareFrame ⟨0, 0⟩ :=
  ⟨by decide,
   (detect_fov_mask_at_frame_center testCV qsqrt 3 ColorDetection.init squareFrame
      (by decide)).1 ⟨53, 54⟩ ⟨0, 0⟩⟩

/-- C28: for every setting of the area bounds and every list of contours, every
target returned by `findTargets` is built from a contour whose zeroth moment is
not 0, so a contour with `m00 = 0` yields no target; when every contour has
`m00 = 0` the result is empty; and the loop with checked divisions never
divides by a zero `m00`: it returns what the loop returns. -/
theorem findTargets_skips_zero_moment [FloorRing α] {M : Type} (cv : OpenCV M α)
    (sqrt : α → α) (s : ColorDetection α) (mask : M) (center : QPoint) :
    (∀ t ∈ findTargets cv sqrt s mask center,
        ∃ c ∈ cv.findContours mask, c.m00 ≠ 0 ∧ makeTarget sqrt s center c = t)
    ∧ ((∀ c ∈ cv.findContours mask, c.m00 = 0) → findTargets cv sqrt s mask center = [])
    ∧ (∀ (contours : List (Contour α)) (targets : List (DetectedTarget α)),
        findTargetsLoopChecked sqrt s center contours targets
          = some (findTargetsLoop sqrt s center contours targets))
    ∧ (∀ c : Contour α, c.m00 = 0 → ∀ targets : List (DetectedTarget α),
        findTargetsLoop sqrt s center [c] targets = targets) := by
  refine ⟨?_, ?_, findTargetsLoopChecked_eq sqrt s center, ?_⟩
  · intro t ht
    obtain ⟨c, hc, ⟨_, _, h3⟩, rfl⟩ := (mem_findTargets cv sqrt s mask center t).mp ht
    exact ⟨c, hc, h3, rfl⟩
  · intro hall
    apply List.eq_nil_iff_forall_not_mem.mpr
    intro t ht
    obtain ⟨c, hc, ⟨_, _, h3⟩, _⟩ := (mem_findTargets cv sqrt s mask center t).mp ht
    exact h3 (hall c hc)
  · intro c hc targets
    simp only [findTargetsLoop, hc, if_true]
    split_ifs <;> rfl

/-- C28 with the lower area bound -1 on a frame showing a contour with `m00 = 0`
and a square: only the square gives a target. -/
theorem findTargets_skips_zero_moment_witness :
    degenerateContour ∈ testCV.findContours degenerateFrame
    ∧ degenerateContour.m00 = 0
    ∧ anyAreaDetection.getMinArea ≤ 0
    ∧ findTargets testCV qsqrt anyAreaDetection degenerateFrame ⟨50, 50⟩ = [squareTarget]
    ∧ findTargetsLoop qsqrt anyAreaDetection ⟨50, 50⟩ [degenerateContour] [] = [] := by
  refine ⟨by simp [testCV, degenerateFrame], rfl, ?_, ?_,
    (findTargets_skips_zero_moment testCV qsqrt anyAreaDetection degenerateFrame ⟨50, 50⟩).2.2.2
      degenerateContour rfl []⟩
  · norm_num [anyAreaDetection, ColorDetection.getMinArea, ColorDetection.setMinArea]
  · simp [findTargets, findTargetsLoop, testCV, degenerateFrame, degenerateContour,
      squareContour, anyAreaDetection, ColorDetection.setMinArea, ColorDetection.init, stdSort,
      makeTarget, calculateConfidence, truncToInt, qsqrt, squareTarget]
    norm_num

/-- C29 (as amended): in binary64 arithmetic, for a response speed in 0..100, a
randomization factor f in 0..1 and a draw in 0..1, with B the base delay as the
code computes it, `1000.0 * (1.0 - speed / 100.0)`: B lies in 0..1000 and within
2^-41 of the exact 1000 * (1 - speed / 100); the delay of `getRandomDelay` is
the rounded sum of B and the variation, unchanged by the floor at 0 (the sum
before the floor is the value returned); it lies between the doubles B - B * f
and B + B * f, within 2^-39 of the exact interval from B * (1 - f) to
B * (1 + f), and between 0 and 2000; with f = 0 it is B itself; and all of this
holds in every state reached from the constructor by setter calls whose
arguments are numbers, when the first draw of the generator lies in 0..1. -/
theorem getRandomDelay64_within_variation (m : MouseController ℚ)
    (hs0 : 0 ≤ m.getResponseSpeed) (hs1 : m.getResponseSpeed ≤ 100)
    (hf0 : 0 ≤ m.getRandomizationFactor) (hf1 : m.getRandomizationFactor ≤ 1)
    (hr0 : 0 ≤ m.m_rng 0) (hr1 : m.m_rng 0 ≤ 1) :
    (0 ≤ baseDelay64 m.m_responseSpeed ∧ baseDelay64 m.m_responseSpeed ≤ 1000
      ∧ |baseDelay64 m.m_responseSpeed - 1000 * (1 - (m.m_responseSpeed : ℚ) / 100)|
          ≤ 1 / 2 ^ (41 : Nat))
    ∧ (getRandomDelay64 m).1
        = fadd (baseDelay64 m.m_responseSpeed)
            (fmul (fmul (baseDelay64 m.m_responseSpeed) m.m_randomizationFactor)
                  (fsub (fmul (m.m_rng 0) 2) 1))
    ∧ getRandomDelayNaN64 m (some m.m_randomizationFactor)
        = (some (getRandomDelay64 m).1, (getRandomDelay64 m).1)
    ∧ fsub (baseDelay64 m.m_responseSpeed)
          (fmul (baseDelay64 m.m_responseSpeed) m.m_randomizationFactor)
        ≤ (getRandomDelay64 m).1
    ∧ (getRandomDelay64 m).1
        ≤ fadd (baseDelay64 m.m_responseSpeed)
            (fmul (baseDelay64 m.m_responseSpeed) m.m_randomizationFactor)
    ∧ 1000 * (1 - (m.m_responseSpeed : ℚ) / 100) * (1 - m.m_randomizationFactor)
          - 1 / 2 ^ (39 : Nat) ≤ (getRandomDelay64 m).1
    ∧ (getRandomDelay64 m).1
        ≤ 1000 * (1 - (m.m_responseSpeed : ℚ) / 100) * (1 + m.m_randomizationFactor)
          + 1 / 2 ^ (39 : Nat)
    ∧ 0 ≤ (getRandomDelay64 m).1
    ∧ (getRandomDelay64 m).1 ≤ 2000
    ∧ (m.m_randomizationFactor = 0 → (getRandomDelay64 m).1 = baseDelay64 m.m_responseSpeed)
    ∧ (∀ (seed : Rng ℚ) (cursor : QPoint) (calls : List (MouseSetter ℚ)),
        0 ≤ seed 0 → seed 0 ≤ 1 →
          (0 ≤ (mouseAfter64 seed cursor calls).getResponseSpeed
            ∧ (mouseAfter64 seed cursor calls).getResponseSpeed ≤ 100)
          ∧ (0 ≤ (mouseAfter64 seed cursor calls).getRandomizationFactor
            ∧ (mouseAfter64 seed cursor calls).getRandomizationFactor ≤ 1)
          ∧ (getRandomDelay64 (mouseAfter64 seed cursor calls)).1
              = fadd (baseDelay64 (mouseAfter64 seed cursor calls).m_responseSpeed)
                  (fmul (fmul (baseDelay64 (mouseAfter64 seed cursor calls).m_responseSpeed)
                          (mouseAfter64 seed cursor calls).m_randomizationFactor)
                        (fsub (fmul (seed 0) 2) 1))
          ∧ fsub (baseDelay64 (mouseAfter64 seed cursor calls).m_responseSpeed)
                (fmul (baseDelay64 (mouseAfter64 seed cursor calls).m_responseSpeed)
                  (mouseAfter64 seed cursor calls).m_randomizationFactor)
              ≤ (getRandomDelay64 (mouseAfter64 seed cursor calls)).1
          ∧ (getRandomDelay64 (mouseAfter64 seed cursor calls)).1
              ≤ fadd (baseDelay64 (mouseAfter64 seed cursor calls).m_responseSpeed)
                  (fmul (baseDelay64 (mouseAfter64 seed cursor calls).m_responseSpeed)
                    (mouseAfter64 seed cursor calls).m_randomizationFactor)
          ∧ 0 ≤ (getRandomDelay64 (mouseAfter64 seed cursor calls)).1
          ∧ (getRandomDelay64 (mouseAfter64 seed cursor calls)).1 ≤ 2000) := by
  obtain ⟨b1, b2, _, b4⟩ := baseDelay64_bounds m.m_responseSpeed hs0 hs1
  obtain ⟨d1, d2, d3, d4, d5⟩ := getRandomDelay64_bounds m hs0 hs1 hf0 hf1 hr0 hr1
  obtain ⟨v1, v2⟩ := getRandomDelay64_envelope m hs0 hs1 hf0 hf1 hr0 hr1
  have hnan : getRandomDelayNaN64 m (some m.m_randomizationFactor)
      = (some (getRandomDelay64 m).1, (getRandomDelay64 m).1) := by
    rw [getRandomDelayNaN64_some, ← d1]
  refine ⟨⟨b1, b2, b4⟩, d1, hnan, d2, d3, v1, v2, d4, d5,
    getRandomDelay64_factor_zero m hs0 hs1, ?_⟩
  intro seed cursor calls h0 h1
  have hinit : (MouseController.init64 seed cursor).inRanges := by
    simp [MouseController.inRanges, MouseController.init64, MouseController.init]
  have hfinit : 0 ≤ (MouseController.init64 seed cursor).m_randomizationFactor
      ∧ (MouseController.init64 seed cursor).m_randomizationFactor ≤ 1 := rnd64_three_tenths
  obtain ⟨_, hsp⟩ := mouseSetters_keep_ranges calls _ hinit
  obtain ⟨hf, hrng⟩ := mouseSetters_keep_factor calls _ hfinit
  have hrng2 : (mouseAfter64 seed cursor calls).m_rng = seed := hrng
  have key := getRandomDelay64_bounds (mouseAfter64 seed cursor calls) hsp.1 hsp.2 hf.1 hf.2
    (by rw [hrng2]; exact h0) (by rw [hrng2]; exact h1)
  rw [hrng2] at key
  exact ⟨hsp, hf, key⟩

/-- C29 on the default controller in binary64 (speed 50, factor 0.3, draw 1/2):
the delay is 500 ms. -/
theorem getRandomDelay64_within_variation_witness :
    defaultController64.getResponseSpeed = 50
    ∧ (0 ≤ defaultController64.getRandomizationFactor
        ∧ defaultController64.getRandomizationFactor ≤ 1)
    ∧ defaultController64.m_rng 0 = 1 / 2
    ∧ (getRandomDelay64 defaultController64).1 = 500
    ∧ getRandomDelayNaN64 defaultController64 (some defaultController64.m_randomizationFactor)
        = (some (getRandomDelay64 defaultController64).1, (getRandomDelay64 defaultController64).1)
    ∧ fsub (baseDelay64 defaultController64.m_responseSpeed)
          (fmul (baseDelay64 defaultController64.m_responseSpeed)
            defaultController64.m_randomizationFactor)
        ≤ (getRandomDelay64 defaultController64).1
    ∧ (getRandomDelay64 defaultController64).1
        ≤ fadd (baseDelay64 defaultController64.m_responseSpeed)
            (fmul (baseDelay64 defaultController64.m_responseSpeed)
              defaultController64.m_randomizationFactor)
    ∧ 0 ≤ (getRandomDelay64 defaultController64).1
    ∧ (getRandomDelay64 defaultController64).1 ≤ 2000 := by
  have h := getRandomDelay64_within_variation defaultController64 (by decide) (by decide)
    rnd64_three_tenths.1 rnd64_three_tenths.2
    (by norm_num [defaultController64, MouseController.init64, MouseController.init, constHalf])
    (by norm_num [defaultController64, MouseController.init64, MouseController.init, constHalf])
  exact ⟨rfl, rnd64_three_tenths, rfl, defaultController64_delay, h.2.2.1, h.2.2.2.1,
    h.2.2.2.2.1, h.2.2.2.2.2.2.2.1, h.2.2.2.2.2.2.2.2.1⟩

/-- C29 as stated fails: after `setResponseSpeed(80)` and
`setRandomizationFactor(0.0)` the delay is the double 199.99999999999994
(3518437208883199 / 2^44), below B * (1 - f) = 1000 * (1 - 80 / 100) * (1 - 0) = 200;
and `setRandomizationFactor(NaN)` stores NaN, with which the sum of the base
delay and the variation is NaN and the floor returns 0 in its place. -/
theorem getRandomDelay64_below_exact_bound :
    speed80Controller64.getResponseSpeed = 80
    ∧ speed80Controller64.getRandomizationFactor = 0
    ∧ (0 ≤ speed80Controller64.m_rng 0 ∧ speed80Controller64.m_rng 0 ≤ 1)
    ∧ (getRandomDelay64 speed80Controller64).1 = 3518437208883199 / 17592186044416
    ∧ (getRandomDelay64 speed80Controller64).1
        < 1000 * (1 - ((speed80Controller64.getResponseSpeed : Int) : ℚ) / 100)
            * (1 - speed80Controller64.getRandomizationFactor)
    ∧ clampFactorNaN64 none = none
    ∧ getRandomDelayNaN64 defaultController64 (clampFactorNaN64 none) = (none, 0) := by
  have hs : speed80Controller64.getResponseSpeed = 80 := by decide
  have hf : speed80Controller64.getRandomizationFactor = 0 := by
    simp [speed80Controller64, MouseController.setRandomizationFactor,
      MouseController.getRandomizationFactor, clamp]
  have hr : speed80Controller64.m_rng 0 = 1 / 2 := rfl
  have hd : (getRandomDelay64 speed80Controller64).1 = 3518437208883199 / 17592186044416 := by
    have := getRandomDelay64_factor_zero speed80Controller64 (by decide) (by decide) hf
    rw [this]
    exact baseDelay64_eighty
  refine ⟨hs, hf, ⟨by rw [hr]; norm_num, by rw [hr]; norm_num⟩, hd, ?_, rfl, rfl⟩
  rw [hd, hs, hf]
  norm_num

/-- C30 (as amended): in binary64 arithmetic, with humanization disabled and a
strength in 1..100, for a vector to the target whose components are `int`
values: each component of the delta that `applyAimAssist` applies is the
truncation of the scaled component of the vector; it lies between 0 and that
component (it is zero or has that component's sign, and its absolute value is
no larger); the call is one smooth move to the current position plus the delta,
or one relative move by the delta; with strength 100 the delta is the vector
itself, so the smooth move is requested to the target point and the relative
move ends on it. -/
theorem applyAimAssist64_no_overshoot (sqrt : ℚ → ℚ) (m : MouseController ℚ)
    (targetPos : QPoint) (hh : m.m_humanizeEnabled = false)
    (hs1 : 1 ≤ m.getAimAssistStrength) (hs2 : m.getAimAssistStrength ≤ 100)
    (hx : INT_MIN ≤ targetPos.x - m.getCurrentPosition.x
      ∧ targetPos.x - m.getCurrentPosition.x ≤ INT_MAX)
    (hy : INT_MIN ≤ targetPos.y - m.getCurrentPosition.y
      ∧ targetPos.y - m.getCurrentPosition.y ≤ INT_MAX) :
    ∃ (δ : QPoint) (m2 : MouseController ℚ) (D : Int),
      δ = (assistDelta64 m targetPos).1
      ∧ δ = ⟨truncToInt (fmul ((targetPos.x - m.getCurrentPosition.x : Int) : ℚ)
                (fdiv (m.m_aimAssistStrength : ℚ) 100)),
             truncToInt (fmul ((targetPos.y - m.getCurrentPosition.y : Int) : ℚ)
                (fdiv (m.m_aimAssistStrength : ℚ) 100))⟩
      ∧ m2.getCurrentPosition = m.getCurrentPosition
      ∧ (applyAimAssist64 sqrt m targetPos
            = moveSmoothly64 sqrt m2
                ⟨m.getCurrentPosition.x + δ.x, m.getCurrentPosition.y + δ.y⟩ D
          ∨ applyAimAssist64 sqrt m targetPos = some (moveRelative m2 δ.x δ.y))
      ∧ (0 ≤ targetPos.x - m.getCurrentPosition.x
            → 0 ≤ δ.x ∧ δ.x ≤ targetPos.x - m.getCurrentPosition.x)
      ∧ (targetPos.x - m.getCurrentPosition.x ≤ 0
            → targetPos.x - m.getCurrentPosition.x ≤ δ.x ∧ δ.x ≤ 0)
      ∧ (0 ≤ targetPos.y - m.getCurrentPosition.y
            → 0 ≤ δ.y ∧ δ.y ≤ targetPos.y - m.getCurrentPosition.y)
      ∧ (targetPos.y - m.getCurrentPosition.y ≤ 0
            → targetPos.y - m.getCurrentPosition.y ≤ δ.y ∧ δ.y ≤ 0)
      ∧ (m.getAimAssistStrength = 100 →
            δ = ⟨targetPos.x - m.getCurrentPosition.x, targetPos.y - m.getCurrentPosition.y⟩
            ∧ (applyAimAssist64 sqrt m targetPos = moveSmoothly64 sqrt m2 targetPos D
                ∨ (applyAimAssist64 sqrt m targetPos = some (moveRelative m2 δ.x δ.y)
                    ∧ (moveRelative m2 δ.x δ.y).1.getCurrentPosition = targetPos))) := by
  simp only [MouseController.getAimAssistStrength, MouseController.getCurrentPosition] at *
  have hδ := (assistDelta64_delta m targetPos).1 hh
  simp only [MouseController.getCurrentPosition] at hδ
  have hne : m.m_aimAssistStrength ≠ 0 := by omega
  have hb := applyAimAssist64_branches sqrt m targetPos hne
  have hst := assist64_draws_state m targetPos
  have hc : (getRandomDelay64 (assistDelta64 m targetPos).2).2.cursor = m.cursor := by
    rw [hst]
  obtain ⟨hk0, hk1, hk100⟩ := strength64_bounds m.m_aimAssistStrength (by omega) hs2
  obtain ⟨x1, x2, x3⟩ := truncToInt_scaled64 (targetPos.x - m.cursor.x)
    (fdiv (m.m_aimAssistStrength : ℚ) 100) hx hk0 hk1
  obtain ⟨y1, y2, y3⟩ := truncToInt_scaled64 (targetPos.y - m.cursor.y)
    (fdiv (m.m_aimAssistStrength : ℚ) 100) hy hk0 hk1
  have hbr : applyAimAssist64 sqrt m targetPos
        = moveSmoothly64 sqrt (getRandomDelay64 (assistDelta64 m targetPos).2).2
            ⟨m.cursor.x + (assistDelta64 m targetPos).1.x,
             m.cursor.y + (assistDelta64 m targetPos).1.y⟩
            (truncToInt (max 10 (fmul (getRandomDelay64 (assistDelta64 m targetPos).2).1 (1 / 2))))
      ∨ applyAimAssist64 sqrt m targetPos
        = some (moveRelative (getRandomDelay64 (assistDelta64 m targetPos).2).2
            (assistDelta64 m targetPos).1.x (assistDelta64 m targetPos).1.y) := by
    rw [hb]
    split_ifs
    · exact Or.inl rfl
    · exact Or.inr rfl
  refine ⟨(assistDelta64 m targetPos).1, (getRandomDelay64 (assistDelta64 m targetPos).2).2,
    truncToInt (max 10 (fmul (getRandomDelay64 (assistDelta64 m targetPos).2).1 (1 / 2))),
    rfl, hδ, hc, hbr, ?_, ?_, ?_, ?_, ?_⟩
  · rw [hδ]
    exact x1
  · rw [hδ]
    exact x2
  · rw [hδ]
    exact y1
  · rw [hδ]
    exact y2
  · intro h100
    have hfull : (assistDelta64 m targetPos).1
        = ⟨targetPos.x - m.cursor.x, targetPos.y - m.cursor.y⟩ := by
      rw [hδ, x3 (hk100 h100), y3 (hk100 h100)]
    have hpt : (⟨m.cursor.x + (targetPos.x - m.cursor.x),
        m.cursor.y + (targetPos.y - m.cursor.y)⟩ : QPoint) = targetPos := by
      cases targetPos
      simp
    refine ⟨hfull, ?_⟩
    rcases hbr with h | h
    · left
      rw [h, hfull, hpt]
    · right
      refine ⟨h, ?_⟩
      rw [hfull]
      simp only [moveRelative, platformMoveRelative, hc]
      exact hpt

/-- C30 on the controller without humanization and with strength 100 in
binary64, the pointer at (0, 0) and the target at (50, -20): the delta is
(50, -20). -/
theorem applyAimAssist64_no_overshoot_witness :
    fullStrengthController64.m_humanizeEnabled = false
    ∧ fullStrengthController64.getAimAssistStrength = 100
    ∧ fullStrengthController64.getCurrentPosition = ⟨0, 0⟩
    ∧ (assistDelta64 fullStrengthController64 ⟨50, -20⟩).1 = ⟨50, -20⟩ := by
  obtain ⟨δ, m2, D, h1, _, _, _, _, _, _, _, h9⟩ :=
    applyAimAssist64_no_overshoot qsqrt fullStrengthController64 ⟨50, -20⟩ rfl
      (by decide) (by decide) (by decide) (by decide)
  refine ⟨rfl, by decide, rfl, ?_⟩
  rw [← h1, (h9 (by decide)).1]
  rfl

/-- C30 as stated fails: in binary64, with humanization disabled, strength 30, the
pointer at (0, 0) and the target at (1, 0), the vector to the target has x
component 1 (sign 1) and the delta has x component trunc(1 * 0.3) = 0 (sign 0). -/
theorem assistDelta64_zero_for_near_target :
    plainController64.m_humanizeEnabled = false
    ∧ plainController64.getAimAssistStrength = 30
    ∧ plainController64.getCurrentPosition = ⟨0, 0⟩
    ∧ (assistDelta64 plainController64 ⟨1, 0⟩).1 = ⟨0, 0⟩
    ∧ Int.sign (assistDelta64 plainController64 ⟨1, 0⟩).1.x
        ≠ Int.sign (1 - plainController64.getCurrentPosition.x) := by
  have hd : (assistDelta64 plainController64 ⟨1, 0⟩).1 = ⟨0, 0⟩ := by
    rw [(assistDelta64_delta plainController64 ⟨1, 0⟩).1 rfl]
    show (⟨truncToInt (fmul (((1 - 0 : Int) : Int) : ℚ) (fdiv ((30 : Int) : ℚ) 100)),
           truncToInt (fmul (((0 - 0 : Int) : Int) : ℚ) (fdiv ((30 : Int) : ℚ) 100))⟩
        : QPoint) = ⟨0, 0⟩
    unfold fmul fdiv
    have a1 : ((30 : Int) : ℚ) / 100 = 3 / 10 := by norm_num
    have a2 : (((1 - 0 : Int) : Int) : ℚ) * rnd64 (3 / 10) = rnd64 (3 / 10) := by norm_num
    have a3 : (((0 - 0 : Int) : Int) : ℚ) * rnd64 (3 / 10) = 0 := by norm_num
    rw [a1, a2, a3, rnd64_idem, rnd64_zero, rnd64_three_tenths_eq]
    rw [truncToInt_eval (5404319552844595 / 18014398509481984) 0 (by norm_num) (by norm_num)
      (by norm_num), truncToInt_eval 0 0 (by norm_num) (by norm_num) (by norm_num)]
  refine ⟨rfl, by decide, rfl, hd, ?_⟩
  rw [hd]
  decide

/-- C23 (as amended): for every duration below `INT_MAX` (zero and negative
values included), with the timer interval 1, `moveSmoothly` has a result and
stores a path of max(10, durationMs / interval) + 1 points, which is
max(10, durationMs) + 1, at least 11; the index is set to 0; the stored path
does not depend on the path and the index that were stored before the call;
and the timer interval is 1 after the constructor and any sequence of calls. -/
theorem moveSmoothly64_step_count (sqrt : ℚ → ℚ) (m : MouseController ℚ) (target : QPoint)
    (durationMs : Int) (hint : m.m_timerInterval = 1) (hd : durationMs < INT_MAX) :
    (∃ r, moveSmoothly64 sqrt m target durationMs = some r
      ∧ r.1.m_currentPath.length = (max 10 (Int.tdiv durationMs m.m_timerInterval)).toNat + 1
      ∧ r.1.m_currentPath.length = (max 10 durationMs).toNat + 1
      ∧ 11 ≤ r.1.m_currentPath.length
      ∧ r.1.m_pathIndex = 0
      ∧ (∀ (oldPath : List (BezierPoint ℚ)) (oldIndex : Int),
          ∃ r2, moveSmoothly64 sqrt { m with m_currentPath := oldPath, m_pathIndex := oldIndex }
              target durationMs = some r2
            ∧ r2.1.m_currentPath = r.1.m_currentPath
            ∧ r2.1.m_pathIndex = 0))
    ∧ (∀ (seed : Rng ℚ) (cursor : QPoint) (calls : List (MouseCall ℚ)) (m1 : MouseController ℚ),
        mouseAfterCalls64 sqrt seed cursor calls = some m1 → m1.m_timerInterval = 1) := by
  constructor
  · obtain ⟨path, g, _, hlen, hms⟩ := moveSmoothly64_defined sqrt m target durationMs hint hd
    have hl : ({ m with
          m_rng := if m.m_humanizeEnabled = true then
              (addMicroMovements64 { m with m_rng := g } path).2.m_rng else g
          m_currentPath := if m.m_humanizeEnabled = true then
              (addMicroMovements64 { m with m_rng := g } path).1 else path
          m_pathIndex := 0
          m_targetPosition := target
          m_isMoving := true
          m_timerActive := true } : MouseController ℚ).m_currentPath.length
        = (max 10 durationMs).toNat + 1 := by
      dsimp only
      split_ifs
      · rw [(addMicroMovements64_facts _ path).1]
        exact hlen
      · exact hlen
    have h10 : (10 : Int) ≤ max 10 durationMs := le_max_left _ _
    refine ⟨_, hms, ?_, hl, ?_, rfl, ?_⟩
    · rw [hl, hint, Int.tdiv_one]
    · rw [hl]
      omega
    · intro oldPath oldIndex
      obtain ⟨r, r2, h1, h2, h3, h4⟩ :=
        moveSmoothly64_replaces sqrt m target durationMs hint hd oldPath oldIndex
      have e : r = _ := Option.some.inj (h1.symm.trans hms)
      exact ⟨r2, h2, by rw [h3, e], h4⟩
  · intro seed cursor calls m1 h
    exact mouseAfterCallsFrom64_interval sqrt calls _ m1 rfl h

/-- C23 on the default controller in binary64: durations 250, 0 and -5 give paths
of 251, 11 and 11 points. -/
theorem moveSmoothly64_step_count_witness :
    defaultController64.m_timerInterval = 1
    ∧ (∃ r, moveSmoothly64 qsqrt defaultController64 ⟨30, 12⟩ 250 = some r
        ∧ r.1.m_currentPath.length = 251)
    ∧ (∃ r, moveSmoothly64 qsqrt defaultController64 ⟨30, 12⟩ 0 = some r
        ∧ r.1.m_currentPath.length = 11)
    ∧ (∃ r, moveSmoothly64 qsqrt defaultController64 ⟨30, 12⟩ (-5) = some r
        ∧ r.1.m_currentPath.length = 11) := by
  obtain ⟨r1, a1, _, a3, _⟩ :=
    (moveSmoothly64_step_count qsqrt defaultController64 ⟨30, 12⟩ 250 rfl (by decide)).1
  obtain ⟨r2, b1, _, b3, _⟩ :=
    (moveSmoothly64_step_count qsqrt defaultController64 ⟨30, 12⟩ 0 rfl (by decide)).1
  obtain ⟨r3, c1, _, c3, _⟩ :=
    (moveSmoothly64_step_count qsqrt defaultController64 ⟨30, 12⟩ (-5) rfl (by decide)).1
  exact ⟨rfl, ⟨r1, a1, a3⟩, ⟨r2, b1, b3⟩, ⟨r3, c1, c3⟩⟩

/-- C23 as stated fails: for the duration `INT_MAX` = 2147483647 on the default
controller (timer interval 1) the step count is `INT_MAX`, the loop
`for (int i = 0; i <= steps; ++i)` of `generateBezierPath` has no `int` at which
it ends, and `moveSmoothly` stores no path. -/
theorem moveSmoothly64_no_path_at_int_max :
    defaultController64.m_timerInterval = 1
    ∧ max 10 (Int.tdiv INT_MAX defaultController64.m_timerInterval) = INT_MAX
    ∧ generateBezierPath64 qsqrt defaultController64.m_rng
        defaultController64.getCurrentPosition ⟨30, 12⟩ INT_MAX = none
    ∧ moveSmoothly64 qsqrt defaultController64 ⟨30, 12⟩ INT_MAX = none := by
  have h1 : max 10 (Int.tdiv INT_MAX defaultController64.m_timerInterval) = INT_MAX := by decide
  have h2 := (generateBezierPath64_some qsqrt defaultController64.m_rng
    defaultController64.cursor ⟨30, 12⟩ INT_MAX).2 (le_refl _)
  refine ⟨rfl, h1, h2, ?_⟩
  apply (moveSmoothly64_none qsqrt defaultController64 ⟨30, 12⟩ INT_MAX).2
  rw [h1]
  exact h2

/-- C11 (as amended): in binary64 arithmetic, for every point p with `int`
coordinates, every step count from 1 up to below `INT_MAX` and every outcome of
the draws, `generateBezierPath(p, p, steps)` returns a path of steps + 1 points
whose first and last points equal p exactly and whose other points equal p up
to rounding: each coordinate differs from that of p by at most 2^-47 of its
magnitude, so that its truncation, the position at which the playback places
the pointer, is the coordinate of p or the integer next to it on the side of 0. -/
theorem generateBezierPath64_degenerate (sqrt : ℚ → ℚ) (hsqrt : sqrt 0 = 0) (g : Rng ℚ)
    (p : QPoint) (steps : Int) (hsteps : 1 ≤ steps) (hmax : steps < INT_MAX)
    (hpx : INT_MIN ≤ p.x ∧ p.x ≤ INT_MAX) (hpy : INT_MIN ≤ p.y ∧ p.y ≤ INT_MAX) :
    ∃ path g1, generateBezierPath64 sqrt g p p steps = some (path, g1)
      ∧ path.length = steps.toNat + 1
      ∧ path[0]? = some ⟨(p.x : ℚ), (p.y : ℚ)⟩
      ∧ path[steps.toNat]? = some ⟨(p.x : ℚ), (p.y : ℚ)⟩
      ∧ ∀ (i : Nat) (pt : BezierPoint ℚ), path[i]? = some pt →
          |pt.x - (p.x : ℚ)| ≤ |(p.x : ℚ)| / 2 ^ (47 : Nat)
          ∧ |pt.y - (p.y : ℚ)| ≤ |(p.y : ℚ)| / 2 ^ (47 : Nat)
          ∧ (0 ≤ p.x → p.x - 1 ≤ pt.toQPoint.x ∧ pt.toQPoint.x ≤ p.x)
          ∧ (p.x ≤ 0 → p.x ≤ pt.toQPoint.x ∧ pt.toQPoint.x ≤ p.x + 1)
          ∧ (0 ≤ p.y → p.y - 1 ≤ pt.toQPoint.y ∧ pt.toQPoint.y ≤ p.y)
          ∧ (p.y ≤ 0 → p.y ≤ pt.toQPoint.y ∧ pt.toQPoint.y ≤ p.y + 1) := by
  have hx := rnd64_int p.x hpx
  have hy := rnd64_int p.y hpy
  have hlen : (steps + 1).toNat = steps.toNat + 1 := by omega
  have hpt : ∀ (i : Nat) (pt : BezierPoint ℚ),
      ((List.range (steps + 1).toNat).map
        (fun (i : Nat) => bezierPoint64 (fdiv ((i : Int) : ℚ) (steps : ℚ))
          ⟨(p.x : ℚ), (p.y : ℚ)⟩ ⟨(p.x : ℚ), (p.y : ℚ)⟩
          ⟨(p.x : ℚ), (p.y : ℚ)⟩ ⟨(p.x : ℚ), (p.y : ℚ)⟩))[i]? = some pt →
      (i : Int) ≤ steps
      ∧ pt = bezierPoint64 (fdiv ((i : Int) : ℚ) (steps : ℚ))
          ⟨(p.x : ℚ), (p.y : ℚ)⟩ ⟨(p.x : ℚ), (p.y : ℚ)⟩
          ⟨(p.x : ℚ), (p.y : ℚ)⟩ ⟨(p.x : ℚ), (p.y : ℚ)⟩ := by
    intro i pt h
    rw [List.getElem?_map] at h
    cases hr : (List.range (steps + 1).toNat)[i]? with
    | none => rw [hr] at h; exact absurd h (by simp)
    | some j =>
      rw [hr] at h
      obtain ⟨hj, hlt⟩ : j = i ∧ i < (steps + 1).toNat := by
        rw [List.getElem?_eq_some_iff] at hr
        obtain ⟨hlt, hv⟩ := hr
        rw [List.length_range] at hlt
        rw [List.getElem_range] at hv
        exact ⟨hv.symm, hlt⟩
      subst hj
      simp only [Option.map_some', Option.some.injEq] at h
      exact ⟨by omega, h.symm⟩
  have hget : ∀ (i : Nat), (i : Int) ≤ steps →
      ((List.range (steps + 1).toNat).map
        (fun (i : Nat) => bezierPoint64 (fdiv ((i : Int) : ℚ) (steps : ℚ))
          ⟨(p.x : ℚ), (p.y : ℚ)⟩ ⟨(p.x : ℚ), (p.y : ℚ)⟩
          ⟨(p.x : ℚ), (p.y : ℚ)⟩ ⟨(p.x : ℚ), (p.y : ℚ)⟩))[i]?
        = some (bezierPoint64 (fdiv ((i : Int) : ℚ) (steps : ℚ))
          ⟨(p.x : ℚ), (p.y : ℚ)⟩ ⟨(p.x : ℚ), (p.y : ℚ)⟩
          ⟨(p.x : ℚ), (p.y : ℚ)⟩ ⟨(p.x : ℚ), (p.y : ℚ)⟩) := by
    intro i hi
    rw [List.getElem?_map, List.getElem?_range (by omega)]
    rfl
  refine ⟨_, _, generateBezierPath64_same sqrt hsqrt g p steps hsteps hmax hpx hpy, ?_, ?_, ?_, ?_⟩
  · rw [List.length_map, List.length_range, hlen]
  · rw [hget 0 (by omega), (pathParam64 0 steps hsteps (by omega)).2.1 rfl, bezierPoint64_same,
      bezierSum64_exact 0 _ hx (Or.inl rfl), bezierSum64_exact 0 _ hy (Or.inl rfl)]
  · have hcast : ((steps.toNat : Nat) : Int) = steps := by omega
    rw [hget steps.toNat (by omega),
      (pathParam64 steps.toNat steps hsteps (by omega)).2.2 hcast, bezierPoint64_same,
      bezierSum64_exact 1 _ hx (Or.inr (Or.inl rfl)),
      bezierSum64_exact 1 _ hy (Or.inr (Or.inl rfl))]
  · intro i pt h
    obtain ⟨hi, rfl⟩ := hpt i pt h
    obtain ⟨⟨t0, t1⟩, _, _⟩ := pathParam64 i steps hsteps hi
    rw [bezierPoint64_same]
    obtain ⟨x1, x2, x3⟩ := bezierSum64_near _ p.x t0 t1 hpx
    obtain ⟨y1, y2, y3⟩ := bezierSum64_near _ p.y t0 t1 hpy
    exact ⟨x1, y1, x2, x3, y2, y3⟩


/-- C11 on the point (7, 3) with 10 steps in binary64: the path has 11 points,
the first and the last are (7, 3), and the playback position of every point is
(7, 3) or (6, 2) or mixed from them. -/
theorem generateBezierPath64_degenerate_witness :
    qsqrt 0 = 0
    ∧ ∃ path g1, generateBezierPath64 qsqrt constHalf ⟨7, 3⟩ ⟨7, 3⟩ 10 = some (path, g1)
      ∧ path.length = 11
      ∧ path[0]? = some ⟨((7 : Int) : ℚ), ((3 : Int) : ℚ)⟩
      ∧ path[10]? = some ⟨((7 : Int) : ℚ), ((3 : Int) : ℚ)⟩
      ∧ ∀ (i : Nat) (pt : BezierPoint ℚ), path[i]? = some pt →
          (6 ≤ pt.toQPoint.x ∧ pt.toQPoint.x ≤ 7) ∧ (2 ≤ pt.toQPoint.y ∧ pt.toQPoint.y ≤ 3) := by
  obtain ⟨path, g1, h1, h2, h3, h4, h5⟩ :=
    generateBezierPath64_degenerate qsqrt qsqrt_zero constHalf ⟨7, 3⟩ 10 (by decide) (by decide)
      (by decide) (by decide)
  refine ⟨qsqrt_zero, path, g1, h1, h2, h3, h4, ?_⟩
  intro i pt h
  obtain ⟨_, _, x, _, y, _⟩ := h5 i pt h
  exact ⟨x (by decide), y (by decide)⟩

/-- C11 as stated fails: in binary64 the path from (7, 3) to (7, 3) with 10 steps
has the point (6.999999999999998, 2.9999999999999996) at index 3, which is not
(7, 3), and the playback places the pointer at (6, 2) for it; and for the step
count `INT_MAX` the loop `for (int i = 0; i <= steps; ++i)` has no `int` at
which it ends, and no path is returned. -/
theorem generateBezierPath64_degenerate_not_constant :
    (∃ path g1, generateBezierPath64 qsqrt constHalf ⟨7, 3⟩ ⟨7, 3⟩ 10 = some (path, g1)
      ∧ path[3]? = some ⟨(3940649673949183 / 562949953421312), (6755399441055743 / 2251799813685248)⟩
      ∧ (⟨(3940649673949183 / 562949953421312), (6755399441055743 / 2251799813685248)⟩ : BezierPoint ℚ) ≠ ⟨7, 3⟩
      ∧ BezierPoint.toQPoint (⟨(3940649673949183 / 562949953421312), (6755399441055743 / 2251799813685248)⟩ : BezierPoint ℚ) = ⟨6, 2⟩)
    ∧ generateBezierPath64 qsqrt constHalf ⟨7, 3⟩ ⟨7, 3⟩ INT_MAX = none := by
  have hsame := generateBezierPath64_same qsqrt qsqrt_zero constHalf ⟨7, 3⟩ 10 (by decide)
    (by decide) (by decide) (by decide)
  refine ⟨⟨_, _, hsame, ?_, ?_, ?_⟩,
    (generateBezierPath64_some qsqrt constHalf ⟨7, 3⟩ ⟨7, 3⟩ INT_MAX).2 (le_refl _)⟩
  · rw [List.getElem?_map, List.getElem?_range (by decide)]
    have e1 : fdiv (((3 : Nat) : Int) : ℚ) ((10 : Int) : ℚ) = (5404319552844595 / 18014398509481984) := by
      unfold fdiv
      have : (((3 : Nat) : Int) : ℚ) / ((10 : Int) : ℚ) = 3 / 10 := by norm_num
      rw [this, rnd64_three_tenths_eq]
    have e7 : (((⟨7, 3⟩ : QPoint).x : Int) : ℚ) = 7 := by norm_num
    have e3 : (((⟨7, 3⟩ : QPoint).y : Int) : ℚ) = 3 := by norm_num
    simp only [Option.map_some', e1, e7, e3, bezierPoint64_seven_three]
  · intro h
    have := congrArg BezierPoint.x h
    norm_num at this
  · unfold BezierPoint.toQPoint
    rw [truncToInt_eval (3940649673949183 / 562949953421312) 6 (by norm_num) (by norm_num) (by norm_num),
      truncToInt_eval (6755399441055743 / 2251799813685248) 2 (by norm_num) (by norm_num) (by norm_num)]

end Theorems

end NN11
